import Mathlib

/-!
# Stride ante handler and RedeemStake: a shallow embedding

Embedding of `app/ante_handler.go` (the dispatcher `NewAnteHandler`, the native
decorator chain built by `newCosmosAnteHandler`, and the EVM pipeline
`EVMMonoDecorator.AnteHandle`) and of `x/stakeibc/keeper/msg_server_redeem_stake.go`.

Conventions of the embedding:

* a Go interface or pointer value that may be `nil` is an `Option`;
* persistent state (the stores reached through the context) is an explicit world
  value `w : σ`, threaded through every call that receives the context;
* every call into a collaborator that can fail or write is recorded in a trace of
  events, so that "this step ran" and "the next handler was invoked" are observable;
* a Go `panic` is the `panicked` constructor of `Outcome`.
-/

namespace Stride

/-! ## Errors -/

/-- Registered root errors that the embedded code wraps or that the modelled
collaborators return. `external` stands for any other registered error. -/
inductive ErrKind where
  | ErrUnknownExtensionOptions
  | ErrUnknownRequest
  | ErrLogic
  | ErrUnknownAddress
  | ErrInvalidAddress
  | ErrInvalidCoins
  | ErrInvalidHostZone
  | ErrInvalidAmount
  | ErrEpochNotFound
  | ErrRedemptionAlreadyExists
  | ErrEpochUnbondingRecordNotFound
  | nonceMismatch
  | balanceInsufficient
  | feeMismatch
  | external (code : Nat)
  deriving DecidableEq, Repr

/-- An error value: a registered root error and the messages wrapped around it,
outermost first. -/
structure Error where
  kind : ErrKind
  context : List String
  deriving DecidableEq, Repr

/-- The function `errorsmod.Wrap` / `errorsmod.Wrapf` applied to a registered root error. -/
def Wrapf (kind : ErrKind) (msg : String) : Error := ⟨kind, [msg]⟩

/-- The function `errorsmod.Wrapf` applied to an error value: same root, one more message. -/
def Error.Wrapf (e : Error) (msg : String) : Error := ⟨e.kind, msg :: e.context⟩

deriving instance DecidableEq for Except

/-- Value carried by a Go panic. -/
inductive PanicValue where
  | err (e : Error)
  | nilDereference
  deriving DecidableEq, Repr

/-- Outcome of a Go call that may panic instead of returning. -/
inductive Outcome (α : Type) where
  | returned (a : α)
  | panicked (p : PanicValue)

/-! ## Go values -/

/-- A Go interface or pointer value held only as a handle: `none` is `nil`. -/
abbrev Ref := Option Nat

/-- Addresses (`sdk.AccAddress`, `common.Address`), identified with the hex string
that denotes them. -/
abbrev Address := String

/-- The 18-decimal fixed-point type `sdkmath.LegacyDec`, as its integer mantissa. -/
abbrev LegacyDec := Int

/-- The function `sdkmath.LegacyNewDecFromBigInt`. -/
def LegacyNewDecFromBigInt (i : Int) : LegacyDec := i * 10 ^ 18

/-- The type `codectypes.Any`. -/
structure Any where
  TypeUrl : String
  Value : List Nat
  deriving DecidableEq, Repr

/-- The constant `ethtypes.DynamicFeeTxType`. -/
def DynamicFeeTxType : Nat := 2

/-- The decoded `evmtypes.TxData` of an EVM message. `GasPrice` is the declared
price (the fee cap for a dynamic-fee message). -/
structure TxData where
  Kind : Nat
  Nonce : Nat
  Gas : Nat
  GasPrice : Int
  GasTipCap : Int
  Value : Int
  deriving DecidableEq, Repr

def TxData.TxType (d : TxData) : Nat := d.Kind

def TxData.GetGas (d : TxData) : Nat := d.Gas

def TxData.GetNonce (d : TxData) : Nat := d.Nonce

/-- Modelled from the spec: `txData.Fee()` of the missing `evmtypes.TxData`:
"declared fee = price × gas". -/
def TxData.Fee (d : TxData) : Int := d.GasPrice * (d.Gas : Int)

/-- Modelled from the spec: `txData.Cost()` of the missing `evmtypes.TxData`:
"value + maximum possible fee". -/
def TxData.Cost (d : TxData) : Int := d.Value + d.Fee

/-- The type `evmtypes.MsgEthereumTx`. -/
structure MsgEthereumTx where
  Data : TxData
  From : String
  Hash : String
  deriving DecidableEq, Repr

/-- The method `MsgEthereumTx.GetFrom`. -/
def MsgEthereumTx.GetFrom (m : MsgEthereumTx) : Address := m.From

/-- The function `common.HexToAddress`. -/
def HexToAddress (s : String) : Address := s

/-- A value of interface type `sdk.Msg`. -/
inductive Msg where
  | ethereumTx (m : MsgEthereumTx)
  | other (typeURL : String)
  deriving DecidableEq, Repr

/-- The type `txtypes.Fee`: declared total fee and gas limit. -/
structure Fee where
  Amount : Int
  GasLimit : Nat
  deriving DecidableEq, Repr

/-- A non-nil value of interface type `sdk.Tx`. `ExtensionOptions` is `none` when the
dynamic type does not implement `authante.HasExtensionOptionsTx`. -/
structure Tx where
  Msgs : List Msg
  ExtensionOptions : Option (List Any)
  AuthInfoFee : Fee
  Raw : List Nat
  deriving DecidableEq, Repr

def Tx.GetMsgs (tx : Tx) : List Msg := tx.Msgs

/-- The type `sdk.Context`, reduced to the two mode flags the embedded code reads; `rest`
stands for every other field (gas meter, priority, header, event manager). -/
structure Context where
  checkTx : Bool
  recheckTx : Bool
  rest : Nat
  deriving DecidableEq, Repr

def Context.IsCheckTx (c : Context) : Bool := c.checkTx

def Context.IsReCheckTx (c : Context) : Bool := c.recheckTx

/-! ## Handler configuration and decorators -/

/-- The type `wasmtypes.WasmConfig`. -/
structure WasmConfig where
  SimulationGasLimit : Option Nat
  deriving DecidableEq, Repr

/-- The type `wasmkeeper.Keeper`. -/
structure WasmKeeper where
  gasRegister : Nat
  deriving DecidableEq, Repr

/-- The method `options.WasmKeeper.GetGasRegister()` on a `*wasmkeeper.Keeper`: a nil
pointer is dereferenced. -/
def WasmKeeper.GetGasRegister (k : Option WasmKeeper) : Outcome Nat :=
  match k with
  | none => .panicked .nilDereference
  | some k => .returned k.gasRegister

/-- The type `evmosante.HandlerOptions`, with the fields the embedded code reads. -/
structure EvmosHandlerOptions where
  AccountKeeper : Ref
  BankKeeper : Ref
  DistributionKeeper : Ref
  StakingKeeper : Ref
  FeeMarketKeeper : Ref
  EvmKeeper : Ref
  FeegrantKeeper : Ref
  ExtensionOptionChecker : Ref
  SignModeHandler : Ref
  SigGasConsumer : Ref
  MaxTxGasWanted : Nat
  TxFeeChecker : Ref
  deriving DecidableEq, Repr

set_option linter.dupNamespace false in
/-- The type `HandlerOptions` of `app/ante_handler.go`; the embedded struct is the field
`HandlerOptions`. -/
structure HandlerOptions where
  HandlerOptions : EvmosHandlerOptions
  IBCKeeper : Ref
  ConsumerKeeper : Ref
  WasmConfig : Option WasmConfig
  WasmKeeper : Option WasmKeeper
  TXCounterStoreKey : Ref
  deriving DecidableEq, Repr

/-- The type `EVMMonoDecorator`. -/
structure EVMMonoDecorator where
  accountKeeper : Ref
  bankKeeper : Ref
  feeMarketKeeper : Ref
  evmKeeper : Ref
  distributionKeeper : Ref
  stakingKeeper : Ref
  maxGasWanted : Nat
  deriving DecidableEq, Repr

/-- The value `sdk.MsgTypeURL(&evmtypes.MsgEthereumTx{})`. -/
def MsgEthereumTxTypeURL : String := "/ethermint.evm.v1.MsgEthereumTx"

/-- The value `authante.DefaultSigVerificationGasConsumer`, as a handle. -/
def DefaultSigVerificationGasConsumer : Ref := some 0

/-- Values of interface type `sdk.AnteDecorator` that the embedded code constructs, each
with the arguments its constructor received. -/
inductive AnteDecorator where
  | RejectMessagesDecorator
  | AuthzLimiterDecorator (disabled : List String)
  | SetUpContextDecorator
  | LimitSimulationGasDecorator (gasLimit : Option Nat)
  | CountTXDecorator (storeKey : Ref)
  | GasRegisterDecorator (gasRegister : Nat)
  | ExtensionOptionsDecorator (checker : Ref)
  | DisabledModulesDecorator (prefixes : List String)
  | ValidateBasicDecorator
  | TxTimeoutHeightDecorator
  | ValidateMemoDecorator (ak : Ref)
  | ConsumeGasForTxSizeDecorator (ak : Ref)
  | DeductFeeDecorator (ak bk fk tfc : Ref)
  | SetPubKeyDecorator (ak : Ref)
  | ValidateSigCountDecorator (ak : Ref)
  | SigGasConsumeDecorator (ak consumer : Ref)
  | SigVerificationDecorator (ak signModeHandler : Ref)
  | IncrementSequenceDecorator (ak : Ref)
  | RedundantRelayDecorator (ibcKeeper : Ref)
  | GasWantedDecorator (evmKeeper feeMarketKeeper : Ref)
  | EVMMonoDecorator (md : EVMMonoDecorator)
  deriving DecidableEq, Repr

/-- The check units of the native chain, by what they do. -/
inductive CheckUnit where
  | rejectEvmWrappers
  | authzLimiter
  | contextSetup
  | simulationGasBound
  | txCounter
  | wasmGasRegister
  | extensionOptions
  | disabledModules
  | validateBasic
  | timeoutHeight
  | memo
  | txSizeGas
  | feeDeduction
  | pubkeyResolution
  | signerCount
  | signatureGas
  | signatureVerification
  | sequenceIncrement
  | redundantRelay
  | gasWanted
  | evmPipeline
  deriving DecidableEq, Repr

/-- The check unit a decorator value implements. -/
def AnteDecorator.unit : AnteDecorator → CheckUnit
  | .RejectMessagesDecorator => .rejectEvmWrappers
  | .AuthzLimiterDecorator _ => .authzLimiter
  | .SetUpContextDecorator => .contextSetup
  | .LimitSimulationGasDecorator _ => .simulationGasBound
  | .CountTXDecorator _ => .txCounter
  | .GasRegisterDecorator _ => .wasmGasRegister
  | .ExtensionOptionsDecorator _ => .extensionOptions
  | .DisabledModulesDecorator _ => .disabledModules
  | .ValidateBasicDecorator => .validateBasic
  | .TxTimeoutHeightDecorator => .timeoutHeight
  | .ValidateMemoDecorator _ => .memo
  | .ConsumeGasForTxSizeDecorator _ => .txSizeGas
  | .DeductFeeDecorator _ _ _ _ => .feeDeduction
  | .SetPubKeyDecorator _ => .pubkeyResolution
  | .ValidateSigCountDecorator _ => .signerCount
  | .SigGasConsumeDecorator _ _ => .signatureGas
  | .SigVerificationDecorator _ _ => .signatureVerification
  | .IncrementSequenceDecorator _ => .sequenceIncrement
  | .RedundantRelayDecorator _ => .redundantRelay
  | .GasWantedDecorator _ _ => .gasWanted
  | .EVMMonoDecorator _ => .evmPipeline

/-- A value of type `sdk.AnteHandler` returned by `sdk.ChainAnteDecorators`: the closure
over the decorator chain it was given. -/
structure AnteHandler where
  chain : List AnteDecorator
  deriving DecidableEq, Repr

/-- The function `sdk.ChainAnteDecorators`, as the closure it builds (run by `runChain`). -/
def ChainAnteDecorators (chain : List AnteDecorator) : AnteHandler := ⟨chain⟩

/-- The function `newEvmMonoDecorator`. -/
def newEvmMonoDecorator (ak bk fk ek dk sk : Ref) (maxGasWanted : Nat) : AnteDecorator :=
  .EVMMonoDecorator
    { accountKeeper := ak
      bankKeeper := bk
      feeMarketKeeper := fk
      evmKeeper := ek
      distributionKeeper := dk
      stakingKeeper := sk
      maxGasWanted := maxGasWanted }

/-- The function `newEvmAnteHandler`. -/
def newEvmAnteHandler (options : EvmosHandlerOptions) : AnteHandler :=
  ChainAnteDecorators
    [newEvmMonoDecorator options.AccountKeeper options.BankKeeper options.FeeMarketKeeper
      options.EvmKeeper options.DistributionKeeper options.StakingKeeper options.MaxTxGasWanted]

/-- The slice literal `anteDecorators` of `newCosmosAnteHandler`, given the dereferenced
wasm config, the gas register obtained from the wasm keeper, and the chosen
signature gas consumer. -/
def anteDecorators (options : HandlerOptions) (wasmConfig : WasmConfig) (gasRegister : Nat)
    (sigGasConsumer : Ref) : List AnteDecorator :=
  [ .RejectMessagesDecorator,
    .AuthzLimiterDecorator [MsgEthereumTxTypeURL],
    .SetUpContextDecorator,
    .LimitSimulationGasDecorator wasmConfig.SimulationGasLimit,
    .CountTXDecorator options.TXCounterStoreKey,
    .GasRegisterDecorator gasRegister,
    .ExtensionOptionsDecorator options.HandlerOptions.ExtensionOptionChecker,
    .DisabledModulesDecorator ["/cosmos.evidence", "/cosmos.slashing"],
    .ValidateBasicDecorator,
    .TxTimeoutHeightDecorator,
    .ValidateMemoDecorator options.HandlerOptions.AccountKeeper,
    .ConsumeGasForTxSizeDecorator options.HandlerOptions.AccountKeeper,
    .DeductFeeDecorator options.HandlerOptions.AccountKeeper options.HandlerOptions.BankKeeper
      options.HandlerOptions.FeegrantKeeper options.HandlerOptions.TxFeeChecker,
    .SetPubKeyDecorator options.HandlerOptions.AccountKeeper,
    .ValidateSigCountDecorator options.HandlerOptions.AccountKeeper,
    .SigGasConsumeDecorator options.HandlerOptions.AccountKeeper sigGasConsumer,
    .SigVerificationDecorator options.HandlerOptions.AccountKeeper
      options.HandlerOptions.SignModeHandler,
    .IncrementSequenceDecorator options.HandlerOptions.AccountKeeper,
    .RedundantRelayDecorator options.IBCKeeper,
    .GasWantedDecorator options.HandlerOptions.EvmKeeper options.HandlerOptions.FeeMarketKeeper ]

/-- The function `newCosmosAnteHandler`: the five nil checks in source order, the choice
of the signature gas consumer, then the decorator slice (whose sixth element
dereferences `options.WasmKeeper`) handed to `sdk.ChainAnteDecorators`. -/
def newCosmosAnteHandler (options : HandlerOptions) : Outcome (Except Error AnteHandler) :=
  if options.HandlerOptions.AccountKeeper = none then
    .returned (.error (Wrapf .ErrLogic "account keeper is required for AnteHandler"))
  else if options.HandlerOptions.BankKeeper = none then
    .returned (.error (Wrapf .ErrLogic "bank keeper is required for AnteHandler"))
  else if options.HandlerOptions.SignModeHandler = none then
    .returned (.error (Wrapf .ErrLogic "sign mode handler is required for ante builder"))
  else
    match options.WasmConfig with
    | none => .returned (.error (Wrapf .ErrLogic "wasm config is required for ante builder"))
    | some wasmConfig =>
      if options.TXCounterStoreKey = none then
        .returned (.error (Wrapf .ErrLogic "tx counter key is required for ante builder"))
      else
        let sigGasConsumer :=
          if options.HandlerOptions.SigGasConsumer = none then DefaultSigVerificationGasConsumer
          else options.HandlerOptions.SigGasConsumer
        match WasmKeeper.GetGasRegister options.WasmKeeper with
        | .panicked p => .panicked p
        | .returned gasRegister =>
          .returned (.ok (ChainAnteDecorators
            (anteDecorators options wasmConfig gasRegister sigGasConsumer)))

/-! ## The EVM pipeline: data -/

/-- The type `evmante.FeeMarketKeeper` rule flags read from `decUtils.Rules`. -/
structure Rules where
  IsHomestead : Bool
  IsIstanbul : Bool
  IsLondon : Bool
  deriving DecidableEq, Repr

/-- The EVM parameters read from `decUtils.EvmParams`. -/
structure EvmParams where
  AllowUnprotectedTxs : Bool
  other : Nat
  deriving DecidableEq, Repr

/-- The read-only fields of `evmante.DecoratorUtils`, captured once per transaction. -/
structure UtilsContext where
  EvmParams : EvmParams
  EthConfig : Nat
  Rules : Rules
  Signer : Nat
  BaseFee : Option Int
  EvmDenom : String
  MempoolMinGasPrice : LegacyDec
  GlobalMinGasPrice : LegacyDec
  BlockTxIndex : Nat
  deriving DecidableEq, Repr

/-- The type `evmante.DecoratorUtils`: the read-only fields and the four accumulators. -/
structure DecoratorUtils extends UtilsContext where
  TxGasLimit : Nat
  GasWanted : Nat
  MinPriority : Int
  TxFee : Int
  deriving DecidableEq, Repr

/-- Result of `evmtypes.UnpackEthMsg`. -/
structure Unpacked where
  ethMsg : MsgEthereumTx
  txData : TxData
  sender : Address
  deriving DecidableEq, Repr

/-- The EVM-side account returned by `evmKeeper.GetAccount`. -/
structure EvmAccount where
  Balance : Int
  CodeHash : Nat
  deriving DecidableEq, Repr

/-- An account of the general account store. -/
structure Account where
  Address : Address
  Sequence : Nat
  deriving DecidableEq, Repr

/-- The type `evmante.ConsumeGasKeepers`. -/
structure ConsumeGasKeepers where
  Bank : Ref
  Distribution : Ref
  Evm : Ref
  Staking : Ref
  deriving DecidableEq, Repr

/-- Steps of the per-message loop of `EVMMonoDecorator.AnteHandle`. -/
inductive MsgStep where
  | UnpackEthMsg
  | CheckMempoolFee
  | CheckGlobalFee
  | ValidateMsg
  | SignatureVerification
  | VerifyAccountBalance
  | AsMessage
  | CanTransfer
  | VerifyFee
  | ConsumeFeesAndEmitEvent
  | GetAccount
  | IncrementNonce
  | CheckGasWanted
  | EmitTxHashEvent
  deriving DecidableEq, Repr

/-- Steps of one pass of `EVMMonoDecorator.AnteHandle`. -/
inductive Step where
  | ValidateTx
  | SetupContext
  | NewMonoDecoratorUtils
  | msg (i : Nat) (s : MsgStep)
  | CheckTxFee
  | CheckBlockGasLimit
  deriving DecidableEq, Repr

/-- Observable events of a run: a pipeline step with the error it returned (if any), the
delegation to the next-stage handler, and the chain runner entering a decorator. -/
inductive Event where
  | step (s : Step) (err : Option Error)
  | next (tx : Tx) (simulate : Bool)
  | enter (d : AnteDecorator)
  deriving DecidableEq, Repr

/-- What a handler call returns: the `(sdk.Context, error)` pair, the world it leaves and
the events of the call. -/
structure Ret (σ : Type) where
  ctx : Context
  err : Option Error
  world : σ
  trace : List Event

/-- A value of type `sdk.AnteHandler` as a function of the world. -/
abbrev Handler (σ : Type) := Context → Tx → Bool → σ → Ret σ

/-- The collaborators of the pipeline that are not part of this repository (the `evmante`,
`evmtypes`, `evmkeeper` functions, the keepers, and the `AnteHandle` methods of the SDK
decorators), with the argument lists they have in the source. A function that
receives the context or a keeper reads and may write the world. -/
structure Collaborators (σ : Type) where
  ValidateTx : Tx → Except Error (Option Fee)
  SetupContext : Context → Tx → Ref → σ → (Context × Option Error) × σ
  utilsContext : Context → Ref → Ref → σ → Except Error UtilsContext × σ
  UnpackEthMsg : Msg → Except Error Unpacked
  CheckMempoolFee : LegacyDec → LegacyDec → LegacyDec → Bool → Option Error
  EffectiveFee : TxData → Int → Int
  CheckGlobalFee : LegacyDec → LegacyDec → LegacyDec → Option Error
  ValidateMsg : EvmParams → TxData → Address → Option Error
  SignatureVerification : MsgEthereumTx → Nat → Bool → Except Error MsgEthereumTx
  EvmGetAccount : Ref → Context → Address → σ → EvmAccount
  AsMessage : MsgEthereumTx → Nat → Option Int → Except Error Nat
  CanTransfer : Context → Ref → Nat → Option Int → Nat → EvmParams → Bool → σ → Option Error × σ
  VerifyFee : TxData → String → Option Int → Bool → Bool → Bool → Except Error Int
  ConsumeFeesAndEmitEvent : Context → ConsumeGasKeepers → Int → Address → σ → Option Error × σ
  GetMsgPriority : TxData → Int → Option Int → Int
  GetAccount : Ref → Context → Address → σ → Option Account
  SetAccount : Ref → Context → Account → σ → σ
  CheckGasWanted : Context → Ref → Tx → Bool → σ → Option Error × σ
  EmitTxHashEvent : Context → MsgEthereumTx → Nat → Nat → σ → σ
  CheckBlockGasLimit : Context → Nat → Int → Context × Option Error
  sdkAnteHandle : AnteDecorator → Context → Tx → Bool → Handler σ → σ → Ret σ

/-! ## Collaborator functions modelled from the spec -/

/-- The constant `math.MaxInt64`. -/
def MaxInt64 : Int := 9223372036854775807

/-- Modelled from the spec: the missing `evmante.NewMonoDecoratorUtils`: the read-only
fields are derived once per transaction, the cumulative accumulators start at zero
and the running minimum priority at the largest priority. -/
def NewMonoDecoratorUtils {σ : Type} (env : Collaborators σ) (ctx : Context) (ek fk : Ref)
    (w : σ) : Except Error DecoratorUtils × σ :=
  match (env.utilsContext ctx ek fk w).1 with
  | .error e => (.error e, (env.utilsContext ctx ek fk w).2)
  | .ok u =>
    (.ok { toUtilsContext := u, TxGasLimit := 0, GasWanted := 0,
           MinPriority := MaxInt64, TxFee := 0 },
     (env.utilsContext ctx ek fk w).2)

/-- Modelled from the spec: the missing `evmante.VerifyAccountBalance`: "confirm its balance
covers value + maximum possible fee; insufficient funds fail with a balance error".
Of the arguments in the source (context, account keeper, account, address, tx data)
the check reads the account and the tx data. -/
def VerifyAccountBalance (account : EvmAccount) (txData : TxData) : Option Error :=
  if account.Balance < txData.Cost then
    some (Wrapf .balanceInsufficient "sender balance < tx cost")
  else none

/-- Modelled from the spec: the missing `evmante.UpdateCumulativeGasWanted`: "cumulative
gas-wanted = min(configured max, cumulative + this message's gas)", in the arithmetic
of the natural numbers as the spec states it. Of the arguments in the source the
context is not read. -/
def UpdateCumulativeGasWanted (msgGasWanted maxTxGasWanted cumulativeGasWanted : Nat) : Nat :=
  min maxTxGasWanted (cumulativeGasWanted + msgGasWanted)

/-- Modelled from the spec: the missing `evmante.UpdateCumulativeTxFee`: "cumulative declared
fee += this message's fee", as an amount in the fee denomination. -/
def UpdateCumulativeTxFee (cumulativeTxFee msgFee : Int) : Int :=
  cumulativeTxFee + msgFee

/-- Modelled from the spec: the missing `evmante.IncrementNonce`: "increment its sequence
number by exactly 1, and fail with a nonce-mismatch error if the message's declared
nonce does not equal the account's current sequence". -/
def IncrementNonce {σ : Type} (env : Collaborators σ) (ctx : Context) (ak : Ref)
    (account : Account) (txNonce : Nat) (w : σ) : Option Error × σ :=
  if txNonce ≠ account.Sequence then
    (some (Wrapf .nonceMismatch "invalid nonce"), w)
  else
    (none, env.SetAccount ak ctx { account with Sequence := account.Sequence + 1 } w)

/-- Modelled from the spec: the missing `evmante.CheckTxFee`: "If FeeInfo was extracted in
the structural check, verify it is consistent with the accumulator's cumulative fee
and gas limit; mismatch fails with a fee-mismatch error". -/
def CheckTxFee (txFeeInfo : Option Fee) (txFee : Int) (txGasLimit : Nat) : Option Error :=
  match txFeeInfo with
  | none => none
  | some fee =>
    if fee.Amount = txFee ∧ fee.GasLimit = txGasLimit then none
    else some (Wrapf .feeMismatch "invalid AuthInfo Fee")

/-! ## The EVM pipeline: one pass -/

/-- Result of running part of a pass: the value or the `(ctx, err)` pair the pass returns
with, the world, and the events so far. -/
structure PassRes (σ α : Type) where
  val : Except (Context × Error) α
  world : σ
  trace : List Event

/-- A part of a pass: a computation over the world that may return early with
`(ctx, err)` and records its steps. -/
def Pass (σ α : Type) : Type := σ → PassRes σ α

def Pass.pure {σ α : Type} (a : α) : Pass σ α := fun w => ⟨.ok a, w, []⟩

def Pass.bind {σ α β : Type} (m : Pass σ α) (f : α → Pass σ β) : Pass σ β := fun w =>
  match (m w).val with
  | .ok a => ⟨(f a (m w).world).val, (f a (m w).world).world, (m w).trace ++ (f a (m w).world).trace⟩
  | .error e => ⟨.error e, (m w).world, (m w).trace⟩

instance {σ : Type} : Monad (Pass σ) where
  pure := Pass.pure
  bind := Pass.bind

/-- One recorded step: runs `f`; on an error the pass returns with it. -/
def step {σ α : Type} (s : Step) (f : σ → Except (Context × Error) α × σ) : Pass σ α := fun w =>
  match (f w).1 with
  | .ok a => ⟨.ok a, (f w).2, [.step s none]⟩
  | .error e => ⟨.error e, (f w).2, [.step s (some e.2)]⟩

/-- A step `x, err := f(...); if err != nil { return ctx, err }`. -/
def call {σ α : Type} (s : Step) (ctx : Context) (f : σ → Except Error α × σ) : Pass σ α :=
  step s (fun w =>
    (match (f w).1 with
     | .ok a => .ok a
     | .error e => .error (ctx, e), (f w).2))

/-- A step `if err := f(...); err != nil { return ctx, err }`. -/
def check {σ : Type} (s : Step) (ctx : Context) (f : σ → Option Error × σ) : Pass σ Unit :=
  step s (fun w =>
    (match (f w).1 with
     | none => .ok ()
     | some e => .error (ctx, e), (f w).2))

/-- A step `ctx, err = f(...); if err != nil { return ctx, err }`. -/
def callCtx {σ : Type} (s : Step) (f : σ → (Context × Option Error) × σ) : Pass σ Context :=
  step s (fun w =>
    (match (f w).1.2 with
     | none => .ok (f w).1.1
     | some e => .error ((f w).1.1, e), (f w).2))

/-- The value of the variable `fee` when `evmante.CheckGlobalFee` is called: the declared
fee, replaced by the effective fee when the message is a dynamic-fee message and a
base fee is known. -/
def globalCheckFee {σ : Type} (env : Collaborators σ) (txData : TxData) (baseFee : Option Int) :
    LegacyDec :=
  match baseFee with
  | some baseFee =>
    if txData.TxType = DynamicFeeTxType then
      LegacyNewDecFromBigInt (env.EffectiveFee txData baseFee)
    else LegacyNewDecFromBigInt txData.Fee
  | none => LegacyNewDecFromBigInt txData.Fee

/-- The body of the loop over `tx.GetMsgs()` in `EVMMonoDecorator.AnteHandle`, for the
message `msg` at index `i`, returning the updated `decUtils`. -/
def msgLoopBody {σ : Type} (env : Collaborators σ) (md : EVMMonoDecorator) (ctx : Context)
    (tx : Tx) (simulate : Bool) (i : Nat) (msg : Msg) (decUtils : DecoratorUtils) :
    Pass σ DecoratorUtils := do
  let u ← call (.msg i .UnpackEthMsg) ctx (fun w => (env.UnpackEthMsg msg, w))
  let gas := u.txData.GetGas
  let gasLimit := LegacyNewDecFromBigInt (gas : Int)
  -- 2. mempool inclusion fee
  if ctx.IsCheckTx && !simulate then
    check (.msg i .CheckMempoolFee) ctx (fun w =>
      (env.CheckMempoolFee (LegacyNewDecFromBigInt u.txData.Fee) decUtils.MempoolMinGasPrice
        gasLimit decUtils.Rules.IsLondon, w))
  -- 3. min gas price (global min fee)
  let fee := globalCheckFee env u.txData decUtils.BaseFee
  check (.msg i .CheckGlobalFee) ctx (fun w =>
    (env.CheckGlobalFee fee decUtils.GlobalMinGasPrice gasLimit, w))
  -- 4. validate msg contents
  check (.msg i .ValidateMsg) ctx (fun w =>
    (env.ValidateMsg decUtils.EvmParams u.txData u.sender, w))
  -- 5. signature verification
  let ethMsg ← call (.msg i .SignatureVerification) ctx (fun w =>
    (env.SignatureVerification u.ethMsg decUtils.Signer decUtils.EvmParams.AllowUnprotectedTxs, w))
  -- NOTE: sender address has been verified and cached
  let sender := ethMsg.GetFrom
  -- 6. account balance verification
  let fromAddr := HexToAddress ethMsg.From
  check (.msg i .VerifyAccountBalance) ctx (fun w =>
    (VerifyAccountBalance (env.EvmGetAccount md.evmKeeper ctx fromAddr w) u.txData, w))
  -- 7. can transfer
  let coreMsg ← call (.msg i .AsMessage) ctx (fun w =>
    (match env.AsMessage ethMsg decUtils.Signer decUtils.BaseFee with
     | .ok m => .ok m
     | .error err => .error (err.Wrapf "failed to create an ethereum core.Message from signer"), w))
  check (.msg i .CanTransfer) ctx
    (env.CanTransfer ctx md.evmKeeper coreMsg decUtils.BaseFee decUtils.EthConfig
      decUtils.EvmParams decUtils.Rules.IsLondon)
  -- 8. gas consumption
  let msgFees ← call (.msg i .VerifyFee) ctx (fun w =>
    (env.VerifyFee u.txData decUtils.EvmDenom decUtils.BaseFee decUtils.Rules.IsHomestead
      decUtils.Rules.IsIstanbul ctx.IsCheckTx, w))
  check (.msg i .ConsumeFeesAndEmitEvent) ctx
    (env.ConsumeFeesAndEmitEvent ctx
      { Bank := md.bankKeeper, Distribution := md.distributionKeeper,
        Evm := md.evmKeeper, Staking := md.stakingKeeper }
      msgFees sender)
  let gasWanted := UpdateCumulativeGasWanted u.txData.GetGas md.maxGasWanted decUtils.GasWanted
  let minPriority := env.GetMsgPriority u.txData decUtils.MinPriority decUtils.BaseFee
  let txFee := UpdateCumulativeTxFee decUtils.TxFee u.txData.Fee
  let decUtils : DecoratorUtils :=
    { decUtils with
      GasWanted := gasWanted, MinPriority := minPriority, TxFee := txFee,
      TxGasLimit := (decUtils.TxGasLimit + gas) % 2 ^ 64 }
  -- 10. increment sequence
  let acc ← call (.msg i .GetAccount) ctx (fun w =>
    (match env.GetAccount md.accountKeeper ctx sender w with
     | none => .error (Wrapf .ErrUnknownAddress "account <nil> does not exist")
     | some acc => .ok acc, w))
  check (.msg i .IncrementNonce) ctx
    (IncrementNonce env ctx md.accountKeeper acc u.txData.GetNonce)
  -- 11. gas wanted
  check (.msg i .CheckGasWanted) ctx
    (env.CheckGasWanted ctx md.feeMarketKeeper tx decUtils.Rules.IsLondon)
  -- 12. emit events
  check (.msg i .EmitTxHashEvent) ctx (fun w =>
    (none, env.EmitTxHashEvent ctx ethMsg decUtils.BlockTxIndex i w))
  pure decUtils

/-- The loop `for i, msg := range tx.GetMsgs()` from index `i` on. -/
def msgLoop {σ : Type} (env : Collaborators σ) (md : EVMMonoDecorator) (ctx : Context)
    (tx : Tx) (simulate : Bool) : Nat → List Msg → DecoratorUtils → Pass σ DecoratorUtils
  | _, [], decUtils => pure decUtils
  | i, msg :: rest, decUtils => do
    let decUtils ← msgLoopBody env md ctx tx simulate i msg decUtils
    msgLoop env md ctx tx simulate (i + 1) rest decUtils

/-- The method `EVMMonoDecorator.AnteHandle` up to, and without, the final
`return next(ctx, tx, simulate)`: the context and accumulator it reaches. -/
def evmPass {σ : Type} (env : Collaborators σ) (md : EVMMonoDecorator) (ctx : Context)
    (tx : Tx) (simulate : Bool) : Pass σ (Context × DecoratorUtils) := do
  let txFeeInfo ←
    if ctx.IsReCheckTx then (pure none : Pass σ (Option Fee))
    else call .ValidateTx ctx (fun w => (env.ValidateTx tx, w))
  -- 1. setup ctx
  let ctx ← callCtx .SetupContext (env.SetupContext ctx tx md.evmKeeper)
  -- 2. get utils
  let decUtils ← call .NewMonoDecoratorUtils ctx
    (NewMonoDecoratorUtils env ctx md.evmKeeper md.feeMarketKeeper)
  -- Use the lowest priority of all the messages as the final one.
  let decUtils ← msgLoop env md ctx tx simulate 0 tx.GetMsgs decUtils
  check .CheckTxFee ctx (fun w =>
    (CheckTxFee txFeeInfo decUtils.TxFee decUtils.TxGasLimit, w))
  let ctx ← callCtx .CheckBlockGasLimit (fun w =>
    (env.CheckBlockGasLimit ctx decUtils.GasWanted decUtils.MinPriority, w))
  pure (ctx, decUtils)

/-- The method `EVMMonoDecorator.AnteHandle`. -/
def EVMMonoDecorator.AnteHandle {σ : Type} (env : Collaborators σ) (md : EVMMonoDecorator)
    (ctx : Context) (tx : Tx) (simulate : Bool) (next : Handler σ) (w : σ) : Ret σ :=
  match (evmPass env md ctx tx simulate w).val with
  | .error e =>
    ⟨e.1, some e.2, (evmPass env md ctx tx simulate w).world,
      (evmPass env md ctx tx simulate w).trace⟩
  | .ok r =>
    -- handle Cosmos transactions
    ⟨(next r.1 tx simulate (evmPass env md ctx tx simulate w).world).ctx,
     (next r.1 tx simulate (evmPass env md ctx tx simulate w).world).err,
     (next r.1 tx simulate (evmPass env md ctx tx simulate w).world).world,
     (evmPass env md ctx tx simulate w).trace ++
       Event.next tx simulate ::
         (next r.1 tx simulate (evmPass env md ctx tx simulate w).world).trace⟩

/-! ## The dispatcher -/

/-- The method `AnteHandle` of a decorator value: the EVM decorator is the code above,
every other decorator is an SDK collaborator. -/
def AnteDecorator.AnteHandle {σ : Type} (env : Collaborators σ) (d : AnteDecorator)
    (ctx : Context) (tx : Tx) (simulate : Bool) (next : Handler σ) (w : σ) : Ret σ :=
  match d with
  | .EVMMonoDecorator md => md.AnteHandle env ctx tx simulate next w
  | d => env.sdkAnteHandle d ctx tx simulate next w

/-- Modelled from the spec: the runner of the missing `sdk.ChainAnteDecorators`: the units
run "in sequence", each receiving the rest of the chain as its next handler, the
last one a terminal handler that returns the context and no error. Entering a unit
is recorded. -/
def runChain {σ : Type} (env : Collaborators σ) : List AnteDecorator → Handler σ
  | [] => fun ctx _ _ w => ⟨ctx, none, w, []⟩
  | d :: rest => fun ctx tx simulate w =>
    ⟨(d.AnteHandle env ctx tx simulate (runChain env rest) w).ctx,
     (d.AnteHandle env ctx tx simulate (runChain env rest) w).err,
     (d.AnteHandle env ctx tx simulate (runChain env rest) w).world,
     Event.enter d :: (d.AnteHandle env ctx tx simulate (runChain env rest) w).trace⟩

/-- Calling a handler value built by `sdk.ChainAnteDecorators`. -/
def AnteHandler.call {σ : Type} (h : AnteHandler) (env : Collaborators σ) : Handler σ :=
  runChain env h.chain

/-- The native branch of `NewAnteHandler`: build the chain, panic on a construction
error, otherwise call it. -/
def callCosmos {σ : Type} (env : Collaborators σ) (options : HandlerOptions) (ctx : Context)
    (tx : Tx) (simulate : Bool) (w : σ) : Outcome (Ret σ) :=
  match newCosmosAnteHandler options with
  | .panicked p => .panicked p
  | .returned (.error err) => .panicked (.err err)
  | .returned (.ok anteHandler) => .returned (anteHandler.call env ctx tx simulate w)

/-- The handler returned by `NewAnteHandler(options)`. The argument `tx` is `none` for
a nil interface value, the only value that is not an `sdk.Tx`. -/
def NewAnteHandler {σ : Type} (env : Collaborators σ) (options : HandlerOptions)
    (ctx : Context) (tx : Option Tx) (simulate : Bool) (w : σ) : Outcome (Ret σ) :=
  match tx with
  | none =>
    .returned ⟨ctx, some (Wrapf .ErrUnknownRequest "invalid transaction type: <nil>"), w, []⟩
  | some tx =>
    match tx.ExtensionOptions with
    | some (opt :: _) =>
      let typeURL := opt.TypeUrl
      if typeURL = "/ethermint.evm.v1.ExtensionOptionsEthereumTx" then
        -- handle as *evmtypes.MsgEthereumTx
        .returned ((newEvmAnteHandler options.HandlerOptions).call env ctx tx simulate w)
      else if typeURL = "/ethermint.types.v1.ExtensionOptionDynamicFeeTx" then
        -- cosmos-sdk tx with dynamic fee extension
        callCosmos env options ctx tx simulate w
      else
        .returned ⟨ctx,
          some (Wrapf .ErrUnknownExtensionOptions
            ("rejecting tx with unsupported extension option: " ++ typeURL)), w, []⟩
    -- handle as totally normal Cosmos SDK tx
    | _ => callCosmos env options ctx tx simulate w

/-! ## RedeemStake -/

/-- The type `types.MsgRedeemStake`. -/
structure MsgRedeemStake where
  Creator : String
  Amount : Int
  HostZone : String
  Receiver : String
  deriving DecidableEq, Repr

/-- The type `types.MsgRedeemStakeResponse`. -/
structure MsgRedeemStakeResponse where
  deriving DecidableEq, Repr

/-- The type `types.HostZone`, with the fields `RedeemStake` reads. -/
structure HostZone where
  ChainId : String
  HostDenom : String
  StakedBal : Int
  RedemptionRate : LegacyDec
  deriving DecidableEq, Repr

/-- The type `sdk.Coin`. -/
structure Coin where
  Denom : String
  Amount : Int
  deriving DecidableEq, Repr

/-- The method `Coin.IsPositive`. -/
def Coin.IsPositive (c : Coin) : Bool := decide (0 < c.Amount)

/-- The type `types.EpochTracker`. -/
structure EpochTracker where
  EpochIdentifier : String
  EpochNumber : Nat
  deriving DecidableEq, Repr

/-- The type `recordstypes.UserRedemptionRecord`. -/
structure UserRedemptionRecord where
  Id : String
  Sender : String
  Receiver : String
  Amount : Nat
  Denom : String
  HostZoneId : String
  EpochNumber : Int
  IsClaimable : Bool
  deriving DecidableEq, Repr

/-- The type `recordstypes.HostZoneUnbonding`. -/
structure HostZoneUnbonding where
  Amount : Nat
  UserRedemptionRecords : List String
  other : Nat
  deriving DecidableEq, Repr

/-- The type `recordstypes.EpochUnbondingRecord`; the Go map `HostZoneUnbondings` is an
association list. -/
structure EpochUnbondingRecord where
  Id : Nat
  HostZoneUnbondings : List (String × HostZoneUnbonding)
  deriving DecidableEq, Repr

/-- Assignment `m[key] = value` on a Go map held as an association list. -/
def mapSet (m : List (String × HostZoneUnbonding)) (key : String) (value : HostZoneUnbonding) :
    List (String × HostZoneUnbonding) :=
  match m with
  | [] => [(key, value)]
  | (k, v) :: rest => if k = key then (key, value) :: rest else (k, v) :: mapSet rest key value

/-- The persistent writes `RedeemStake` can perform. -/
inductive Write where
  | SendCoinsFromAccountToModule (sender : Address) (moduleName : String) (coins : List Coin)
  | SetUserRedemptionRecord (r : UserRedemptionRecord)
  | SetEpochUnbondingRecord (r : EpochUnbondingRecord)
  deriving DecidableEq, Repr

/-- The keeper methods and SDK functions `RedeemStake` calls, none of them under `src/`.
Getters read the world; the bank transfer and the two setters write it. -/
structure Keeper (σ : Type) where
  AccAddressFromBech32 : String → Except Error Address
  GetHostZone : String → σ → Option HostZone
  stAmountString : Int → LegacyDec → String
  ParseCoinNormalized : String → Except Error Coin
  GetBalance : Address → String → σ → Coin
  GetEpochTracker : String → σ → Option EpochTracker
  redemptionId : String → Nat → String → String
  Uint64 : Int → Outcome Nat
  GetUserRedemptionRecord : String → σ → Option UserRedemptionRecord
  GetLatestEpochUnbondingRecord : σ → Option EpochUnbondingRecord
  SendCoinsFromAccountToModule : Address → String → List Coin → σ → Option Error × σ
  SetUserRedemptionRecord : UserRedemptionRecord → σ → σ
  SetEpochUnbondingRecord : EpochUnbondingRecord → σ → σ

/-- The conversion `int64(x)` of a `uint64`. -/
def Int64 (n : Nat) : Int :=
  if n % 2 ^ 64 < 2 ^ 63 then ((n % 2 ^ 64 : Nat) : Int) else ((n % 2 ^ 64 : Nat) : Int) - 2 ^ 64

/-- The constant `types.ModuleName`. -/
def ModuleName : String := "stakeibc"

/-- What `RedeemStake` returns: the `(response, error)` pair, the world it leaves and
the persistent writes it performed, in order. -/
structure RedeemRet (σ : Type) where
  resp : Except Error MsgRedeemStakeResponse
  world : σ
  writes : List Write

/-- The method `Keeper.RedeemStake` (log lines left out). -/
def Keeper.RedeemStake {σ : Type} (k : Keeper σ) (msg : MsgRedeemStake) (w : σ) :
    Outcome (RedeemRet σ) :=
  -- get our addresses, make sure they're valid
  match k.AccAddressFromBech32 msg.Creator with
  | .error _ =>
    .returned ⟨.error (Wrapf .ErrInvalidAddress "address is invalid"), w, []⟩
  | .ok sender =>
  -- then make sure host zone is valid
  match k.GetHostZone msg.HostZone w with
  | none => .returned ⟨.error (Wrapf .ErrInvalidHostZone "host zone is invalid"), w, []⟩
  | some hostZone =>
  if msg.Amount > hostZone.StakedBal then
    .returned ⟨.error (Wrapf .ErrInvalidAmount
      "cannot unstake an amount g.t. staked balance on host zone"), w, []⟩
  else
  -- construct desired unstaking amount from host zone
  let coinDenom := "st" ++ hostZone.HostDenom
  let coinString := k.stAmountString msg.Amount hostZone.RedemptionRate ++ coinDenom
  match k.ParseCoinNormalized coinString with
  | .error _ => .returned ⟨.error (Wrapf .ErrInvalidCoins "could not parse inCoin"), w, []⟩
  | .ok inCoin =>
  -- safety checks on the coin
  if !inCoin.IsPositive then
    .returned ⟨.error (Wrapf .ErrInvalidCoins "amount must be greater than 0"), w, []⟩
  else
  let balance := k.GetBalance sender coinDenom w
  if balance.Amount < inCoin.Amount then
    .returned ⟨.error (Wrapf .ErrInvalidCoins "balance is lower than redemption amount"), w, []⟩
  else
  -- UNBONDING RECORD KEEPING
  match k.GetEpochTracker "day" w with
  | none => .returned ⟨.error (Wrapf .ErrEpochNotFound "epoch tracker found: day"), w, []⟩
  | some epochTracker =>
  let senderAddr := sender
  let redemptionId := k.redemptionId hostZone.ChainId epochTracker.EpochNumber senderAddr
  match k.Uint64 inCoin.Amount with
  | .panicked p => .panicked p
  | .returned amount =>
  let userRedemptionRecord : UserRedemptionRecord :=
    { Id := redemptionId, Sender := senderAddr, Receiver := msg.Receiver, Amount := amount,
      Denom := hostZone.HostDenom, HostZoneId := hostZone.ChainId,
      EpochNumber := Int64 epochTracker.EpochNumber, IsClaimable := false }
  match k.GetUserRedemptionRecord redemptionId w with
  | some _ =>
    .returned ⟨.error (Wrapf .ErrRedemptionAlreadyExists "user already redeemed this epoch"),
      w, []⟩
  | none =>
  -- then add undelegation amount to epoch unbonding records
  match k.GetLatestEpochUnbondingRecord w with
  | none =>
    .returned ⟨.error (Wrapf .ErrEpochUnbondingRecordNotFound
      "latest epoch unbonding record not found"), w, []⟩
  | some epochUnbondingRecord =>
  -- get relevant host zone on this epoch unbonding record
  match epochUnbondingRecord.HostZoneUnbondings.lookup hostZone.ChainId with
  | none =>
    .returned ⟨.error (Wrapf .ErrInvalidHostZone "host zone not found in unbondings"), w, []⟩
  | some hostZoneUnbonding =>
  let hostZoneUnbonding : HostZoneUnbonding :=
    { hostZoneUnbonding with
      Amount := (hostZoneUnbonding.Amount + amount) % 2 ^ 64,
      UserRedemptionRecords :=
        hostZoneUnbonding.UserRedemptionRecords ++ [userRedemptionRecord.Id] }
  -- Escrow user's balance
  match (k.SendCoinsFromAccountToModule sender ModuleName [inCoin] w).1 with
  | some err => .panicked (.err err)
  | none =>
  let w1 := (k.SendCoinsFromAccountToModule sender ModuleName [inCoin] w).2
  -- Actually set the records, we wait until now to prevent any errors
  let w2 := k.SetUserRedemptionRecord userRedemptionRecord w1
  -- Set the UserUnbondingRecords on the proper HostZoneUnbondingRecord
  let hostZoneUnbondings :=
    if epochUnbondingRecord.HostZoneUnbondings.length = 0 then []
    else epochUnbondingRecord.HostZoneUnbondings
  let epochUnbondingRecord : EpochUnbondingRecord :=
    { epochUnbondingRecord with
      HostZoneUnbondings := mapSet hostZoneUnbondings hostZone.ChainId hostZoneUnbonding }
  let w3 := k.SetEpochUnbondingRecord epochUnbondingRecord w2
  .returned ⟨.ok {}, w3,
    [.SendCoinsFromAccountToModule sender ModuleName [inCoin],
     .SetUserRedemptionRecord userRedemptionRecord,
     .SetEpochUnbondingRecord epochUnbondingRecord]⟩

/-! ## The required order of the native chain, in the spec's words -/

/-- The 20-unit order the spec requires of the native chain (spec section 4.2). -/
def requiredOrder : List CheckUnit :=
  [ .rejectEvmWrappers, .authzLimiter, .contextSetup, .simulationGasBound, .txCounter,
    .wasmGasRegister, .extensionOptions, .disabledModules, .validateBasic, .timeoutHeight,
    .memo, .txSizeGas, .feeDeduction, .pubkeyResolution, .signerCount, .signatureGas,
    .signatureVerification, .sequenceIncrement, .redundantRelay, .gasWanted ]

/-- The five dependencies `newCosmosAnteHandler` checks are all present. -/
def requiredPresent (options : HandlerOptions) : Prop :=
  options.HandlerOptions.AccountKeeper ≠ none ∧ options.HandlerOptions.BankKeeper ≠ none ∧
  options.HandlerOptions.SignModeHandler ≠ none ∧ options.WasmConfig ≠ none ∧
  options.TXCounterStoreKey ≠ none

instance (options : HandlerOptions) : Decidable (requiredPresent options) := by
  unfold requiredPresent; infer_instance

/-! ## The two pipelines, in the spec's words -/

/-- The terminal handler that ends a pipeline: it returns the context it is given and no
error, and leaves the world as it is. -/
def terminal {σ : Type} : Handler σ := fun ctx _ _ w => ⟨ctx, none, w, []⟩

/-- The native pipeline over a list of check units, in the spec's words ("an ordered
list of validator units ... folds the list left-to-right"): the units run in the order
of the list, each SDK unit is entered and handed the rest of the list as its next
handler, and the list ends in the terminal handler. -/
def nativePipeline {σ : Type} (env : Collaborators σ) (units : List AnteDecorator) : Handler σ :=
  units.foldr
    (fun d next ctx tx simulate w =>
      ⟨(env.sdkAnteHandle d ctx tx simulate next w).ctx,
       (env.sdkAnteHandle d ctx tx simulate next w).err,
       (env.sdkAnteHandle d ctx tx simulate next w).world,
       Event.enter d :: (env.sdkAnteHandle d ctx tx simulate next w).trace⟩)
    terminal

/-- The decorator of the EVM pipeline for a configuration: its keepers and its maximum
gas-wanted are those of the configuration. -/
def evmDecoratorOf (options : EvmosHandlerOptions) : EVMMonoDecorator :=
  { accountKeeper := options.AccountKeeper
    bankKeeper := options.BankKeeper
    feeMarketKeeper := options.FeeMarketKeeper
    evmKeeper := options.EvmKeeper
    distributionKeeper := options.DistributionKeeper
    stakingKeeper := options.StakingKeeper
    maxGasWanted := options.MaxTxGasWanted }

/-- The EVM pipeline for a configuration, in the spec's words: the EVM decorator is
entered, one pass of `EVMMonoDecorator.AnteHandle` runs, and its next-stage handler is
the terminal handler. -/
def evmPipeline {σ : Type} (env : Collaborators σ) (options : EvmosHandlerOptions) : Handler σ :=
  fun ctx tx simulate w =>
    ⟨((evmDecoratorOf options).AnteHandle env ctx tx simulate terminal w).ctx,
     ((evmDecoratorOf options).AnteHandle env ctx tx simulate terminal w).err,
     ((evmDecoratorOf options).AnteHandle env ctx tx simulate terminal w).world,
     Event.enter (.EVMMonoDecorator (evmDecoratorOf options)) ::
       ((evmDecoratorOf options).AnteHandle env ctx tx simulate terminal w).trace⟩

/-! ## The order of the steps of one EVM pass -/

/-- The steps of the loop body for the message at index `i`, in source order; the
mempool fee check is present when the pass is a mempool check and not a simulation. -/
def msgPlan (mempool : Bool) (i : Nat) : List Step :=
  .msg i .UnpackEthMsg ::
    ((if mempool then [.msg i .CheckMempoolFee] else []) ++
      [ .msg i .CheckGlobalFee, .msg i .ValidateMsg, .msg i .SignatureVerification,
        .msg i .VerifyAccountBalance, .msg i .AsMessage, .msg i .CanTransfer,
        .msg i .VerifyFee, .msg i .ConsumeFeesAndEmitEvent, .msg i .GetAccount,
        .msg i .IncrementNonce, .msg i .CheckGasWanted, .msg i .EmitTxHashEvent ])

/-- The steps of the loop over `n` messages starting at index `i`. -/
def loopPlan (mempool : Bool) : Nat → Nat → List Step
  | _, 0 => []
  | i, n + 1 => msgPlan mempool i ++ loopPlan mempool (i + 1) n

/-- Every step of one pass over `n` messages, in source order: the pre-loop steps (the
structural validation only when the pass is not a re-check), every per-message step
of every message, and the two post-loop checks. -/
def passPlan (recheck mempool : Bool) (n : Nat) : List Step :=
  (if recheck then [] else [.ValidateTx]) ++
    (.SetupContext :: .NewMonoDecoratorUtils ::
      (loopPlan mempool 0 n ++ [.CheckTxFee, .CheckBlockGasLimit]))

/-- The events of a list of steps that all succeeded. -/
def okEvents (plan : List Step) : List Event := plan.map (fun s => Event.step s none)

/-- A run follows a plan: if it succeeded, its events are the steps of the plan, each
successful; if it returned an error, its events are a strict initial part of the plan,
all successful, followed by the next step of the plan failing with that error. -/
def Follows {σ α : Type} (plan : List Step) (r : PassRes σ α) : Prop :=
  match r.val with
  | .ok _ => r.trace = okEvents plan
  | .error e =>
    ∃ pre s post, plan = pre ++ s :: post ∧ r.trace = okEvents pre ++ [Event.step s (some e.2)]

/-! ## Success and failure of the steps, in terms of what the collaborators return -/

/-- The decoding of the message and the checks on the decoded message all succeed on the
collaborators: decoding gives `un`, the mempool fee check (run only in a mempool check
that is not a simulation), the global fee check and the content check return no error,
and the signature verification gives `ethMsg`, the message with its verified sender. -/
def ChecksOk {σ : Type} (env : Collaborators σ) (ctx : Context) (simulate : Bool) (msg : Msg)
    (u : DecoratorUtils) (un : Unpacked) (ethMsg : MsgEthereumTx) : Prop :=
  env.UnpackEthMsg msg = .ok un ∧
  ((ctx.IsCheckTx && !simulate) = true →
    env.CheckMempoolFee (LegacyNewDecFromBigInt un.txData.Fee) u.MempoolMinGasPrice
      (LegacyNewDecFromBigInt (un.txData.GetGas : Int)) u.Rules.IsLondon = none) ∧
  env.CheckGlobalFee (globalCheckFee env un.txData u.BaseFee) u.GlobalMinGasPrice
    (LegacyNewDecFromBigInt (un.txData.GetGas : Int)) = none ∧
  env.ValidateMsg u.EvmParams un.txData un.sender = none ∧
  env.SignatureVerification un.ethMsg u.Signer u.EvmParams.AllowUnprotectedTxs = .ok ethMsg

/-- The balance verification, the conversion to a core message, the transfer check, the
fee verification and the fee deduction all succeed on the collaborators, from the
world `w`; `w8` is the world the fee deduction leaves. -/
def FeesOk {σ : Type} (env : Collaborators σ) (md : EVMMonoDecorator) (ctx : Context)
    (u : DecoratorUtils) (un : Unpacked) (ethMsg : MsgEthereumTx) (w w8 : σ) : Prop :=
  ∃ coreMsg fees w7,
    VerifyAccountBalance (env.EvmGetAccount md.evmKeeper ctx (HexToAddress ethMsg.From) w)
      un.txData = none ∧
    env.AsMessage ethMsg u.Signer u.BaseFee = .ok coreMsg ∧
    env.CanTransfer ctx md.evmKeeper coreMsg u.BaseFee u.EthConfig u.EvmParams u.Rules.IsLondon
      w = (none, w7) ∧
    env.VerifyFee un.txData u.EvmDenom u.BaseFee u.Rules.IsHomestead u.Rules.IsIstanbul
      ctx.IsCheckTx = .ok fees ∧
    env.ConsumeFeesAndEmitEvent ctx
      { Bank := md.bankKeeper, Distribution := md.distributionKeeper, Evm := md.evmKeeper,
        Staking := md.stakingKeeper } fees ethMsg.GetFrom w7 = (none, w8)

/-- The accumulator after the message decoded as `un` ("update the accumulator"). -/
def accumulate {σ : Type} (env : Collaborators σ) (md : EVMMonoDecorator) (u : DecoratorUtils)
    (un : Unpacked) : DecoratorUtils :=
  { u with
    GasWanted := UpdateCumulativeGasWanted un.txData.GetGas md.maxGasWanted u.GasWanted
    MinPriority := env.GetMsgPriority un.txData u.MinPriority u.BaseFee
    TxFee := UpdateCumulativeTxFee u.TxFee un.txData.Fee
    TxGasLimit := (u.TxGasLimit + un.txData.GetGas) % 2 ^ 64 }

/-- Every per-message step of the message `msg` at index `i` succeeds on the
collaborators, from the accumulator `u` and the world `w`; `u1` and `w1` are the
accumulator and the world after the message. -/
def MsgOk {σ : Type} (env : Collaborators σ) (md : EVMMonoDecorator) (ctx : Context) (tx : Tx)
    (simulate : Bool) (i : Nat) (msg : Msg) (u : DecoratorUtils) (w : σ) (u1 : DecoratorUtils)
    (w1 : σ) : Prop :=
  ∃ un ethMsg w8 acc w9 w10,
    ChecksOk env ctx simulate msg u un ethMsg ∧
    FeesOk env md ctx u un ethMsg w w8 ∧
    env.GetAccount md.accountKeeper ctx ethMsg.GetFrom w8 = some acc ∧
    IncrementNonce env ctx md.accountKeeper acc un.txData.GetNonce w8 = (none, w9) ∧
    env.CheckGasWanted ctx md.feeMarketKeeper tx u.Rules.IsLondon w9 = (none, w10) ∧
    w1 = env.EmitTxHashEvent ctx ethMsg u.BlockTxIndex i w10 ∧
    u1 = accumulate env md u un

/-- The per-message step `s` of the message `msg` fails with the error `e` on the
collaborators after every earlier step of the message succeeded; the last argument
is the world at the failure. One constructor per step that can fail. -/
inductive MsgFails {σ : Type} (env : Collaborators σ) (md : EVMMonoDecorator) (ctx : Context)
    (tx : Tx) (simulate : Bool) (msg : Msg) (u : DecoratorUtils) (w : σ) :
    MsgStep → Error → σ → Prop where
  | UnpackEthMsg (e : Error) :
    env.UnpackEthMsg msg = .error e →
    MsgFails env md ctx tx simulate msg u w .UnpackEthMsg e w
  | CheckMempoolFee (un : Unpacked) (e : Error) :
    env.UnpackEthMsg msg = .ok un →
    (ctx.IsCheckTx && !simulate) = true →
    env.CheckMempoolFee (LegacyNewDecFromBigInt un.txData.Fee) u.MempoolMinGasPrice
      (LegacyNewDecFromBigInt (un.txData.GetGas : Int)) u.Rules.IsLondon = some e →
    MsgFails env md ctx tx simulate msg u w .CheckMempoolFee e w
  | CheckGlobalFee (un : Unpacked) (e : Error) :
    env.UnpackEthMsg msg = .ok un →
    ((ctx.IsCheckTx && !simulate) = true →
      env.CheckMempoolFee (LegacyNewDecFromBigInt un.txData.Fee) u.MempoolMinGasPrice
        (LegacyNewDecFromBigInt (un.txData.GetGas : Int)) u.Rules.IsLondon = none) →
    env.CheckGlobalFee (globalCheckFee env un.txData u.BaseFee) u.GlobalMinGasPrice
      (LegacyNewDecFromBigInt (un.txData.GetGas : Int)) = some e →
    MsgFails env md ctx tx simulate msg u w .CheckGlobalFee e w
  | ValidateMsg (un : Unpacked) (e : Error) :
    env.UnpackEthMsg msg = .ok un →
    ((ctx.IsCheckTx && !simulate) = true →
      env.CheckMempoolFee (LegacyNewDecFromBigInt un.txData.Fee) u.MempoolMinGasPrice
        (LegacyNewDecFromBigInt (un.txData.GetGas : Int)) u.Rules.IsLondon = none) →
    env.CheckGlobalFee (globalCheckFee env un.txData u.BaseFee) u.GlobalMinGasPrice
      (LegacyNewDecFromBigInt (un.txData.GetGas : Int)) = none →
    env.ValidateMsg u.EvmParams un.txData un.sender = some e →
    MsgFails env md ctx tx simulate msg u w .ValidateMsg e w
  | SignatureVerification (un : Unpacked) (e : Error) :
    env.UnpackEthMsg msg = .ok un →
    ((ctx.IsCheckTx && !simulate) = true →
      env.CheckMempoolFee (LegacyNewDecFromBigInt un.txData.Fee) u.MempoolMinGasPrice
        (LegacyNewDecFromBigInt (un.txData.GetGas : Int)) u.Rules.IsLondon = none) →
    env.CheckGlobalFee (globalCheckFee env un.txData u.BaseFee) u.GlobalMinGasPrice
      (LegacyNewDecFromBigInt (un.txData.GetGas : Int)) = none →
    env.ValidateMsg u.EvmParams un.txData un.sender = none →
    env.SignatureVerification un.ethMsg u.Signer u.EvmParams.AllowUnprotectedTxs = .error e →
    MsgFails env md ctx tx simulate msg u w .SignatureVerification e w
  | VerifyAccountBalance (un : Unpacked) (ethMsg : MsgEthereumTx) (e : Error) :
    ChecksOk env ctx simulate msg u un ethMsg →
    VerifyAccountBalance (env.EvmGetAccount md.evmKeeper ctx (HexToAddress ethMsg.From) w)
      un.txData = some e →
    MsgFails env md ctx tx simulate msg u w .VerifyAccountBalance e w
  | AsMessage (un : Unpacked) (ethMsg : MsgEthereumTx) (e : Error) :
    ChecksOk env ctx simulate msg u un ethMsg →
    VerifyAccountBalance (env.EvmGetAccount md.evmKeeper ctx (HexToAddress ethMsg.From) w)
      un.txData = none →
    env.AsMessage ethMsg u.Signer u.BaseFee = .error e →
    MsgFails env md ctx tx simulate msg u w .AsMessage
      (e.Wrapf "failed to create an ethereum core.Message from signer") w
  | CanTransfer (un : Unpacked) (ethMsg : MsgEthereumTx) (coreMsg : Nat) (e : Error) (w7 : σ) :
    ChecksOk env ctx simulate msg u un ethMsg →
    VerifyAccountBalance (env.EvmGetAccount md.evmKeeper ctx (HexToAddress ethMsg.From) w)
      un.txData = none →
    env.AsMessage ethMsg u.Signer u.BaseFee = .ok coreMsg →
    env.CanTransfer ctx md.evmKeeper coreMsg u.BaseFee u.EthConfig u.EvmParams u.Rules.IsLondon
      w = (some e, w7) →
    MsgFails env md ctx tx simulate msg u w .CanTransfer e w7
  | VerifyFee (un : Unpacked) (ethMsg : MsgEthereumTx) (coreMsg : Nat) (e : Error) (w7 : σ) :
    ChecksOk env ctx simulate msg u un ethMsg →
    VerifyAccountBalance (env.EvmGetAccount md.evmKeeper ctx (HexToAddress ethMsg.From) w)
      un.txData = none →
    env.AsMessage ethMsg u.Signer u.BaseFee = .ok coreMsg →
    env.CanTransfer ctx md.evmKeeper coreMsg u.BaseFee u.EthConfig u.EvmParams u.Rules.IsLondon
      w = (none, w7) →
    env.VerifyFee un.txData u.EvmDenom u.BaseFee u.Rules.IsHomestead u.Rules.IsIstanbul
      ctx.IsCheckTx = .error e →
    MsgFails env md ctx tx simulate msg u w .VerifyFee e w7
  | ConsumeFeesAndEmitEvent (un : Unpacked) (ethMsg : MsgEthereumTx) (coreMsg : Nat)
      (fees : Int) (e : Error) (w7 w8 : σ) :
    ChecksOk env ctx simulate msg u un ethMsg →
    VerifyAccountBalance (env.EvmGetAccount md.evmKeeper ctx (HexToAddress ethMsg.From) w)
      un.txData = none →
    env.AsMessage ethMsg u.Signer u.BaseFee = .ok coreMsg →
    env.CanTransfer ctx md.evmKeeper coreMsg u.BaseFee u.EthConfig u.EvmParams u.Rules.IsLondon
      w = (none, w7) →
    env.VerifyFee un.txData u.EvmDenom u.BaseFee u.Rules.IsHomestead u.Rules.IsIstanbul
      ctx.IsCheckTx = .ok fees →
    env.ConsumeFeesAndEmitEvent ctx
      { Bank := md.bankKeeper, Distribution := md.distributionKeeper, Evm := md.evmKeeper,
        Staking := md.stakingKeeper } fees ethMsg.GetFrom w7 = (some e, w8) →
    MsgFails env md ctx tx simulate msg u w .ConsumeFeesAndEmitEvent e w8
  | GetAccount (un : Unpacked) (ethMsg : MsgEthereumTx) (w8 : σ) :
    ChecksOk env ctx simulate msg u un ethMsg →
    FeesOk env md ctx u un ethMsg w w8 →
    env.GetAccount md.accountKeeper ctx ethMsg.GetFrom w8 = none →
    MsgFails env md ctx tx simulate msg u w .GetAccount
      (Wrapf .ErrUnknownAddress "account <nil> does not exist") w8
  | IncrementNonce (un : Unpacked) (ethMsg : MsgEthereumTx) (acc : Account) (e : Error)
      (w8 w9 : σ) :
    ChecksOk env ctx simulate msg u un ethMsg →
    FeesOk env md ctx u un ethMsg w w8 →
    env.GetAccount md.accountKeeper ctx ethMsg.GetFrom w8 = some acc →
    IncrementNonce env ctx md.accountKeeper acc un.txData.GetNonce w8 = (some e, w9) →
    MsgFails env md ctx tx simulate msg u w .IncrementNonce e w9
  | CheckGasWanted (un : Unpacked) (ethMsg : MsgEthereumTx) (acc : Account) (e : Error)
      (w8 w9 w10 : σ) :
    ChecksOk env ctx simulate msg u un ethMsg →
    FeesOk env md ctx u un ethMsg w w8 →
    env.GetAccount md.accountKeeper ctx ethMsg.GetFrom w8 = some acc →
    IncrementNonce env ctx md.accountKeeper acc un.txData.GetNonce w8 = (none, w9) →
    env.CheckGasWanted ctx md.feeMarketKeeper tx u.Rules.IsLondon w9 = (some e, w10) →
    MsgFails env md ctx tx simulate msg u w .CheckGasWanted e w10

/-- Every per-message step of every message of the list succeeds on the collaborators,
in order, from index `i`, accumulator `u` and world `w`; `u1` and `w1` are the
accumulator and the world after the last message. -/
def LoopOk {σ : Type} (env : Collaborators σ) (md : EVMMonoDecorator) (ctx : Context) (tx : Tx)
    (simulate : Bool) : Nat → List Msg → DecoratorUtils → σ → DecoratorUtils → σ → Prop
  | _, [], u, w, u1, w1 => u1 = u ∧ w1 = w
  | i, msg :: rest, u, w, u1, w1 =>
    ∃ u2 w2, MsgOk env md ctx tx simulate i msg u w u2 w2 ∧
      LoopOk env md ctx tx simulate (i + 1) rest u2 w2 u1 w1

/-- Some per-message step `s` fails with `e` on the collaborators after every earlier
step of that message and every step of the earlier messages succeeded; the last
argument is the world at the failure. -/
def LoopFails {σ : Type} (env : Collaborators σ) (md : EVMMonoDecorator) (ctx : Context)
    (tx : Tx) (simulate : Bool) : Nat → List Msg → DecoratorUtils → σ → Step → Error → σ → Prop
  | _, [], _, _, _, _, _ => False
  | i, msg :: rest, u, w, s, e, w1 =>
    (∃ ms, s = .msg i ms ∧ MsgFails env md ctx tx simulate msg u w ms e w1) ∨
    (∃ u2 w2, MsgOk env md ctx tx simulate i msg u w u2 w2 ∧
      LoopFails env md ctx tx simulate (i + 1) rest u2 w2 s e w1)

/-- The structural validation is skipped in a re-check (no FeeInfo), and otherwise
succeeds on the collaborator with the FeeInfo `fi`. -/
def Validated {σ : Type} (env : Collaborators σ) (ctx : Context) (tx : Tx) (fi : Option Fee) :
    Prop :=
  (ctx.IsReCheckTx = true ∧ fi = none) ∨ (ctx.IsReCheckTx = false ∧ env.ValidateTx tx = .ok fi)

/-- The accumulator at the start of the loop, for the read-only fields `uc`. -/
def initialUtils (uc : UtilsContext) : DecoratorUtils :=
  { toUtilsContext := uc, TxGasLimit := 0, GasWanted := 0, MinPriority := MaxInt64, TxFee := 0 }

/-- Every pre-loop step, every per-message step of every message and both post-loop
checks succeed on the collaborators, from the world `w`; `ctx2`, `u` and `w1` are the
context, the accumulator and the world they reach. -/
def PassOk {σ : Type} (env : Collaborators σ) (md : EVMMonoDecorator) (ctx : Context) (tx : Tx)
    (simulate : Bool) (w : σ) (ctx2 : Context) (u : DecoratorUtils) (w1 : σ) : Prop :=
  ∃ fi ctx1 w0 uc w2,
    Validated env ctx tx fi ∧
    env.SetupContext ctx tx md.evmKeeper w = ((ctx1, none), w0) ∧
    env.utilsContext ctx1 md.evmKeeper md.feeMarketKeeper w0 = (.ok uc, w2) ∧
    LoopOk env md ctx1 tx simulate 0 tx.GetMsgs (initialUtils uc) w2 u w1 ∧
    CheckTxFee fi u.TxFee u.TxGasLimit = none ∧
    env.CheckBlockGasLimit ctx1 u.GasWanted u.MinPriority = (ctx2, none)

/-- The step `s` of the pass fails with the error `e` on the collaborators after every
earlier step succeeded; the last two arguments are the context the pass returns with
and the world at the failure. -/
inductive PassFails {σ : Type} (env : Collaborators σ) (md : EVMMonoDecorator) (ctx : Context)
    (tx : Tx) (simulate : Bool) (w : σ) : Step → Error → Context → σ → Prop where
  | ValidateTx (e : Error) :
    ctx.IsReCheckTx = false →
    env.ValidateTx tx = .error e →
    PassFails env md ctx tx simulate w .ValidateTx e ctx w
  | SetupContext (fi : Option Fee) (ctx1 : Context) (e : Error) (w0 : σ) :
    Validated env ctx tx fi →
    env.SetupContext ctx tx md.evmKeeper w = ((ctx1, some e), w0) →
    PassFails env md ctx tx simulate w .SetupContext e ctx1 w0
  | NewMonoDecoratorUtils (fi : Option Fee) (ctx1 : Context) (e : Error) (w0 w2 : σ) :
    Validated env ctx tx fi →
    env.SetupContext ctx tx md.evmKeeper w = ((ctx1, none), w0) →
    env.utilsContext ctx1 md.evmKeeper md.feeMarketKeeper w0 = (.error e, w2) →
    PassFails env md ctx tx simulate w .NewMonoDecoratorUtils e ctx1 w2
  | loop (fi : Option Fee) (ctx1 : Context) (uc : UtilsContext) (s : Step) (e : Error)
      (w0 w2 w1 : σ) :
    Validated env ctx tx fi →
    env.SetupContext ctx tx md.evmKeeper w = ((ctx1, none), w0) →
    env.utilsContext ctx1 md.evmKeeper md.feeMarketKeeper w0 = (.ok uc, w2) →
    LoopFails env md ctx1 tx simulate 0 tx.GetMsgs (initialUtils uc) w2 s e w1 →
    PassFails env md ctx tx simulate w s e ctx1 w1
  | CheckTxFee (fi : Option Fee) (ctx1 : Context) (uc : UtilsContext) (u : DecoratorUtils)
      (e : Error) (w0 w2 w1 : σ) :
    Validated env ctx tx fi →
    env.SetupContext ctx tx md.evmKeeper w = ((ctx1, none), w0) →
    env.utilsContext ctx1 md.evmKeeper md.feeMarketKeeper w0 = (.ok uc, w2) →
    LoopOk env md ctx1 tx simulate 0 tx.GetMsgs (initialUtils uc) w2 u w1 →
    CheckTxFee fi u.TxFee u.TxGasLimit = some e →
    PassFails env md ctx tx simulate w .CheckTxFee e ctx1 w1
  | CheckBlockGasLimit (fi : Option Fee) (ctx1 ctx2 : Context) (uc : UtilsContext)
      (u : DecoratorUtils) (e : Error) (w0 w2 w1 : σ) :
    Validated env ctx tx fi →
    env.SetupContext ctx tx md.evmKeeper w = ((ctx1, none), w0) →
    env.utilsContext ctx1 md.evmKeeper md.feeMarketKeeper w0 = (.ok uc, w2) →
    LoopOk env md ctx1 tx simulate 0 tx.GetMsgs (initialUtils uc) w2 u w1 →
    CheckTxFee fi u.TxFee u.TxGasLimit = none →
    env.CheckBlockGasLimit ctx1 u.GasWanted u.MinPriority = (ctx2, some e) →
    PassFails env md ctx tx simulate w .CheckBlockGasLimit e ctx2 w1

/-! ## A concrete world and concrete collaborators, for evaluation -/

/-- A small concrete world: balances in the fee denomination per address, the accounts of
the general account store, and the number of emitted transaction-hash events. -/
structure DemoWorld where
  balances : List (Address × Int)
  accounts : List Account
  events : Nat
  deriving DecidableEq, Repr

def DemoWorld.balance (w : DemoWorld) (a : Address) : Int :=
  match w.balances.lookup a with
  | some b => b
  | none => 0

def DemoWorld.setBalance (w : DemoWorld) (a : Address) (b : Int) : DemoWorld :=
  { w with balances := (a, b) :: w.balances.filter (fun p => p.1 ≠ a) }

def DemoWorld.setAccount (w : DemoWorld) (acc : Account) : DemoWorld :=
  { w with accounts := acc :: w.accounts.filter (fun p => p.Address ≠ acc.Address) }

/-- The read-only accumulator fields of the concrete collaborators: no base fee, global
minimum gas price 5, mempool minimum gas price 0. -/
def demoUtils : UtilsContext :=
  { EvmParams := ⟨false, 0⟩, EthConfig := 0, Rules := ⟨true, true, true⟩, Signer := 0,
    BaseFee := none, EvmDenom := "astrd", MempoolMinGasPrice := 0,
    GlobalMinGasPrice := LegacyNewDecFromBigInt 5, BlockTxIndex := 0 }

/-- Modelled from the spec: concrete instances over `DemoWorld` of the collaborators that
are missing from the source (the `evmante` steps and the keepers), each following the
spec's description of its step: decoding reads the message, the fee checks compare
the fee with `min price × gas`, the fee is deducted from the sender and credited to
the fee collector, every SDK decorator succeeds and calls its next handler. -/
def demoEnv : Collaborators DemoWorld where
  ValidateTx := fun tx =>
    if tx.Msgs = [] then .error (Wrapf (.external 1) "empty tx") else .ok (some tx.AuthInfoFee)
  SetupContext := fun ctx _ _ w => ((ctx, none), w)
  utilsContext := fun _ _ _ w => (.ok demoUtils, w)
  UnpackEthMsg := fun msg =>
    match msg with
    | .ethereumTx m => .ok ⟨m, m.Data, m.From⟩
    | .other _ => .error (Wrapf (.external 2) "invalid message type")
  CheckMempoolFee := fun fee minGasPrice gasLimit _ =>
    if fee * 10 ^ 18 < minGasPrice * gasLimit then some (Wrapf (.external 3) "insufficient fee")
    else none
  EffectiveFee := fun d baseFee => min (d.GasTipCap + baseFee) d.GasPrice * (d.Gas : Int)
  CheckGlobalFee := fun fee minGasPrice gasLimit =>
    if fee * 10 ^ 18 < minGasPrice * gasLimit then
      some (Wrapf (.external 4) "provided fee < minimum global fee")
    else none
  ValidateMsg := fun _ _ _ => none
  SignatureVerification := fun m _ _ => .ok m
  EvmGetAccount := fun _ _ a w => ⟨w.balance a, 0⟩
  AsMessage := fun _ _ _ => .ok 0
  CanTransfer := fun _ _ _ _ _ _ _ w => (none, w)
  VerifyFee := fun d _ _ _ _ _ => .ok d.Fee
  ConsumeFeesAndEmitEvent := fun _ _ fees sender w =>
    (none, (w.setBalance sender (w.balance sender - fees)).setBalance "fee_collector"
      (w.balance "fee_collector" + fees))
  GetMsgPriority := fun d cur _ => min cur d.GasPrice
  GetAccount := fun _ _ a w => w.accounts.find? (fun acc => acc.Address = a)
  SetAccount := fun _ _ acc w => w.setAccount acc
  CheckGasWanted := fun _ _ _ _ w => (none, w)
  EmitTxHashEvent := fun _ _ _ _ w => { w with events := w.events + 1 }
  CheckBlockGasLimit := fun ctx _ _ => (ctx, none)
  sdkAnteHandle := fun _ ctx tx simulate next w => next ctx tx simulate w

/-- A configuration with every dependency set. -/
def demoOptions : HandlerOptions where
  HandlerOptions :=
    { AccountKeeper := some 1, BankKeeper := some 2, DistributionKeeper := some 3,
      StakingKeeper := some 4, FeeMarketKeeper := some 5, EvmKeeper := some 6,
      FeegrantKeeper := some 7, ExtensionOptionChecker := none, SignModeHandler := some 8,
      SigGasConsumer := none, MaxTxGasWanted := 30000, TxFeeChecker := none }
  IBCKeeper := some 9
  ConsumerKeeper := some 10
  WasmConfig := some ⟨some 3000000⟩
  WasmKeeper := some ⟨11⟩
  TXCounterStoreKey := some 12

/-- The configuration `demoOptions` with the wasm keeper pointer left nil. -/
def optionsNilWasmKeeper : HandlerOptions := { demoOptions with WasmKeeper := none }

/-- The configuration `demoOptions` with the bank keeper left nil. -/
def optionsNilBankKeeper : HandlerOptions :=
  { demoOptions with HandlerOptions := { demoOptions.HandlerOptions with BankKeeper := none } }

/-- The EVM decorator built from `demoOptions`. -/
def demoMono : EVMMonoDecorator :=
  { accountKeeper := some 1, bankKeeper := some 2, feeMarketKeeper := some 5,
    evmKeeper := some 6, distributionKeeper := some 3, stakingKeeper := some 4,
    maxGasWanted := 30000 }

/-- A mempool-check context. -/
def checkCtx : Context := ⟨true, false, 0⟩

/-- A legacy EVM message from `0xA`: price 10, gas 21000, value 0, with the given nonce. -/
def legacyEthMsg (nonce : Nat) : MsgEthereumTx :=
  ⟨⟨0, nonce, 21000, 10, 0, 0⟩, "0xA", "0xH"⟩

/-- The message `legacyEthMsg nonce` as an `sdk.Msg`. -/
def legacyMsg (nonce : Nat) : Msg := .ethereumTx (legacyEthMsg nonce)

/-- The terminal handler of a chain: returns the context and no error. -/
def terminalHandler : Handler DemoWorld := runChain demoEnv []

/-- An EVM transaction with the given messages and declared fee. -/
def evmTx (msgs : List Msg) (fee : Fee) : Tx :=
  { Msgs := msgs, ExtensionOptions := some [⟨"/ethermint.evm.v1.ExtensionOptionsEthereumTx", []⟩],
    AuthInfoFee := fee, Raw := [] }

/-- An EVM transaction of two legacy messages from `0xA`, nonces 0 and 1. -/
def twoMsgTx : Tx := evmTx [legacyMsg 0, legacyMsg 1] ⟨420000, 42000⟩

/-- The accumulator of the concrete collaborators after `n` messages of `twoMsgTx`, with
the given cumulative gas-wanted. -/
def demoAccumulator (n gasWanted : Nat) : DecoratorUtils :=
  { toUtilsContext := demoUtils, TxGasLimit := 21000 * n, GasWanted := gasWanted,
    MinPriority := if n = 0 then MaxInt64 else 10, TxFee := 210000 * n }

/-- A transaction whose only extension option has a tag unknown to the dispatcher. -/
def unknownExtTx : Tx :=
  { Msgs := [.other "/cosmos.bank.v1beta1.MsgSend"],
    ExtensionOptions := some [⟨"/future.v1.ExtensionOptionsUnknown", []⟩],
    AuthInfoFee := ⟨0, 0⟩, Raw := [] }

/-- A native transaction without extension options. -/
def nativeTx : Tx :=
  { Msgs := [.other "/cosmos.bank.v1beta1.MsgSend"], ExtensionOptions := none,
    AuthInfoFee := ⟨100, 200000⟩, Raw := [] }

/-- A native transaction whose first extension option is the dynamic-fee option, followed
by a second option with an unknown tag. -/
def dynamicFeeTx : Tx :=
  { Msgs := [.other "/cosmos.bank.v1beta1.MsgSend"],
    ExtensionOptions := some [⟨"/ethermint.types.v1.ExtensionOptionDynamicFeeTx", []⟩,
      ⟨"/future.v1.ExtensionOptionsUnknown", []⟩],
    AuthInfoFee := ⟨100, 200000⟩, Raw := [] }

/-- A world in which `0xA` holds the given balance and has sequence 0. -/
def worldWith (balance : Int) : DemoWorld :=
  { balances := [("0xA", balance)], accounts := [⟨"0xA", 0⟩], events := 0 }

/-! ## Re-check contexts -/

/-- The context of a re-check of the same pass: the same context with the re-check flag
set. -/
def Context.asReCheck (c : Context) : Context := { c with recheckTx := true }

/-- The collaborators do not read the re-check flag of the context ("a re-check pass ...
performs every other step identically"): each collaborator that receives the context
gives the same result on the context and on the same context with the flag set, and
those that return a context return it with the flag as they received it. -/
structure Collaborators.IgnoresReCheck {σ : Type} (env : Collaborators σ) : Prop where
  SetupContext : ∀ c tx k w,
    env.SetupContext (Context.asReCheck c) tx k w =
      (((env.SetupContext c tx k w).1.1.asReCheck, (env.SetupContext c tx k w).1.2),
        (env.SetupContext c tx k w).2)
  utilsContext : ∀ c, env.utilsContext (Context.asReCheck c) = env.utilsContext c
  EvmGetAccount : ∀ k c, env.EvmGetAccount k (Context.asReCheck c) = env.EvmGetAccount k c
  CanTransfer : ∀ c, env.CanTransfer (Context.asReCheck c) = env.CanTransfer c
  ConsumeFeesAndEmitEvent : ∀ c,
    env.ConsumeFeesAndEmitEvent (Context.asReCheck c) = env.ConsumeFeesAndEmitEvent c
  GetAccount : ∀ k c, env.GetAccount k (Context.asReCheck c) = env.GetAccount k c
  SetAccount : ∀ k c, env.SetAccount k (Context.asReCheck c) = env.SetAccount k c
  CheckGasWanted : ∀ c, env.CheckGasWanted (Context.asReCheck c) = env.CheckGasWanted c
  EmitTxHashEvent : ∀ c, env.EmitTxHashEvent (Context.asReCheck c) = env.EmitTxHashEvent c
  CheckBlockGasLimit : ∀ c g p,
    env.CheckBlockGasLimit (Context.asReCheck c) g p =
      ((env.CheckBlockGasLimit c g p).1.asReCheck, (env.CheckBlockGasLimit c g p).2)

/-- The same part of a pass, returning its errors with the re-check flag set on the
context. -/
def Pass.mapCtx {σ α : Type} (m : Pass σ α) : Pass σ α := fun w =>
  ⟨match (m w).val with
    | .ok a => .ok a
    | .error e => .error (e.1.asReCheck, e.2),
   (m w).world, (m w).trace⟩

/-! ## A concrete keeper, for evaluation -/

/-- A concrete keeper whose world is the list of writes performed so far: one host zone
`GAIA` with staked balance 1000 and redemption rate 1, every sender holding 500 of
each denomination, the day epoch at number 3, and one epoch unbonding record that
lists `GAIA`. -/
def demoKeeper : Keeper (List Write) where
  AccAddressFromBech32 := fun a =>
    if a = "" then .error (Wrapf (.external 5) "empty address string is not allowed") else .ok a
  GetHostZone := fun name _ =>
    if name = "GAIA" then some ⟨"GAIA", "uatom", 1000, LegacyNewDecFromBigInt 1⟩ else none
  stAmountString := fun amount rate => toString (amount * rate / 10 ^ 18)
  ParseCoinNormalized := fun str =>
    if str = "40stuatom" then .ok ⟨"stuatom", 40⟩
    else .error (Wrapf (.external 6) "invalid decimal coin expression")
  GetBalance := fun _ denom _ => ⟨denom, 500⟩
  GetEpochTracker := fun id _ => if id = "day" then some ⟨"day", 3⟩ else none
  redemptionId := fun chainId epoch sender => chainId ++ "." ++ toString epoch ++ "." ++ sender
  Uint64 := fun i =>
    if 0 ≤ i ∧ i < 2 ^ 64 then .returned i.toNat else .panicked (.err (Wrapf (.external 7) "Uint64() out of bounds"))
  GetUserRedemptionRecord := fun _ _ => none
  GetLatestEpochUnbondingRecord := fun _ => some ⟨3, [("GAIA", ⟨0, [], 0⟩)]⟩
  SendCoinsFromAccountToModule := fun sender moduleName coins w =>
    (none, w ++ [.SendCoinsFromAccountToModule sender moduleName coins])
  SetUserRedemptionRecord := fun r w => w ++ [.SetUserRedemptionRecord r]
  SetEpochUnbondingRecord := fun r w => w ++ [.SetEpochUnbondingRecord r]

/-! ## The dispatcher: theorems -/

/-- C1: a transaction whose first extension option carries a tag that is neither the
Ethereum-transaction tag nor the dynamic-fee tag is rejected by the handler of
`NewAnteHandler` with `ErrUnknownExtensionOptions`; the input context is returned, the
world is the input world and no event is recorded (neither chain is entered, no
pipeline step runs), whatever the collaborators and the configuration are. -/
theorem NewAnteHandler_rejects_unknown_extension {σ : Type} (env : Collaborators σ)
    (options : HandlerOptions) (ctx : Context) (tx : Tx) (simulate : Bool) (w : σ)
    (opt : Any) (rest : List Any)
    (hopts : tx.ExtensionOptions = some (opt :: rest))
    (heth : opt.TypeUrl ≠ "/ethermint.evm.v1.ExtensionOptionsEthereumTx")
    (hdyn : opt.TypeUrl ≠ "/ethermint.types.v1.ExtensionOptionDynamicFeeTx") :
    NewAnteHandler env options ctx (some tx) simulate w =
      .returned ⟨ctx,
        some (Wrapf .ErrUnknownExtensionOptions
          ("rejecting tx with unsupported extension option: " ++ opt.TypeUrl)), w, []⟩ := by
  simp only [NewAnteHandler, hopts, if_neg heth, if_neg hdyn]

/-- The rejection of an unknown extension tag, at `unknownExtTx`. -/
theorem NewAnteHandler_rejects_unknown_extension_witness :
    (unknownExtTx.ExtensionOptions = some (⟨"/future.v1.ExtensionOptionsUnknown", []⟩ :: []) ∧
      (⟨"/future.v1.ExtensionOptionsUnknown", []⟩ : Any).TypeUrl ≠
        "/ethermint.evm.v1.ExtensionOptionsEthereumTx" ∧
      (⟨"/future.v1.ExtensionOptionsUnknown", []⟩ : Any).TypeUrl ≠
        "/ethermint.types.v1.ExtensionOptionDynamicFeeTx") ∧
    NewAnteHandler demoEnv optionsNilBankKeeper checkCtx (some unknownExtTx) false (worldWith 7) =
      .returned ⟨checkCtx,
        some (Wrapf .ErrUnknownExtensionOptions
          ("rejecting tx with unsupported extension option: " ++
            (⟨"/future.v1.ExtensionOptionsUnknown", []⟩ : Any).TypeUrl)), worldWith 7, []⟩ :=
  ⟨⟨rfl, by decide, by decide⟩,
   NewAnteHandler_rejects_unknown_extension demoEnv optionsNilBankKeeper checkCtx unknownExtTx
     false (worldWith 7) ⟨"/future.v1.ExtensionOptionsUnknown", []⟩ [] rfl (by decide)
     (by decide)⟩

theorem AnteHandle_sdk {σ : Type} (env : Collaborators σ) (d : AnteDecorator)
    (hd : d.unit ≠ .evmPipeline) : d.AnteHandle env = env.sdkAnteHandle d := by
  cases d <;> first | rfl | exact absurd rfl hd

theorem runChain_sdk {σ : Type} (env : Collaborators σ) (ds : List AnteDecorator)
    (hds : ∀ d ∈ ds, d.unit ≠ .evmPipeline) : runChain env ds = nativePipeline env ds := by
  induction ds with
  | nil => rfl
  | cons d rest ih =>
    have hrest := ih (fun x hx => hds x (List.mem_cons_of_mem d hx))
    have hd := AnteHandle_sdk env d (hds d (List.mem_cons_self d rest))
    funext ctx tx simulate w
    simp only [runChain, nativePipeline, List.foldr, hd]
    rw [hrest]
    rfl

theorem runChain_native {σ : Type} (env : Collaborators σ) (options : HandlerOptions)
    (wc : WasmConfig) (reg : Nat) (sig : Ref) :
    runChain env (anteDecorators options wc reg sig) =
      nativePipeline env (anteDecorators options wc reg sig) := by
  apply runChain_sdk
  intro d hd
  have hmem : d.unit ∈ (anteDecorators options wc reg sig).map AnteDecorator.unit :=
    List.mem_map_of_mem _ hd
  have hunits : (anteDecorators options wc reg sig).map AnteDecorator.unit = requiredOrder := rfl
  rw [hunits] at hmem
  intro heq
  rw [heq] at hmem
  revert hmem
  decide

theorem anteDecorators_units (options : HandlerOptions) (wc : WasmConfig) (reg : Nat)
    (sig : Ref) : (anteDecorators options wc reg sig).map AnteDecorator.unit = requiredOrder :=
  rfl

theorem callCosmos_built {σ : Type} (env : Collaborators σ) (options : HandlerOptions)
    (ctx : Context) (tx : Tx) (simulate : Bool) (w : σ)
    (hpresent : requiredPresent options) (hwasm : options.WasmKeeper ≠ none) :
    ∃ units, units.map AnteDecorator.unit = requiredOrder ∧
      callCosmos env options ctx tx simulate w =
        .returned (nativePipeline env units ctx tx simulate w) := by
  obtain ⟨h1, h2, h3, h4, h5⟩ := hpresent
  cases hwc : options.WasmConfig with
  | none => exact absurd hwc h4
  | some wc =>
    cases hk : options.WasmKeeper with
    | none => exact absurd hk hwasm
    | some k =>
      refine ⟨anteDecorators options wc k.gasRegister
        (if options.HandlerOptions.SigGasConsumer = none then DefaultSigVerificationGasConsumer
          else options.HandlerOptions.SigGasConsumer), anteDecorators_units _ _ _ _, ?_⟩
      simp only [callCosmos, newCosmosAnteHandler, if_neg h1, if_neg h2, if_neg h3, hwc,
        if_neg h5, hk, WasmKeeper.GetGasRegister, AnteHandler.call, ChainAnteDecorators,
        runChain_native]

theorem callCosmos_not_built {σ : Type} (env : Collaborators σ) (options : HandlerOptions)
    (ctx : Context) (tx : Tx) (simulate : Bool) (w : σ) (hmissing : ¬ requiredPresent options) :
    ∃ msg, callCosmos env options ctx tx simulate w = .panicked (.err (Wrapf .ErrLogic msg)) := by
  unfold requiredPresent at hmissing
  unfold callCosmos newCosmosAnteHandler
  by_cases h1 : options.HandlerOptions.AccountKeeper = none
  · rw [if_pos h1]; exact ⟨_, rfl⟩
  by_cases h2 : options.HandlerOptions.BankKeeper = none
  · rw [if_neg h1, if_pos h2]; exact ⟨_, rfl⟩
  by_cases h3 : options.HandlerOptions.SignModeHandler = none
  · rw [if_neg h1, if_neg h2, if_pos h3]; exact ⟨_, rfl⟩
  rw [if_neg h1, if_neg h2, if_neg h3]
  cases hwc : options.WasmConfig with
  | none => exact ⟨_, rfl⟩
  | some wc =>
    by_cases h5 : options.TXCounterStoreKey = none
    · simp only [if_pos h5]; exact ⟨_, rfl⟩
    · exact absurd ⟨h1, h2, h3, by simp [hwc], h5⟩ hmissing

/-- C2, as stated, fails: for the transaction `nativeTx`, which carries no extension
options, and the configuration without a bank keeper, the dispatcher does not return
the result of any pipeline: it panics with the construction error of the native
chain. -/
theorem NewAnteHandler_panics_without_native_chain :
    nativeTx.ExtensionOptions = none ∧
    NewAnteHandler demoEnv optionsNilBankKeeper checkCtx (some nativeTx) false (worldWith 7) =
      .panicked (.err (Wrapf .ErrLogic "bank keeper is required for AnteHandler")) ∧
    ¬ ∃ r, NewAnteHandler demoEnv optionsNilBankKeeper checkCtx (some nativeTx) false
      (worldWith 7) = .returned r := by
  refine ⟨rfl, rfl, ?_⟩
  rintro ⟨r, hr⟩
  have hp : NewAnteHandler demoEnv optionsNilBankKeeper checkCtx (some nativeTx) false
      (worldWith 7) =
      .panicked (.err (Wrapf .ErrLogic "bank keeper is required for AnteHandler")) := rfl
  rw [hp] at hr
  cases hr

/-- C2, amended: the pipeline is chosen by the first extension option only, whatever the
later options are. With the first option tagged as the Ethereum transaction the
dispatcher returns exactly what the EVM pipeline returns. With no extension options
(none carried, or an empty list), or with the first option tagged as the dynamic-fee
transaction, it builds the native chain: when the five required dependencies and the
wasm keeper are present it returns exactly what the native pipeline over the 20
required units returns, and when a required dependency is absent it panics with the
`ErrLogic` construction error. Each pipeline runs on the same context, transaction,
simulate flag and world. -/
theorem NewAnteHandler_selects_by_first_option {σ : Type} (env : Collaborators σ)
    (options : HandlerOptions) (ctx : Context) (tx : Tx) (simulate : Bool) (w : σ) :
    (∀ opt rest, tx.ExtensionOptions = some (opt :: rest) →
      opt.TypeUrl = "/ethermint.evm.v1.ExtensionOptionsEthereumTx" →
      NewAnteHandler env options ctx (some tx) simulate w =
        .returned (evmPipeline env options.HandlerOptions ctx tx simulate w)) ∧
    ((tx.ExtensionOptions = none ∨ tx.ExtensionOptions = some [] ∨
        ∃ opt rest, tx.ExtensionOptions = some (opt :: rest) ∧
          opt.TypeUrl = "/ethermint.types.v1.ExtensionOptionDynamicFeeTx") →
      (requiredPresent options → options.WasmKeeper ≠ none →
        ∃ units, units.map AnteDecorator.unit = requiredOrder ∧
          NewAnteHandler env options ctx (some tx) simulate w =
            .returned (nativePipeline env units ctx tx simulate w)) ∧
      (¬ requiredPresent options →
        ∃ msg, NewAnteHandler env options ctx (some tx) simulate w =
          .panicked (.err (Wrapf .ErrLogic msg)))) := by
  constructor
  · intro opt rest hopts htag
    simp only [NewAnteHandler, hopts, htag, if_true]
    rfl
  · intro hsel
    have hcall : NewAnteHandler env options ctx (some tx) simulate w =
        callCosmos env options ctx tx simulate w := by
      rcases hsel with h | h | ⟨opt, rest, h, htag⟩
      · simp only [NewAnteHandler, h]
      · simp only [NewAnteHandler, h]
      · have hne : ¬ ("/ethermint.types.v1.ExtensionOptionDynamicFeeTx" =
            "/ethermint.evm.v1.ExtensionOptionsEthereumTx") := by decide
        simp only [NewAnteHandler, h, htag, if_neg hne, if_true]
    rw [hcall]
    exact ⟨callCosmos_built env options ctx tx simulate w,
      callCosmos_not_built env options ctx tx simulate w⟩

/-- The three selections and the construction panic, at concrete transactions: an EVM
transaction, a transaction without options, a transaction whose first option is the
dynamic-fee option and whose second option is unknown, and the configuration without
a bank keeper. -/
theorem NewAnteHandler_selects_by_first_option_witness :
    (NewAnteHandler demoEnv demoOptions checkCtx (some (evmTx [legacyMsg 0] ⟨210000, 21000⟩))
        false (worldWith 500000) =
      .returned (evmPipeline demoEnv demoOptions.HandlerOptions checkCtx
        (evmTx [legacyMsg 0] ⟨210000, 21000⟩) false (worldWith 500000))) ∧
    (∃ units, units.map AnteDecorator.unit = requiredOrder ∧
      NewAnteHandler demoEnv demoOptions checkCtx (some nativeTx) false (worldWith 7) =
        .returned (nativePipeline demoEnv units checkCtx nativeTx false (worldWith 7))) ∧
    (∃ units, units.map AnteDecorator.unit = requiredOrder ∧
      NewAnteHandler demoEnv demoOptions checkCtx (some dynamicFeeTx) false (worldWith 7) =
        .returned (nativePipeline demoEnv units checkCtx dynamicFeeTx false (worldWith 7))) ∧
    (∃ msg, NewAnteHandler demoEnv optionsNilBankKeeper checkCtx (some dynamicFeeTx) false
        (worldWith 7) = .panicked (.err (Wrapf .ErrLogic msg))) :=
  ⟨(NewAnteHandler_selects_by_first_option demoEnv demoOptions checkCtx
      (evmTx [legacyMsg 0] ⟨210000, 21000⟩) false (worldWith 500000)).1 _ _ rfl rfl,
   ((NewAnteHandler_selects_by_first_option demoEnv demoOptions checkCtx nativeTx false
      (worldWith 7)).2 (Or.inl rfl)).1 (by decide) (by decide),
   ((NewAnteHandler_selects_by_first_option demoEnv demoOptions checkCtx dynamicFeeTx false
      (worldWith 7)).2 (Or.inr (Or.inr ⟨_, _, rfl, rfl⟩))).1 (by decide) (by decide),
   ((NewAnteHandler_selects_by_first_option demoEnv optionsNilBankKeeper checkCtx dynamicFeeTx
      false (worldWith 7)).2 (Or.inr (Or.inr ⟨_, _, rfl, rfl⟩))).2 (by decide)⟩

/-! ## The native chain: theorems -/

/-- A handler returned by `newCosmosAnteHandler` is the chain over the slice
`anteDecorators`, built from a present wasm config and a present wasm keeper. -/
theorem newCosmosAnteHandler_ok (options : HandlerOptions) (h : AnteHandler)
    (hok : newCosmosAnteHandler options = .returned (.ok h)) :
    ∃ wc k sig, options.WasmConfig = some wc ∧ options.WasmKeeper = some k ∧
      h = ChainAnteDecorators (anteDecorators options wc k.gasRegister sig) := by
  unfold newCosmosAnteHandler at hok
  by_cases h1 : options.HandlerOptions.AccountKeeper = none
  · rw [if_pos h1] at hok; cases hok
  by_cases h2 : options.HandlerOptions.BankKeeper = none
  · rw [if_neg h1, if_pos h2] at hok; cases hok
  by_cases h3 : options.HandlerOptions.SignModeHandler = none
  · rw [if_neg h1, if_neg h2, if_pos h3] at hok; cases hok
  rw [if_neg h1, if_neg h2, if_neg h3] at hok
  cases hwc : options.WasmConfig with
  | none => simp only [hwc] at hok; cases hok
  | some wc =>
    by_cases h5 : options.TXCounterStoreKey = none
    · simp only [hwc, if_pos h5] at hok; cases hok
    cases hk : options.WasmKeeper with
    | none => simp only [hwc, if_neg h5, hk, WasmKeeper.GetGasRegister] at hok; cases hok
    | some k =>
      simp only [hwc, if_neg h5, hk, WasmKeeper.GetGasRegister, Outcome.returned.injEq,
        Except.ok.injEq] at hok
      exact ⟨wc, k, _, rfl, rfl, hok.symm⟩

/-- C6: for every configuration for which `newCosmosAnteHandler` returns a handler, the
chain of that handler consists of exactly the 20 units of `requiredOrder`, in that
order; pubkey resolution stands before signer count, signature gas and signature
verification, and fee deduction stands before sequence increment. -/
theorem newCosmosAnteHandler_chain_order (options : HandlerOptions) (h : AnteHandler)
    (hok : newCosmosAnteHandler options = .returned (.ok h)) :
    h.chain.map AnteDecorator.unit = requiredOrder ∧
    (h.chain.map AnteDecorator.unit).length = 20 ∧
    (h.chain.map AnteDecorator.unit).indexOf .pubkeyResolution <
      (h.chain.map AnteDecorator.unit).indexOf .signerCount ∧
    (h.chain.map AnteDecorator.unit).indexOf .pubkeyResolution <
      (h.chain.map AnteDecorator.unit).indexOf .signatureGas ∧
    (h.chain.map AnteDecorator.unit).indexOf .pubkeyResolution <
      (h.chain.map AnteDecorator.unit).indexOf .signatureVerification ∧
    (h.chain.map AnteDecorator.unit).indexOf .feeDeduction <
      (h.chain.map AnteDecorator.unit).indexOf .sequenceIncrement := by
  have hchain : h.chain.map AnteDecorator.unit = requiredOrder := by
    obtain ⟨wc, k, sig, -, -, hh⟩ := newCosmosAnteHandler_ok options h hok
    subst hh
    rfl
  rw [hchain]
  exact ⟨rfl, by decide, by decide, by decide, by decide, by decide⟩

/-- The order of the chain built for `demoOptions`. -/
theorem newCosmosAnteHandler_chain_order_witness :
    newCosmosAnteHandler demoOptions =
        .returned (.ok (ChainAnteDecorators
          (anteDecorators demoOptions ⟨some 3000000⟩ 11 DefaultSigVerificationGasConsumer))) ∧
      (ChainAnteDecorators
        (anteDecorators demoOptions ⟨some 3000000⟩ 11
          DefaultSigVerificationGasConsumer)).chain.map AnteDecorator.unit = requiredOrder :=
  ⟨rfl, (newCosmosAnteHandler_chain_order demoOptions _ rfl).1⟩

/-- C7, as stated, fails: with all five checked dependencies present and the wasm keeper
pointer nil, `newCosmosAnteHandler` returns neither a handler nor an error: building
the gas-register decorator dereferences the nil pointer. -/
theorem newCosmosAnteHandler_nil_wasm_keeper_panics :
    requiredPresent optionsNilWasmKeeper ∧
      newCosmosAnteHandler optionsNilWasmKeeper = .panicked .nilDereference ∧
      ¬ ∃ h, newCosmosAnteHandler optionsNilWasmKeeper = .returned (.ok h) := by
  refine ⟨by decide, rfl, ?_⟩
  rintro ⟨h, hh⟩
  have : newCosmosAnteHandler optionsNilWasmKeeper = .panicked .nilDereference := rfl
  rw [this] at hh
  cases hh

/-- C7, amended: `newCosmosAnteHandler` returns no handler and an `ErrLogic` error whenever
one of the account keeper, bank keeper, sign mode handler, wasm config or tx counter
store key is absent, and it returns a handler and no error when all five are present
and the wasm keeper pointer is set. -/
theorem newCosmosAnteHandler_required_dependencies (options : HandlerOptions) :
    (¬ requiredPresent options →
      ∃ msg, newCosmosAnteHandler options = .returned (.error (Wrapf .ErrLogic msg))) ∧
    (requiredPresent options → options.WasmKeeper ≠ none →
      ∃ h, newCosmosAnteHandler options = .returned (.ok h)) := by
  unfold requiredPresent newCosmosAnteHandler
  constructor
  · intro hmissing
    by_cases h1 : options.HandlerOptions.AccountKeeper = none
    · rw [if_pos h1]; exact ⟨_, rfl⟩
    by_cases h2 : options.HandlerOptions.BankKeeper = none
    · rw [if_neg h1, if_pos h2]; exact ⟨_, rfl⟩
    by_cases h3 : options.HandlerOptions.SignModeHandler = none
    · rw [if_neg h1, if_neg h2, if_pos h3]; exact ⟨_, rfl⟩
    rw [if_neg h1, if_neg h2, if_neg h3]
    cases hwc : options.WasmConfig with
    | none => exact ⟨_, rfl⟩
    | some wc =>
      by_cases h5 : options.TXCounterStoreKey = none
      · simp only [if_pos h5]; exact ⟨_, rfl⟩
      · exact absurd ⟨h1, h2, h3, by simp [hwc], h5⟩ hmissing
  · rintro ⟨h1, h2, h3, h4, h5⟩ hwk
    rw [if_neg h1, if_neg h2, if_neg h3]
    cases hwc : options.WasmConfig with
    | none => exact absurd hwc h4
    | some wc =>
      cases hk : options.WasmKeeper with
      | none => exact absurd hk hwk
      | some k =>
        simp only [if_neg h5, WasmKeeper.GetGasRegister]
        exact ⟨_, rfl⟩

/-- Construction fails without the bank keeper and succeeds for `demoOptions`. -/
theorem newCosmosAnteHandler_required_dependencies_witness :
    (¬ requiredPresent optionsNilBankKeeper ∧
      ∃ msg, newCosmosAnteHandler optionsNilBankKeeper =
        .returned (.error (Wrapf .ErrLogic msg))) ∧
    (requiredPresent demoOptions ∧ demoOptions.WasmKeeper ≠ none ∧
      ∃ h, newCosmosAnteHandler demoOptions = .returned (.ok h)) :=
  ⟨⟨by decide, (newCosmosAnteHandler_required_dependencies optionsNilBankKeeper).1 (by decide)⟩,
   ⟨by decide, by decide,
    (newCosmosAnteHandler_required_dependencies demoOptions).2 (by decide) (by decide)⟩⟩

/-! ## RedeemStake: theorems -/

/-- C10: whenever `RedeemStake` returns an error, the world it leaves is the world it was
given and it has performed no persistent write: no escrow transfer, no user redemption
record, no epoch unbonding record. This holds for every keeper, message and world, so
each of the nine error returns stands before the escrow transfer and both record
writes. -/
theorem RedeemStake_error_leaves_state_unchanged {σ : Type} (k : Keeper σ)
    (msg : MsgRedeemStake) (w : σ) (r : RedeemRet σ) (e : Error)
    (hret : k.RedeemStake msg w = .returned r) (herr : r.resp = .error e) :
    r.world = w ∧ r.writes = [] := by
  have hdone : ∀ (e0 : Error), Outcome.returned (⟨.error e0, w, []⟩ : RedeemRet σ) = .returned r →
      r.world = w ∧ r.writes = [] := by
    intro e0 h0
    cases h0
    exact ⟨rfl, rfl⟩
  unfold Keeper.RedeemStake at hret
  cases h1 : k.AccAddressFromBech32 msg.Creator with
  | error e1 => simp only [h1] at hret; exact hdone _ hret
  | ok sender =>
  simp only [h1] at hret
  cases h2 : k.GetHostZone msg.HostZone w with
  | none => simp only [h2] at hret; exact hdone _ hret
  | some hostZone =>
  simp only [h2] at hret
  by_cases h3 : msg.Amount > hostZone.StakedBal
  · rw [if_pos h3] at hret; exact hdone _ hret
  rw [if_neg h3] at hret
  cases h4 : k.ParseCoinNormalized
      (k.stAmountString msg.Amount hostZone.RedemptionRate ++ ("st" ++ hostZone.HostDenom)) with
  | error e4 => simp only [h4] at hret; exact hdone _ hret
  | ok inCoin =>
  simp only [h4] at hret
  by_cases h5 : (!inCoin.IsPositive) = true
  · rw [if_pos h5] at hret; exact hdone _ hret
  rw [if_neg h5] at hret
  by_cases h6 : (k.GetBalance sender ("st" ++ hostZone.HostDenom) w).Amount < inCoin.Amount
  · rw [if_pos h6] at hret; exact hdone _ hret
  rw [if_neg h6] at hret
  cases h7 : k.GetEpochTracker "day" w with
  | none => simp only [h7] at hret; exact hdone _ hret
  | some epochTracker =>
  simp only [h7] at hret
  cases h8 : k.Uint64 inCoin.Amount with
  | panicked p => simp only [h8] at hret; cases hret
  | returned amount =>
  simp only [h8] at hret
  cases h9 : k.GetUserRedemptionRecord
      (k.redemptionId hostZone.ChainId epochTracker.EpochNumber sender) w with
  | some rec => simp only [h9] at hret; exact hdone _ hret
  | none =>
  simp only [h9] at hret
  cases h10 : k.GetLatestEpochUnbondingRecord w with
  | none => simp only [h10] at hret; exact hdone _ hret
  | some epochUnbondingRecord =>
  simp only [h10] at hret
  cases h11 : epochUnbondingRecord.HostZoneUnbondings.lookup hostZone.ChainId with
  | none => simp only [h11] at hret; exact hdone _ hret
  | some hostZoneUnbonding =>
  simp only [h11] at hret
  cases h12 : (k.SendCoinsFromAccountToModule sender ModuleName [inCoin] w).1 with
  | some err => simp only [h12] at hret; cases hret
  | none =>
  simp only [h12] at hret
  cases hret
  simp at herr

/-! ## The EVM pipeline: how a pass follows its plan -/

theorem bind_eq {σ α β : Type} (m : Pass σ α) (f : α → Pass σ β) : m >>= f = Pass.bind m f := rfl

theorem pure_eq {σ α : Type} (a : α) : (pure a : Pass σ α) = Pass.pure a := rfl

theorem pure_bind_eq {σ α β : Type} (a : α) (f : α → Pass σ β) :
    Pass.bind (Pass.pure a) f = f a := by
  funext w
  simp [Pass.bind, Pass.pure]

theorem okEvents_append (p q : List Step) : okEvents (p ++ q) = okEvents p ++ okEvents q := by
  simp [okEvents]

theorem follows_pure {σ α : Type} (a : α) (w : σ) : Follows [] (Pass.pure a w) := by
  simp [Follows, Pass.pure, okEvents]

theorem follows_step {σ α : Type} (s : Step) (f : σ → Except (Context × Error) α × σ) (w : σ) :
    Follows [s] (step s f w) := by
  unfold Follows step
  cases h : (f w).1 with
  | ok a => simp [okEvents]
  | error e => exact ⟨[], s, [], rfl, by simp [okEvents]⟩

theorem follows_bind {σ α β : Type} (p q : List Step) (m : Pass σ α) (f : α → Pass σ β) (w : σ)
    (hm : Follows p (m w)) (hf : ∀ a, (m w).val = .ok a → Follows q (f a (m w).world)) :
    Follows (p ++ q) (Pass.bind m f w) := by
  unfold Pass.bind
  cases h : (m w).val with
  | error e =>
    simp only [Follows, h] at hm ⊢
    obtain ⟨pre, s, post, hp, ht⟩ := hm
    exact ⟨pre, s, post ++ q, by simp [hp], ht⟩
  | ok a =>
    have hq := hf a h
    simp only [Follows, h] at hm
    simp only
    unfold Follows at hq ⊢
    cases h2 : (f a (m w).world).val with
    | ok b =>
      simp only [h2] at hq ⊢
      rw [hm, hq, okEvents_append]
    | error e =>
      simp only [h2] at hq ⊢
      obtain ⟨pre, s, post, hp, ht⟩ := hq
      exact ⟨p ++ pre, s, post, by simp [hp], by rw [hm, ht, okEvents_append, List.append_assoc]⟩

theorem step_val_ok {σ α : Type} (s : Step) (g : σ → Except (Context × Error) α × σ) (w : σ)
    (a : α) (h : (step s g w).val = .ok a) : (g w).1 = .ok a := by
  unfold step at h
  cases hg : (g w).1 with
  | ok b => simp only [hg] at h; exact h
  | error e => simp only [hg] at h; cases h

theorem step_world {σ α : Type} (s : Step) (g : σ → Except (Context × Error) α × σ) (w : σ) :
    (step s g w).world = (g w).2 := by
  unfold step
  cases (g w).1 <;> rfl

theorem follows_step_bind {σ α β : Type} (s : Step) (q : List Step)
    (g : σ → Except (Context × Error) α × σ) (f : α → Pass σ β) (w : σ)
    (hf : ∀ a, (g w).1 = .ok a → Follows q (f a (g w).2)) :
    Follows (s :: q) (Pass.bind (step s g) f w) :=
  follows_bind [s] q (step s g) f w (follows_step s g w)
    (fun a ha => by rw [step_world]; exact hf a (step_val_ok s g w a ha))

theorem msgLoopBody_follows {σ : Type} (env : Collaborators σ) (md : EVMMonoDecorator)
    (ctx : Context) (tx : Tx) (simulate : Bool) (i : Nat) (msg : Msg) (decUtils : DecoratorUtils)
    (w : σ) :
    Follows (msgPlan (ctx.IsCheckTx && !simulate) i)
      (msgLoopBody env md ctx tx simulate i msg decUtils w) := by
  unfold msgLoopBody msgPlan
  simp only [bind_eq, pure_eq, call, check]
  refine follows_step_bind _ _ _ _ _ (fun u w1 => ?_)
  cases hc : (ctx.IsCheckTx && !simulate) <;>
    simp only [if_true, Bool.false_eq_true, if_false, List.cons_append, List.nil_append,
      pure_bind_eq] <;>
    (repeat (refine follows_step_bind _ _ _ _ _ (fun _ _ => ?_))) <;>
    exact follows_pure _ _

theorem msgLoop_follows {σ : Type} (env : Collaborators σ) (md : EVMMonoDecorator)
    (ctx : Context) (tx : Tx) (simulate : Bool) (msgs : List Msg) :
    ∀ (i : Nat) (decUtils : DecoratorUtils) (w : σ),
      Follows (loopPlan (ctx.IsCheckTx && !simulate) i msgs.length)
        (msgLoop env md ctx tx simulate i msgs decUtils w) := by
  induction msgs with
  | nil => intro i u w; exact follows_pure _ _
  | cons m rest ih =>
    intro i u w
    exact follows_bind _ _ _ _ w (msgLoopBody_follows env md ctx tx simulate i m u w)
      (fun a _ => ih (i + 1) a _)

theorem evmPass_follows {σ : Type} (env : Collaborators σ) (md : EVMMonoDecorator)
    (ctx : Context) (tx : Tx) (simulate : Bool) (w : σ) :
    Follows
      (passPlan ctx.IsReCheckTx
        ((env.SetupContext ctx tx md.evmKeeper w).1.1.IsCheckTx && !simulate) tx.GetMsgs.length)
      (evmPass env md ctx tx simulate w) := by
  unfold evmPass passPlan
  simp only [bind_eq, pure_eq, call, check, callCtx]
  have hctx : ∀ ctx1,
      (match (env.SetupContext ctx tx md.evmKeeper w).1.2 with
        | none => (Except.ok (env.SetupContext ctx tx md.evmKeeper w).1.1 :
            Except (Context × Error) Context)
        | some e => Except.error ((env.SetupContext ctx tx md.evmKeeper w).1.1, e)) = .ok ctx1 →
      ctx1 = (env.SetupContext ctx tx md.evmKeeper w).1.1 := by
    intro ctx1 h1
    cases he : (env.SetupContext ctx tx md.evmKeeper w).1.2 with
    | none => simp only [he, Except.ok.injEq] at h1; exact h1.symm
    | some e => simp only [he] at h1; cases h1
  cases hr : ctx.IsReCheckTx with
  | true =>
    simp only [if_true, pure_bind_eq, List.nil_append]
    refine follows_step_bind _ _ _ _ _ (fun ctx1 h1 => ?_)
    rw [← hctx ctx1 h1]
    refine follows_step_bind _ _ _ _ _ (fun u _ => ?_)
    refine follows_bind _ _ _ _ _ (msgLoop_follows env md ctx1 tx simulate _ 0 u _) (fun u2 _ => ?_)
    refine follows_step_bind _ _ _ _ _ (fun _ _ => ?_)
    refine follows_step_bind _ _ _ _ _ (fun _ _ => ?_)
    exact follows_pure _ _
  | false =>
    simp only [Bool.false_eq_true, if_false]
    refine follows_step_bind _ _ _ _ _ (fun fi _ => ?_)
    refine follows_step_bind _ _ _ _ _ (fun ctx1 h1 => ?_)
    rw [← hctx ctx1 h1]
    refine follows_step_bind _ _ _ _ _ (fun u _ => ?_)
    refine follows_bind _ _ _ _ _ (msgLoop_follows env md ctx1 tx simulate _ 0 u _) (fun u2 _ => ?_)
    refine follows_step_bind _ _ _ _ _ (fun _ _ => ?_)
    refine follows_step_bind _ _ _ _ _ (fun _ _ => ?_)
    exact follows_pure _ _

theorem next_not_mem_okEvents (plan : List Step) (t : Tx) (b : Bool) :
    Event.next t b ∉ okEvents plan := by
  simp [okEvents]

theorem msgLoopBody_of_MsgOk {σ : Type} (env : Collaborators σ) (md : EVMMonoDecorator)
    (ctx : Context) (tx : Tx) (simulate : Bool) (i : Nat) (msg : Msg) (u u1 : DecoratorUtils)
    (w w1 : σ) (h : MsgOk env md ctx tx simulate i msg u w u1 w1) :
    msgLoopBody env md ctx tx simulate i msg u w =
      ⟨.ok u1, w1, okEvents (msgPlan (ctx.IsCheckTx && !simulate) i)⟩ := by
  obtain ⟨un, ethMsg, w8, acc, w9, w10, ⟨c1, c2, c3, c4, c5⟩,
    ⟨coreMsg, fees, w7, f1, f2, f3, f4, f5⟩, hacc, hnonce, hgas, hw1, hu1⟩ := h
  subst hw1 hu1
  unfold msgLoopBody
  cases hc : (ctx.IsCheckTx && !simulate) with
  | true =>
    simp [bind_eq, pure_eq, call, check, Pass.bind, Pass.pure, step, c1, c2 hc, c3, c4, c5, f1,
      f2, f3, f4, f5, hacc, hnonce, hgas, okEvents, msgPlan, accumulate]
  | false =>
    simp [bind_eq, pure_eq, call, check, Pass.bind, Pass.pure, step, c1, c3, c4, c5, f1,
      f2, f3, f4, f5, hacc, hnonce, hgas, okEvents, msgPlan, accumulate]

theorem msgLoopBody_of_MsgFails {σ : Type} (env : Collaborators σ) (md : EVMMonoDecorator)
    (ctx : Context) (tx : Tx) (simulate : Bool) (i : Nat) (msg : Msg) (u : DecoratorUtils)
    (w w1 : σ) (s : MsgStep) (e : Error)
    (h : MsgFails env md ctx tx simulate msg u w s e w1) :
    (msgLoopBody env md ctx tx simulate i msg u w).val = .error (ctx, e) ∧
    (msgLoopBody env md ctx tx simulate i msg u w).world = w1 ∧
    (msgLoopBody env md ctx tx simulate i msg u w).trace.getLast? =
      some (Event.step (.msg i s) (some e)) := by
  unfold msgLoopBody
  cases h with
  | UnpackEthMsg e h1 =>
    cases hc : (ctx.IsCheckTx && !simulate) with
    | true => simp [bind_eq, pure_eq, call, check, Pass.bind, Pass.pure, step, h1]
    | false => simp [bind_eq, pure_eq, call, check, Pass.bind, Pass.pure, step, h1]
  | CheckMempoolFee un e h1 h2 h3 => simp [bind_eq, pure_eq, call, check, Pass.bind, Pass.pure, step, h1, h2, h3]
  | CheckGlobalFee un e h1 h2 h3 =>
    cases hc : (ctx.IsCheckTx && !simulate) with
    | true => simp [bind_eq, pure_eq, call, check, Pass.bind, Pass.pure, step, h1, h2 hc, h3]
    | false => simp [bind_eq, pure_eq, call, check, Pass.bind, Pass.pure, step, h1, h3]
  | ValidateMsg un e h1 h2 h3 h4 =>
    cases hc : (ctx.IsCheckTx && !simulate) with
    | true => simp [bind_eq, pure_eq, call, check, Pass.bind, Pass.pure, step, h1, h2 hc, h3, h4]
    | false => simp [bind_eq, pure_eq, call, check, Pass.bind, Pass.pure, step, h1, h3, h4]
  | SignatureVerification un e h1 h2 h3 h4 h5 =>
    cases hc : (ctx.IsCheckTx && !simulate) with
    | true => simp [bind_eq, pure_eq, call, check, Pass.bind, Pass.pure, step, h1, h2 hc, h3, h4, h5]
    | false => simp [bind_eq, pure_eq, call, check, Pass.bind, Pass.pure, step, h1, h3, h4, h5]
  | VerifyAccountBalance un ethMsg e hck h1 =>
    obtain ⟨c1, c2, c3, c4, c5⟩ := hck
    cases hc : (ctx.IsCheckTx && !simulate) with
    | true => simp [bind_eq, pure_eq, call, check, Pass.bind, Pass.pure, step, c1, c2 hc, c3, c4, c5, h1]
    | false => simp [bind_eq, pure_eq, call, check, Pass.bind, Pass.pure, step, c1, c3, c4, c5, h1]
  | AsMessage un ethMsg e0 hck h1 h2 =>
    obtain ⟨c1, c2, c3, c4, c5⟩ := hck
    cases hc : (ctx.IsCheckTx && !simulate) with
    | true => simp [bind_eq, pure_eq, call, check, Pass.bind, Pass.pure, step, c1, c2 hc, c3, c4, c5, h1, h2]
    | false => simp [bind_eq, pure_eq, call, check, Pass.bind, Pass.pure, step, c1, c3, c4, c5, h1, h2]
  | CanTransfer un ethMsg coreMsg e w7 hck h1 h2 h3 =>
    obtain ⟨c1, c2, c3, c4, c5⟩ := hck
    cases hc : (ctx.IsCheckTx && !simulate) with
    | true => simp [bind_eq, pure_eq, call, check, Pass.bind, Pass.pure, step, c1, c2 hc, c3, c4, c5, h1, h2, h3]
    | false => simp [bind_eq, pure_eq, call, check, Pass.bind, Pass.pure, step, c1, c3, c4, c5, h1, h2, h3]
  | VerifyFee un ethMsg coreMsg e w7 hck h1 h2 h3 h4 =>
    obtain ⟨c1, c2, c3, c4, c5⟩ := hck
    cases hc : (ctx.IsCheckTx && !simulate) with
    | true => simp [bind_eq, pure_eq, call, check, Pass.bind, Pass.pure, step, c1, c2 hc, c3, c4, c5, h1, h2, h3, h4]
    | false => simp [bind_eq, pure_eq, call, check, Pass.bind, Pass.pure, step, c1, c3, c4, c5, h1, h2, h3, h4]
  | ConsumeFeesAndEmitEvent un ethMsg coreMsg fees e w7 w8 hck h1 h2 h3 h4 h5 =>
    obtain ⟨c1, c2, c3, c4, c5⟩ := hck
    cases hc : (ctx.IsCheckTx && !simulate) with
    | true => simp [bind_eq, pure_eq, call, check, Pass.bind, Pass.pure, step, c1, c2 hc, c3, c4, c5, h1, h2, h3, h4, h5]
    | false => simp [bind_eq, pure_eq, call, check, Pass.bind, Pass.pure, step, c1, c3, c4, c5, h1, h2, h3, h4, h5]
  | GetAccount un ethMsg w8 hck hfk h1 =>
    obtain ⟨c1, c2, c3, c4, c5⟩ := hck
    obtain ⟨coreMsg, fees, w7, f1, f2, f3, f4, f5⟩ := hfk
    cases hc : (ctx.IsCheckTx && !simulate) with
    | true => simp [bind_eq, pure_eq, call, check, Pass.bind, Pass.pure, step, c1, c2 hc, c3, c4, c5, f1, f2, f3, f4, f5, h1]
    | false => simp [bind_eq, pure_eq, call, check, Pass.bind, Pass.pure, step, c1, c3, c4, c5, f1, f2, f3, f4, f5, h1]
  | IncrementNonce un ethMsg acc e w8 w9 hck hfk h1 h2 =>
    obtain ⟨c1, c2, c3, c4, c5⟩ := hck
    obtain ⟨coreMsg, fees, w7, f1, f2, f3, f4, f5⟩ := hfk
    cases hc : (ctx.IsCheckTx && !simulate) with
    | true => simp [bind_eq, pure_eq, call, check, Pass.bind, Pass.pure, step, c1, c2 hc, c3, c4, c5, f1, f2, f3, f4, f5, h1, h2]
    | false => simp [bind_eq, pure_eq, call, check, Pass.bind, Pass.pure, step, c1, c3, c4, c5, f1, f2, f3, f4, f5, h1, h2]
  | CheckGasWanted un ethMsg acc e w8 w9 w10 hck hfk h1 h2 h3 =>
    obtain ⟨c1, c2, c3, c4, c5⟩ := hck
    obtain ⟨coreMsg, fees, w7, f1, f2, f3, f4, f5⟩ := hfk
    cases hc : (ctx.IsCheckTx && !simulate) with
    | true => simp [bind_eq, pure_eq, call, check, Pass.bind, Pass.pure, step, c1, c2 hc, c3, c4, c5, f1, f2, f3, f4, f5, h1, h2, h3]
    | false => simp [bind_eq, pure_eq, call, check, Pass.bind, Pass.pure, step, c1, c3, c4, c5, f1, f2, f3, f4, f5, h1, h2, h3]

theorem msgLoopBody_total {σ : Type} (env : Collaborators σ) (md : EVMMonoDecorator)
    (ctx : Context) (tx : Tx) (simulate : Bool) (i : Nat) (msg : Msg) (u : DecoratorUtils)
    (w : σ) :
    (∃ u1 w1, MsgOk env md ctx tx simulate i msg u w u1 w1) ∨
    (∃ s e w1, MsgFails env md ctx tx simulate msg u w s e w1) := by
  cases h1 : env.UnpackEthMsg msg with
  | error e => exact Or.inr ⟨_, _, _, .UnpackEthMsg e h1⟩
  | ok un =>
  have hmem : ((ctx.IsCheckTx && !simulate) = true →
      env.CheckMempoolFee (LegacyNewDecFromBigInt un.txData.Fee) u.MempoolMinGasPrice
        (LegacyNewDecFromBigInt (un.txData.GetGas : Int)) u.Rules.IsLondon = none) ∨
      ∃ e, (ctx.IsCheckTx && !simulate) = true ∧
        env.CheckMempoolFee (LegacyNewDecFromBigInt un.txData.Fee) u.MempoolMinGasPrice
          (LegacyNewDecFromBigInt (un.txData.GetGas : Int)) u.Rules.IsLondon = some e := by
    cases hc : (ctx.IsCheckTx && !simulate) with
    | false => exact Or.inl (fun h => by cases h)
    | true =>
      cases hm : env.CheckMempoolFee (LegacyNewDecFromBigInt un.txData.Fee)
          u.MempoolMinGasPrice (LegacyNewDecFromBigInt (un.txData.GetGas : Int))
          u.Rules.IsLondon with
      | none => exact Or.inl (fun _ => rfl)
      | some e => exact Or.inr ⟨e, rfl, rfl⟩
  rcases hmem with h2 | ⟨e, hc, hm⟩
  swap
  · exact Or.inr ⟨_, _, _, .CheckMempoolFee un e h1 hc hm⟩
  cases h3 : env.CheckGlobalFee (globalCheckFee env un.txData u.BaseFee) u.GlobalMinGasPrice
      (LegacyNewDecFromBigInt (un.txData.GetGas : Int)) with
  | some e => exact Or.inr ⟨_, _, _, .CheckGlobalFee un e h1 h2 h3⟩
  | none =>
  cases h4 : env.ValidateMsg u.EvmParams un.txData un.sender with
  | some e => exact Or.inr ⟨_, _, _, .ValidateMsg un e h1 h2 h3 h4⟩
  | none =>
  cases h5 : env.SignatureVerification un.ethMsg u.Signer u.EvmParams.AllowUnprotectedTxs with
  | error e => exact Or.inr ⟨_, _, _, .SignatureVerification un e h1 h2 h3 h4 h5⟩
  | ok ethMsg =>
  have hck : ChecksOk env ctx simulate msg u un ethMsg := ⟨h1, h2, h3, h4, h5⟩
  cases f1 : VerifyAccountBalance
      (env.EvmGetAccount md.evmKeeper ctx (HexToAddress ethMsg.From) w) un.txData with
  | some e => exact Or.inr ⟨_, _, _, .VerifyAccountBalance un ethMsg e hck f1⟩
  | none =>
  cases f2 : env.AsMessage ethMsg u.Signer u.BaseFee with
  | error e => exact Or.inr ⟨_, _, _, .AsMessage un ethMsg e hck f1 f2⟩
  | ok coreMsg =>
  rcases f3 : env.CanTransfer ctx md.evmKeeper coreMsg u.BaseFee u.EthConfig u.EvmParams
      u.Rules.IsLondon w with ⟨oe, w7⟩
  cases oe with
  | some e => exact Or.inr ⟨_, _, _, .CanTransfer un ethMsg coreMsg e w7 hck f1 f2 f3⟩
  | none =>
  cases f4 : env.VerifyFee un.txData u.EvmDenom u.BaseFee u.Rules.IsHomestead
      u.Rules.IsIstanbul ctx.IsCheckTx with
  | error e => exact Or.inr ⟨_, _, _, .VerifyFee un ethMsg coreMsg e w7 hck f1 f2 f3 f4⟩
  | ok fees =>
  rcases f5 : env.ConsumeFeesAndEmitEvent ctx
      { Bank := md.bankKeeper, Distribution := md.distributionKeeper, Evm := md.evmKeeper,
        Staking := md.stakingKeeper } fees ethMsg.GetFrom w7 with ⟨oe, w8⟩
  cases oe with
  | some e =>
    exact Or.inr ⟨_, _, _, .ConsumeFeesAndEmitEvent un ethMsg coreMsg fees e w7 w8 hck f1 f2 f3
      f4 f5⟩
  | none =>
  have hfk : FeesOk env md ctx u un ethMsg w w8 := ⟨coreMsg, fees, w7, f1, f2, f3, f4, f5⟩
  cases g1 : env.GetAccount md.accountKeeper ctx ethMsg.GetFrom w8 with
  | none => exact Or.inr ⟨_, _, _, .GetAccount un ethMsg w8 hck hfk g1⟩
  | some acc =>
  rcases g2 : IncrementNonce env ctx md.accountKeeper acc un.txData.GetNonce w8 with ⟨oe, w9⟩
  cases oe with
  | some e => exact Or.inr ⟨_, _, _, .IncrementNonce un ethMsg acc e w8 w9 hck hfk g1 g2⟩
  | none =>
  rcases g3 : env.CheckGasWanted ctx md.feeMarketKeeper tx u.Rules.IsLondon w9 with ⟨oe, w10⟩
  cases oe with
  | some e =>
    exact Or.inr ⟨_, _, _, .CheckGasWanted un ethMsg acc e w8 w9 w10 hck hfk g1 g2 g3⟩
  | none =>
  exact Or.inl ⟨_, _, un, ethMsg, w8, acc, w9, w10, hck, hfk, g1, g2, g3, rfl, rfl⟩

theorem bind_of_ok {σ α β : Type} (m : Pass σ α) (f : α → Pass σ β) (w w1 : σ) (a : α)
    (t : List Event) (h : m w = ⟨.ok a, w1, t⟩) :
    Pass.bind m f w = ⟨(f a w1).val, (f a w1).world, t ++ (f a w1).trace⟩ := by
  unfold Pass.bind
  rw [h]

theorem bind_of_error {σ α β : Type} (m : Pass σ α) (f : α → Pass σ β) (w : σ)
    (x : Context × Error) (h : (m w).val = .error x) :
    Pass.bind m f w = ⟨.error x, (m w).world, (m w).trace⟩ := by
  unfold Pass.bind
  rw [h]

theorem getLast?_append_some {α : Type} (t1 t2 : List α) (x : α) (h : t2.getLast? = some x) :
    (t1 ++ t2).getLast? = some x := by
  rw [List.getLast?_append, h]
  rfl

theorem msgLoop_of_LoopOk {σ : Type} (env : Collaborators σ) (md : EVMMonoDecorator)
    (ctx : Context) (tx : Tx) (simulate : Bool) (msgs : List Msg) :
    ∀ (i : Nat) (u u1 : DecoratorUtils) (w w1 : σ),
      LoopOk env md ctx tx simulate i msgs u w u1 w1 →
      msgLoop env md ctx tx simulate i msgs u w =
        ⟨.ok u1, w1, okEvents (loopPlan (ctx.IsCheckTx && !simulate) i msgs.length)⟩ := by
  induction msgs with
  | nil =>
    intro i u u1 w w1 h
    obtain ⟨hu, hw⟩ := h
    subst hu hw
    rfl
  | cons m rest ih =>
    intro i u u1 w w1 h
    obtain ⟨u2, w2, hm, hrest⟩ := h
    simp only [msgLoop, bind_eq]
    rw [bind_of_ok _ _ _ _ _ _ (msgLoopBody_of_MsgOk env md ctx tx simulate i m u u2 w w2 hm),
      ih (i + 1) u2 u1 w2 w1 hrest]
    simp only [List.length_cons, loopPlan, okEvents_append]

theorem msgLoop_of_LoopFails {σ : Type} (env : Collaborators σ) (md : EVMMonoDecorator)
    (ctx : Context) (tx : Tx) (simulate : Bool) (msgs : List Msg) :
    ∀ (i : Nat) (u : DecoratorUtils) (w w1 : σ) (s : Step) (e : Error),
      LoopFails env md ctx tx simulate i msgs u w s e w1 →
      (msgLoop env md ctx tx simulate i msgs u w).val = .error (ctx, e) ∧
      (msgLoop env md ctx tx simulate i msgs u w).world = w1 ∧
      (msgLoop env md ctx tx simulate i msgs u w).trace.getLast? =
        some (Event.step s (some e)) := by
  induction msgs with
  | nil => intro i u w w1 s e h; exact absurd h (by simp [LoopFails])
  | cons m rest ih =>
    intro i u w w1 s e h
    simp only [msgLoop, bind_eq]
    rcases h with ⟨ms, hs, hfail⟩ | ⟨u2, w2, hm, hrest⟩
    · obtain ⟨hv, hw, ht⟩ := msgLoopBody_of_MsgFails env md ctx tx simulate i m u w w1 ms e hfail
      rw [bind_of_error _ _ _ _ hv, hs]
      exact ⟨rfl, hw, ht⟩
    · obtain ⟨hv, hw, ht⟩ := ih (i + 1) u2 w2 w1 s e hrest
      rw [bind_of_ok _ _ _ _ _ _ (msgLoopBody_of_MsgOk env md ctx tx simulate i m u u2 w w2 hm)]
      exact ⟨hv, hw, getLast?_append_some _ _ _ ht⟩

theorem msgLoop_total {σ : Type} (env : Collaborators σ) (md : EVMMonoDecorator)
    (ctx : Context) (tx : Tx) (simulate : Bool) (msgs : List Msg) :
    ∀ (i : Nat) (u : DecoratorUtils) (w : σ),
      (∃ u1 w1, LoopOk env md ctx tx simulate i msgs u w u1 w1) ∨
      (∃ s e w1, LoopFails env md ctx tx simulate i msgs u w s e w1) := by
  induction msgs with
  | nil => intro i u w; exact Or.inl ⟨u, w, rfl, rfl⟩
  | cons m rest ih =>
    intro i u w
    rcases msgLoopBody_total env md ctx tx simulate i m u w with ⟨u2, w2, hm⟩ | ⟨s, e, w1, hf⟩
    · rcases ih (i + 1) u2 w2 with ⟨u1, w1, hok⟩ | ⟨s, e, w1, hf⟩
      · exact Or.inl ⟨u1, w1, u2, w2, hm, hok⟩
      · exact Or.inr ⟨s, e, w1, Or.inr ⟨u2, w2, hm, hf⟩⟩
    · exact Or.inr ⟨_, e, w1, Or.inl ⟨s, rfl, hf⟩⟩

theorem evmPass_of_PassOk {σ : Type} (env : Collaborators σ) (md : EVMMonoDecorator)
    (ctx : Context) (tx : Tx) (simulate : Bool) (w : σ) (ctx2 : Context) (u : DecoratorUtils)
    (w1 : σ) (h : PassOk env md ctx tx simulate w ctx2 u w1) :
    evmPass env md ctx tx simulate w =
      ⟨.ok (ctx2, u), w1,
        okEvents (passPlan ctx.IsReCheckTx
          ((env.SetupContext ctx tx md.evmKeeper w).1.1.IsCheckTx && !simulate)
          tx.GetMsgs.length)⟩ := by
  obtain ⟨fi, ctx1, w0, uc, w2, hv, hs, hu, hl, hf, hb⟩ := h
  have hloop := msgLoop_of_LoopOk env md ctx1 tx simulate _ _ _ _ _ _ hl
  unfold initialUtils at hloop
  rcases hv with ⟨hr, hfi⟩ | ⟨hr, hval⟩
  · subst hfi
    simp [evmPass, bind_eq, pure_eq, call, check, callCtx, Pass.bind, Pass.pure, step, NewMonoDecoratorUtils, hr, hs, hu, hloop, hf, hb, okEvents, passPlan]
  · simp [evmPass, bind_eq, pure_eq, call, check, callCtx, Pass.bind, Pass.pure, step, NewMonoDecoratorUtils, hr, hval, hs, hu, hloop, hf, hb, okEvents, passPlan]

theorem evmPass_of_PassFails {σ : Type} (env : Collaborators σ) (md : EVMMonoDecorator)
    (ctx : Context) (tx : Tx) (simulate : Bool) (w : σ) (s : Step) (e : Error)
    (ctx1 : Context) (w1 : σ) (h : PassFails env md ctx tx simulate w s e ctx1 w1) :
    (evmPass env md ctx tx simulate w).val = .error (ctx1, e) ∧
    (evmPass env md ctx tx simulate w).world = w1 ∧
    (evmPass env md ctx tx simulate w).trace.getLast? = some (Event.step s (some e)) := by
  cases h with
  | ValidateTx e0 hr hval => simp [evmPass, bind_eq, pure_eq, call, check, callCtx, Pass.bind, Pass.pure, step, NewMonoDecoratorUtils, hr, hval]
  | SetupContext fi c1 e0 w0 hv hs =>
    rcases hv with ⟨hr, hfi⟩ | ⟨hr, hval⟩
    · simp [evmPass, bind_eq, pure_eq, call, check, callCtx, Pass.bind, Pass.pure, step, NewMonoDecoratorUtils, hr, hs]
    · simp [evmPass, bind_eq, pure_eq, call, check, callCtx, Pass.bind, Pass.pure, step, NewMonoDecoratorUtils, hr, hval, hs]
  | NewMonoDecoratorUtils fi c1 e0 w0 w2 hv hs hu =>
    rcases hv with ⟨hr, hfi⟩ | ⟨hr, hval⟩
    · simp [evmPass, bind_eq, pure_eq, call, check, callCtx, Pass.bind, Pass.pure, step, NewMonoDecoratorUtils, hr, hs, hu]
    · simp [evmPass, bind_eq, pure_eq, call, check, callCtx, Pass.bind, Pass.pure, step, NewMonoDecoratorUtils, hr, hval, hs, hu]
  | loop fi c1 uc s0 e0 w0 w2 w3 hv hs hu hl =>
    obtain ⟨lv, lw, lt⟩ := msgLoop_of_LoopFails env md _ tx simulate _ _ _ _ _ _ _ hl
    unfold initialUtils at lv lw lt
    rcases hv with ⟨hr, hfi⟩ | ⟨hr, hval⟩
    · simp [evmPass, bind_eq, pure_eq, call, check, callCtx, Pass.bind, Pass.pure, step, NewMonoDecoratorUtils, hr, hs, hu, lv, lw, lt]
      exact getLast?_append_some [_] _ _ lt
    · simp [evmPass, bind_eq, pure_eq, call, check, callCtx, Pass.bind, Pass.pure, step, NewMonoDecoratorUtils, hr, hval, hs, hu, lv, lw, lt]
      exact getLast?_append_some [_] _ _ lt
  | CheckTxFee fi c1 uc u e0 w0 w2 w3 hv hs hu hl hf =>
    have hloop := msgLoop_of_LoopOk env md _ tx simulate _ _ _ _ _ _ hl
    unfold initialUtils at hloop
    rcases hv with ⟨hr, hfi⟩ | ⟨hr, hval⟩
    · subst hfi
      simp [evmPass, bind_eq, pure_eq, call, check, callCtx, Pass.bind, Pass.pure, step, NewMonoDecoratorUtils, hr, hs, hu, hloop, hf]
      exact getLast?_append_some [_] _ _ (getLast?_append_some _ _ _ rfl)
    · simp [evmPass, bind_eq, pure_eq, call, check, callCtx, Pass.bind, Pass.pure, step, NewMonoDecoratorUtils, hr, hval, hs, hu, hloop, hf]
      exact getLast?_append_some [_] _ _ (getLast?_append_some _ _ _ rfl)
  | CheckBlockGasLimit fi c1 c2 uc u e0 w0 w2 w3 hv hs hu hl hf hb =>
    have hloop := msgLoop_of_LoopOk env md _ tx simulate _ _ _ _ _ _ hl
    unfold initialUtils at hloop
    rcases hv with ⟨hr, hfi⟩ | ⟨hr, hval⟩
    · subst hfi
      simp [evmPass, bind_eq, pure_eq, call, check, callCtx, Pass.bind, Pass.pure, step, NewMonoDecoratorUtils, hr, hs, hu, hloop, hf, hb]
      exact getLast?_append_some [_] _ _ (getLast?_append_some _ _ _ rfl)
    · simp [evmPass, bind_eq, pure_eq, call, check, callCtx, Pass.bind, Pass.pure, step, NewMonoDecoratorUtils, hr, hval, hs, hu, hloop, hf, hb]
      exact getLast?_append_some [_] _ _ (getLast?_append_some _ _ _ rfl)

theorem evmPass_total {σ : Type} (env : Collaborators σ) (md : EVMMonoDecorator)
    (ctx : Context) (tx : Tx) (simulate : Bool) (w : σ) :
    (∃ ctx2 u w1, PassOk env md ctx tx simulate w ctx2 u w1) ∨
    (∃ s e ctx1 w1, PassFails env md ctx tx simulate w s e ctx1 w1) := by
  have hvalid : (∃ fi, Validated env ctx tx fi) ∨
      ∃ e, ctx.IsReCheckTx = false ∧ env.ValidateTx tx = .error e := by
    cases hr : ctx.IsReCheckTx with
    | true => exact Or.inl ⟨none, Or.inl ⟨hr, rfl⟩⟩
    | false =>
      cases hval : env.ValidateTx tx with
      | error e => exact Or.inr ⟨e, rfl, rfl⟩
      | ok fi => exact Or.inl ⟨fi, Or.inr ⟨hr, hval⟩⟩
  rcases hvalid with ⟨fi, hv⟩ | ⟨e, hr, hval⟩
  swap
  · exact Or.inr ⟨_, _, _, _, .ValidateTx e hr hval⟩
  rcases hs : env.SetupContext ctx tx md.evmKeeper w with ⟨⟨ctx1, oe⟩, w0⟩
  cases oe with
  | some e => exact Or.inr ⟨_, _, _, _, .SetupContext fi ctx1 e w0 hv hs⟩
  | none =>
  rcases hu : env.utilsContext ctx1 md.evmKeeper md.feeMarketKeeper w0 with ⟨ru, w2⟩
  cases ru with
  | error e => exact Or.inr ⟨_, _, _, _, .NewMonoDecoratorUtils fi ctx1 e w0 w2 hv hs hu⟩
  | ok uc =>
  rcases msgLoop_total env md ctx1 tx simulate tx.GetMsgs 0 (initialUtils uc) w2 with
    ⟨u, w1, hl⟩ | ⟨s, e, w1, hl⟩
  swap
  · exact Or.inr ⟨_, _, _, _, .loop fi ctx1 uc s e w0 w2 w1 hv hs hu hl⟩
  cases hf : CheckTxFee fi u.TxFee u.TxGasLimit with
  | some e => exact Or.inr ⟨_, _, _, _, .CheckTxFee fi ctx1 uc u e w0 w2 w1 hv hs hu hl hf⟩
  | none =>
  rcases hb : env.CheckBlockGasLimit ctx1 u.GasWanted u.MinPriority with ⟨ctx2, oe⟩
  cases oe with
  | some e =>
    exact Or.inr ⟨_, _, _, _, .CheckBlockGasLimit fi ctx1 ctx2 uc u e w0 w2 w1 hv hs hu hl hf hb⟩
  | none => exact Or.inl ⟨ctx2, u, w1, fi, ctx1, w0, uc, w2, hv, hs, hu, hl, hf, hb⟩

/-- C3: "every step succeeds" and "a step fails" are read off the collaborators
(`PassOk`, `PassFails`): the results of the pre-loop steps, of every per-message step
of every message and of both post-loop checks, threaded through the worlds they
leave. (1) If every step succeeds, reaching the context `ctx2` and the world `w1`,
the pass runs every step of its plan and then calls the next-stage handler once,
with `ctx2`, the original transaction and the same simulate flag on `w1`, and returns
what that handler returns. (2) If the step `s` fails with the error `e` after every
earlier step succeeded, the pass returns `e` with the world at the failure; its
events are the steps before `s`, all successful, followed by `s` failing; no later
step runs and the next-stage handler is not called. (3) One of the two always holds,
so the next-stage handler is called if and only if every step succeeds. -/
theorem AnteHandle_delegates_iff_all_steps_succeed {σ : Type} (env : Collaborators σ)
    (md : EVMMonoDecorator) (next : Handler σ) (ctx : Context) (tx : Tx) (simulate : Bool)
    (w : σ) :
    (∀ ctx2 u w1, PassOk env md ctx tx simulate w ctx2 u w1 →
      md.AnteHandle env ctx tx simulate next w =
        ⟨(next ctx2 tx simulate w1).ctx, (next ctx2 tx simulate w1).err,
          (next ctx2 tx simulate w1).world,
          okEvents (passPlan ctx.IsReCheckTx
          ((env.SetupContext ctx tx md.evmKeeper w).1.1.IsCheckTx && !simulate)
          tx.GetMsgs.length) ++
            Event.next tx simulate :: (next ctx2 tx simulate w1).trace⟩) ∧
    (∀ t b, Event.next t b ∉ okEvents (passPlan ctx.IsReCheckTx
          ((env.SetupContext ctx tx md.evmKeeper w).1.1.IsCheckTx && !simulate)
          tx.GetMsgs.length)) ∧
    (∀ s e ctx1 w1, PassFails env md ctx tx simulate w s e ctx1 w1 →
      (md.AnteHandle env ctx tx simulate next w).err = some e ∧
      (md.AnteHandle env ctx tx simulate next w).ctx = ctx1 ∧
      (md.AnteHandle env ctx tx simulate next w).world = w1 ∧
      (∃ pre post, passPlan ctx.IsReCheckTx
          ((env.SetupContext ctx tx md.evmKeeper w).1.1.IsCheckTx && !simulate)
          tx.GetMsgs.length = pre ++ s :: post ∧
        (md.AnteHandle env ctx tx simulate next w).trace =
          okEvents pre ++ [Event.step s (some e)]) ∧
      (∀ t b, Event.next t b ∉ (md.AnteHandle env ctx tx simulate next w).trace)) ∧
    ((∃ ctx2 u w1, PassOk env md ctx tx simulate w ctx2 u w1) ∨
      (∃ s e ctx1 w1, PassFails env md ctx tx simulate w s e ctx1 w1)) ∧
    ((∃ ctx2 u w1, PassOk env md ctx tx simulate w ctx2 u w1) ↔
      ∃ t b, Event.next t b ∈ (md.AnteHandle env ctx tx simulate next w).trace) := by
  have hok : ∀ ctx2 u w1, PassOk env md ctx tx simulate w ctx2 u w1 →
      md.AnteHandle env ctx tx simulate next w =
        ⟨(next ctx2 tx simulate w1).ctx, (next ctx2 tx simulate w1).err,
          (next ctx2 tx simulate w1).world,
          okEvents (passPlan ctx.IsReCheckTx
          ((env.SetupContext ctx tx md.evmKeeper w).1.1.IsCheckTx && !simulate)
          tx.GetMsgs.length) ++
            Event.next tx simulate :: (next ctx2 tx simulate w1).trace⟩ := by
    intro ctx2 u w1 h
    unfold EVMMonoDecorator.AnteHandle
    rw [evmPass_of_PassOk env md ctx tx simulate w ctx2 u w1 h]
  have hfail : ∀ s e ctx1 w1, PassFails env md ctx tx simulate w s e ctx1 w1 →
      (md.AnteHandle env ctx tx simulate next w).err = some e ∧
      (md.AnteHandle env ctx tx simulate next w).ctx = ctx1 ∧
      (md.AnteHandle env ctx tx simulate next w).world = w1 ∧
      (∃ pre post, passPlan ctx.IsReCheckTx
          ((env.SetupContext ctx tx md.evmKeeper w).1.1.IsCheckTx && !simulate)
          tx.GetMsgs.length = pre ++ s :: post ∧
        (md.AnteHandle env ctx tx simulate next w).trace =
          okEvents pre ++ [Event.step s (some e)]) ∧
      (∀ t b, Event.next t b ∉ (md.AnteHandle env ctx tx simulate next w).trace) := by
    intro s e ctx1 w1 h
    obtain ⟨hv, hw, ht⟩ := evmPass_of_PassFails env md ctx tx simulate w s e ctx1 w1 h
    have hf := evmPass_follows env md ctx tx simulate w
    unfold Follows at hf
    simp only [hv] at hf
    obtain ⟨pre, s0, post, hp, htr⟩ := hf
    have hlast : (okEvents pre ++ [Event.step s0 (some e)]).getLast? =
        some (Event.step s0 (some e)) := getLast?_append_some _ _ _ rfl
    have hs0 : s0 = s := by
      rw [htr, hlast] at ht
      injection ht with ht
      injection ht with ht1
    subst hs0
    unfold EVMMonoDecorator.AnteHandle
    rw [hv]
    refine ⟨rfl, rfl, hw, ⟨pre, post, hp, htr⟩, ?_⟩
    intro t b
    rw [htr]
    simp only [List.mem_append, List.mem_singleton, not_or]
    exact ⟨next_not_mem_okEvents _ t b, by simp⟩
  refine ⟨hok, fun t b => next_not_mem_okEvents _ t b, hfail,
    evmPass_total env md ctx tx simulate w, ?_⟩
  constructor
  · rintro ⟨ctx2, u, w1, h⟩
    refine ⟨tx, simulate, ?_⟩
    rw [hok ctx2 u w1 h]
    simp
  · rintro ⟨t, b, hmem⟩
    rcases evmPass_total env md ctx tx simulate w with h | ⟨s, e, ctx1, w1, h⟩
    · exact h
    · exact absurd hmem ((hfail s e ctx1 w1 h).2.2.2.2 t b)

/-- The concrete pass of one legacy message from a sender with balance 500000 and
sequence 0: every step succeeds on the concrete collaborators. -/
theorem demo_PassOk :
    PassOk demoEnv demoMono checkCtx (evmTx [legacyMsg 0] ⟨210000, 21000⟩) false
      (worldWith 500000) checkCtx (demoAccumulator 1 21000)
      ⟨[("fee_collector", 210000), ("0xA", 290000)], [⟨"0xA", 1⟩], 1⟩ := by
  refine ⟨some ⟨210000, 21000⟩, checkCtx, worldWith 500000, demoUtils, worldWith 500000,
    Or.inr ⟨rfl, rfl⟩, rfl, rfl, ?_, by decide, rfl⟩
  refine ⟨_, _, ⟨⟨legacyEthMsg 0, (legacyEthMsg 0).Data, (legacyEthMsg 0).From⟩, legacyEthMsg 0,
    ⟨[("fee_collector", 210000), ("0xA", 290000)], [⟨"0xA", 0⟩], 0⟩, ⟨"0xA", 0⟩,
    ⟨[("fee_collector", 210000), ("0xA", 290000)], [⟨"0xA", 1⟩], 0⟩,
    ⟨[("fee_collector", 210000), ("0xA", 290000)], [⟨"0xA", 1⟩], 0⟩,
    ⟨rfl, fun _ => by decide, by decide, rfl, rfl⟩,
    ⟨0, 210000, worldWith 500000, by decide, rfl, rfl, rfl, by decide⟩,
    by decide, by decide, rfl, rfl, rfl⟩, by decide, rfl⟩

/-- The concrete pass of one legacy message from a sender with balance 100000: the
balance verification fails on the concrete collaborators after every earlier step
succeeded. -/
theorem demo_PassFails :
    PassFails demoEnv demoMono checkCtx (evmTx [legacyMsg 0] ⟨210000, 21000⟩) false
      (worldWith 100000) (.msg 0 .VerifyAccountBalance)
      (Wrapf .balanceInsufficient "sender balance < tx cost") checkCtx (worldWith 100000) := by
  refine .loop (some ⟨210000, 21000⟩) checkCtx demoUtils _ _ (worldWith 100000)
    (worldWith 100000) (worldWith 100000) (Or.inr ⟨rfl, rfl⟩) rfl rfl ?_
  refine Or.inl ⟨.VerifyAccountBalance, rfl, ?_⟩
  exact .VerifyAccountBalance ⟨legacyEthMsg 0, (legacyEthMsg 0).Data, (legacyEthMsg 0).From⟩
    (legacyEthMsg 0) _ ⟨rfl, fun _ => by decide, by decide, rfl, rfl⟩ (by decide)

/-- The success case and the failure case of the pass, at the two concrete passes. -/
theorem AnteHandle_delegates_iff_all_steps_succeed_witness :
    (PassOk demoEnv demoMono checkCtx (evmTx [legacyMsg 0] ⟨210000, 21000⟩) false
        (worldWith 500000) checkCtx (demoAccumulator 1 21000)
        ⟨[("fee_collector", 210000), ("0xA", 290000)], [⟨"0xA", 1⟩], 1⟩ ∧
      demoMono.AnteHandle demoEnv checkCtx (evmTx [legacyMsg 0] ⟨210000, 21000⟩) false
          terminalHandler (worldWith 500000) =
        ⟨checkCtx, none, ⟨[("fee_collector", 210000), ("0xA", 290000)], [⟨"0xA", 1⟩], 1⟩,
          okEvents (passPlan false true 1) ++
            [Event.next (evmTx [legacyMsg 0] ⟨210000, 21000⟩) false]⟩) ∧
    (PassFails demoEnv demoMono checkCtx (evmTx [legacyMsg 0] ⟨210000, 21000⟩) false
        (worldWith 100000) (.msg 0 .VerifyAccountBalance)
        (Wrapf .balanceInsufficient "sender balance < tx cost") checkCtx (worldWith 100000) ∧
      (demoMono.AnteHandle demoEnv checkCtx (evmTx [legacyMsg 0] ⟨210000, 21000⟩) false
          terminalHandler (worldWith 100000)).err =
        some (Wrapf .balanceInsufficient "sender balance < tx cost") ∧
      (demoMono.AnteHandle demoEnv checkCtx (evmTx [legacyMsg 0] ⟨210000, 21000⟩) false
          terminalHandler (worldWith 100000)).world = worldWith 100000) :=
  ⟨⟨demo_PassOk,
    (AnteHandle_delegates_iff_all_steps_succeed demoEnv demoMono terminalHandler checkCtx
      (evmTx [legacyMsg 0] ⟨210000, 21000⟩) false (worldWith 500000)).1 _ _ _ demo_PassOk⟩,
   ⟨demo_PassFails,
    ((AnteHandle_delegates_iff_all_steps_succeed demoEnv demoMono terminalHandler checkCtx
      (evmTx [legacyMsg 0] ⟨210000, 21000⟩) false (worldWith 100000)).2.2.1 _ _ _ _
        demo_PassFails).1,
    ((AnteHandle_delegates_iff_all_steps_succeed demoEnv demoMono terminalHandler checkCtx
      (evmTx [legacyMsg 0] ⟨210000, 21000⟩) false (worldWith 100000)).2.2.1 _ _ _ _
        demo_PassFails).2.2.1⟩⟩


/-- C5: a single-message EVM transaction whose pre-loop steps, decoding, fee checks,
message-content check and signature check succeed, and whose verified sender holds
less than value + fee, is rejected at the account-balance verification step with the
balance-insufficient error: that step is the last event, the world is the one left by
the pre-loop steps, neither the fee deduction nor the nonce increment runs, and the
next-stage handler is not called. -/
theorem AnteHandle_insufficient_balance {σ : Type} (env : Collaborators σ)
    (md : EVMMonoDecorator) (next : Handler σ) (ctx ctx1 : Context) (tx : Tx) (simulate : Bool)
    (w w1 w2 : σ) (msg : Msg) (uc : UtilsContext) (u : Unpacked) (ethMsg : MsgEthereumTx)
    (hmsgs : tx.GetMsgs = [msg])
    (hvalid : ctx.IsReCheckTx = false → ∃ fi, env.ValidateTx tx = .ok fi)
    (hsetup : env.SetupContext ctx tx md.evmKeeper w = ((ctx1, none), w1))
    (hutils : env.utilsContext ctx1 md.evmKeeper md.feeMarketKeeper w1 = (.ok uc, w2))
    (hunpack : env.UnpackEthMsg msg = .ok u)
    (hmempool : (ctx1.IsCheckTx && !simulate) = true →
      env.CheckMempoolFee (LegacyNewDecFromBigInt u.txData.Fee) uc.MempoolMinGasPrice
        (LegacyNewDecFromBigInt (u.txData.GetGas : Int)) uc.Rules.IsLondon = none)
    (hglobal : env.CheckGlobalFee (globalCheckFee env u.txData uc.BaseFee) uc.GlobalMinGasPrice
      (LegacyNewDecFromBigInt (u.txData.GetGas : Int)) = none)
    (hcontent : env.ValidateMsg uc.EvmParams u.txData u.sender = none)
    (hsig : env.SignatureVerification u.ethMsg uc.Signer uc.EvmParams.AllowUnprotectedTxs =
      .ok ethMsg)
    (hbalance : (env.EvmGetAccount md.evmKeeper ctx1 (HexToAddress ethMsg.From) w2).Balance <
      u.txData.Value + u.txData.Fee) :
    (md.AnteHandle env ctx tx simulate next w).err =
        some (Wrapf .balanceInsufficient "sender balance < tx cost") ∧
      (md.AnteHandle env ctx tx simulate next w).ctx = ctx1 ∧
      (md.AnteHandle env ctx tx simulate next w).world = w2 ∧
      (md.AnteHandle env ctx tx simulate next w).trace =
        okEvents ((if ctx.IsReCheckTx then [] else [.ValidateTx]) ++
          [.SetupContext, .NewMonoDecoratorUtils, .msg 0 .UnpackEthMsg] ++
          (if ctx1.IsCheckTx && !simulate then [.msg 0 .CheckMempoolFee] else []) ++
          [.msg 0 .CheckGlobalFee, .msg 0 .ValidateMsg, .msg 0 .SignatureVerification]) ++
        [Event.step (.msg 0 .VerifyAccountBalance)
          (some (Wrapf .balanceInsufficient "sender balance < tx cost"))] ∧
      (∀ e, Event.step (.msg 0 .ConsumeFeesAndEmitEvent) e ∉
        (md.AnteHandle env ctx tx simulate next w).trace) ∧
      (∀ e, Event.step (.msg 0 .IncrementNonce) e ∉
        (md.AnteHandle env ctx tx simulate next w).trace) ∧
      (∀ t b, Event.next t b ∉ (md.AnteHandle env ctx tx simulate next w).trace) := by
  have hbody : msgLoopBody env md ctx1 tx simulate 0 msg
      { toUtilsContext := uc, TxGasLimit := 0, GasWanted := 0, MinPriority := MaxInt64,
        TxFee := 0 } w2 =
      ⟨.error (ctx1, Wrapf .balanceInsufficient "sender balance < tx cost"), w2,
        okEvents (.msg 0 .UnpackEthMsg ::
          ((if ctx1.IsCheckTx && !simulate then [.msg 0 .CheckMempoolFee] else []) ++
          [.msg 0 .CheckGlobalFee, .msg 0 .ValidateMsg, .msg 0 .SignatureVerification])) ++
        [Event.step (.msg 0 .VerifyAccountBalance)
          (some (Wrapf .balanceInsufficient "sender balance < tx cost"))]⟩ := by
    unfold msgLoopBody
    cases hc : (ctx1.IsCheckTx && !simulate) with
    | true =>
      simp [bind_eq, pure_eq, call, check, Pass.bind, step, hunpack, hmempool hc, hglobal,
        hcontent, hsig, VerifyAccountBalance, TxData.Cost, hbalance, okEvents]
    | false =>
      simp [bind_eq, pure_eq, call, check, Pass.bind, Pass.pure, step, hunpack, hglobal,
        hcontent, hsig, VerifyAccountBalance, TxData.Cost, hbalance, okEvents]
  have hpass : evmPass env md ctx tx simulate w =
      ⟨.error (ctx1, Wrapf .balanceInsufficient "sender balance < tx cost"), w2,
        okEvents ((if ctx.IsReCheckTx then [] else [.ValidateTx]) ++
          [.SetupContext, .NewMonoDecoratorUtils, .msg 0 .UnpackEthMsg] ++
          (if ctx1.IsCheckTx && !simulate then [.msg 0 .CheckMempoolFee] else []) ++
          [.msg 0 .CheckGlobalFee, .msg 0 .ValidateMsg, .msg 0 .SignatureVerification]) ++
        [Event.step (.msg 0 .VerifyAccountBalance)
          (some (Wrapf .balanceInsufficient "sender balance < tx cost"))]⟩ := by
    unfold evmPass
    cases hr : ctx.IsReCheckTx with
    | true =>
      simp [bind_eq, pure_eq, call, check, callCtx, Pass.bind, Pass.pure, step, hsetup,
        NewMonoDecoratorUtils, hutils, hmsgs, msgLoop, hbody, okEvents]
    | false =>
      obtain ⟨fi, hfi⟩ := hvalid hr
      simp [bind_eq, pure_eq, call, check, callCtx, Pass.bind, Pass.pure, step, hfi, hsetup,
        NewMonoDecoratorUtils, hutils, hmsgs, msgLoop, hbody, okEvents]
  unfold EVMMonoDecorator.AnteHandle
  rw [hpass]
  refine ⟨rfl, rfl, rfl, rfl, ?_, ?_, ?_⟩
  · intro e
    cases ctx.IsReCheckTx <;> cases (ctx1.IsCheckTx && !simulate) <;> simp [okEvents]
  · intro e
    cases ctx.IsReCheckTx <;> cases (ctx1.IsCheckTx && !simulate) <;> simp [okEvents]
  · intro t b
    cases ctx.IsReCheckTx <;> cases (ctx1.IsCheckTx && !simulate) <;> simp [okEvents]

/-- The scenario of the spec: price 10, gas 21000, value 0, balance 100000. -/
theorem AnteHandle_insufficient_balance_witness :
    (demoEnv.EvmGetAccount demoMono.evmKeeper checkCtx (HexToAddress (legacyEthMsg 0).From)
        (worldWith 100000)).Balance <
      (legacyEthMsg 0).Data.Value + (legacyEthMsg 0).Data.Fee ∧
    (demoMono.AnteHandle demoEnv checkCtx (evmTx [legacyMsg 0] ⟨210000, 21000⟩) false
        terminalHandler (worldWith 100000)).err =
      some (Wrapf .balanceInsufficient "sender balance < tx cost") ∧
    (demoMono.AnteHandle demoEnv checkCtx (evmTx [legacyMsg 0] ⟨210000, 21000⟩) false
        terminalHandler (worldWith 100000)).world = worldWith 100000 :=
  have h := AnteHandle_insufficient_balance demoEnv demoMono terminalHandler checkCtx checkCtx
    (evmTx [legacyMsg 0] ⟨210000, 21000⟩) false (worldWith 100000) (worldWith 100000)
    (worldWith 100000) (legacyMsg 0) demoUtils
    ⟨legacyEthMsg 0, (legacyEthMsg 0).Data, (legacyEthMsg 0).From⟩ (legacyEthMsg 0)
    rfl (fun _ => ⟨_, rfl⟩) rfl rfl rfl (fun _ => by decide) (by decide) rfl rfl (by decide)
  ⟨by decide, h.1, h.2.2.1⟩

/-! ## The nonce check comes after the fee deduction -/

theorem bind_assoc_eq {σ α β γ : Type} (m : Pass σ α) (f : α → Pass σ β) (g : β → Pass σ γ) :
    Pass.bind (Pass.bind m f) g = Pass.bind m (fun a => Pass.bind (f a) g) := by
  funext w
  unfold Pass.bind
  cases h1 : (m w).val with
  | error e => simp
  | ok a =>
    simp only
    cases h2 : (f a (m w).world).val with
    | error e => simp
    | ok b => simp [List.append_assoc]

theorem msgLoop_append {σ : Type} (env : Collaborators σ) (md : EVMMonoDecorator)
    (ctx : Context) (tx : Tx) (simulate : Bool) (xs ys : List Msg) :
    ∀ (i : Nat) (u : DecoratorUtils),
      msgLoop env md ctx tx simulate i (xs ++ ys) u =
        Pass.bind (msgLoop env md ctx tx simulate i xs u)
          (fun u1 => msgLoop env md ctx tx simulate (i + xs.length) ys u1) := by
  induction xs with
  | nil =>
    intro i u
    simp only [List.nil_append, msgLoop, pure_eq, pure_bind_eq, List.length_nil, Nat.add_zero]
  | cons x rest ih =>
    intro i u
    have harith : i + (rest.length + 1) = i + 1 + rest.length := by omega
    simp only [List.cons_append, msgLoop, bind_eq, bind_assoc_eq, List.length_cons, harith,
      List.append_eq, ih]

/-- The events of the loop body for message `i` up to and including the successful
account load, followed by the failing nonce check. -/
theorem msgLoopBody_nonce_mismatch {σ : Type} (env : Collaborators σ) (md : EVMMonoDecorator)
    (ctx1 : Context) (tx : Tx) (simulate : Bool) (i : Nat) (msg : Msg) (ui : DecoratorUtils)
    (wi w7 w8 : σ) (u : Unpacked) (ethMsg : MsgEthereumTx) (coreMsg : Nat) (fees : Int)
    (acc : Account)
    (hunpack : env.UnpackEthMsg msg = .ok u)
    (hmempool : (ctx1.IsCheckTx && !simulate) = true →
      env.CheckMempoolFee (LegacyNewDecFromBigInt u.txData.Fee) ui.MempoolMinGasPrice
        (LegacyNewDecFromBigInt (u.txData.GetGas : Int)) ui.Rules.IsLondon = none)
    (hglobal : env.CheckGlobalFee (globalCheckFee env u.txData ui.BaseFee) ui.GlobalMinGasPrice
      (LegacyNewDecFromBigInt (u.txData.GetGas : Int)) = none)
    (hcontent : env.ValidateMsg ui.EvmParams u.txData u.sender = none)
    (hsig : env.SignatureVerification u.ethMsg ui.Signer ui.EvmParams.AllowUnprotectedTxs =
      .ok ethMsg)
    (hbalance : VerifyAccountBalance
      (env.EvmGetAccount md.evmKeeper ctx1 (HexToAddress ethMsg.From) wi) u.txData = none)
    (hcore : env.AsMessage ethMsg ui.Signer ui.BaseFee = .ok coreMsg)
    (htransfer : env.CanTransfer ctx1 md.evmKeeper coreMsg ui.BaseFee ui.EthConfig ui.EvmParams
      ui.Rules.IsLondon wi = (none, w7))
    (hfee : env.VerifyFee u.txData ui.EvmDenom ui.BaseFee ui.Rules.IsHomestead
      ui.Rules.IsIstanbul ctx1.IsCheckTx = .ok fees)
    (hconsume : env.ConsumeFeesAndEmitEvent ctx1
      { Bank := md.bankKeeper, Distribution := md.distributionKeeper, Evm := md.evmKeeper,
        Staking := md.stakingKeeper } fees ethMsg.GetFrom w7 = (none, w8))
    (hacc : env.GetAccount md.accountKeeper ctx1 ethMsg.GetFrom w8 = some acc)
    (hnonce : u.txData.GetNonce ≠ acc.Sequence) :
    msgLoopBody env md ctx1 tx simulate i msg ui wi =
      ⟨.error (ctx1, Wrapf .nonceMismatch "invalid nonce"), w8,
        okEvents (.msg i .UnpackEthMsg ::
          ((if ctx1.IsCheckTx && !simulate then [.msg i .CheckMempoolFee] else []) ++
          [ .msg i .CheckGlobalFee, .msg i .ValidateMsg, .msg i .SignatureVerification,
            .msg i .VerifyAccountBalance, .msg i .AsMessage, .msg i .CanTransfer,
            .msg i .VerifyFee, .msg i .ConsumeFeesAndEmitEvent, .msg i .GetAccount ])) ++
        [Event.step (.msg i .IncrementNonce) (some (Wrapf .nonceMismatch "invalid nonce"))]⟩ := by
  unfold msgLoopBody
  cases hc : (ctx1.IsCheckTx && !simulate) with
  | true =>
    simp [bind_eq, pure_eq, call, check, Pass.bind, step, hunpack, hmempool hc, hglobal,
      hcontent, hsig, hbalance, hcore, htransfer, hfee, hconsume, hacc, IncrementNonce, hnonce,
      okEvents]
  | false =>
    simp [bind_eq, pure_eq, call, check, Pass.bind, Pass.pure, step, hunpack, hglobal,
      hcontent, hsig, hbalance, hcore, htransfer, hfee, hconsume, hacc, IncrementNonce, hnonce,
      okEvents]

theorem evmPass_nonce_mismatch {σ : Type} (env : Collaborators σ)
    (md : EVMMonoDecorator) (ctx ctx1 : Context) (tx : Tx) (simulate : Bool)
    (w w1 w2 wi w7 w8 : σ) (pre post : List Msg) (msg : Msg) (uc : UtilsContext)
    (ui : DecoratorUtils) (ti : List Event) (u : Unpacked) (ethMsg : MsgEthereumTx)
    (coreMsg : Nat) (fees : Int) (acc : Account)
    (hmsgs : tx.GetMsgs = pre ++ msg :: post)
    (hvalid : ctx.IsReCheckTx = false → ∃ fi, env.ValidateTx tx = .ok fi)
    (hsetup : env.SetupContext ctx tx md.evmKeeper w = ((ctx1, none), w1))
    (hutils : env.utilsContext ctx1 md.evmKeeper md.feeMarketKeeper w1 = (.ok uc, w2))
    (hpre : msgLoop env md ctx1 tx simulate 0 pre
      { toUtilsContext := uc, TxGasLimit := 0, GasWanted := 0, MinPriority := MaxInt64,
        TxFee := 0 } w2 = ⟨.ok ui, wi, ti⟩)
    (hunpack : env.UnpackEthMsg msg = .ok u)
    (hmempool : (ctx1.IsCheckTx && !simulate) = true →
      env.CheckMempoolFee (LegacyNewDecFromBigInt u.txData.Fee) ui.MempoolMinGasPrice
        (LegacyNewDecFromBigInt (u.txData.GetGas : Int)) ui.Rules.IsLondon = none)
    (hglobal : env.CheckGlobalFee (globalCheckFee env u.txData ui.BaseFee) ui.GlobalMinGasPrice
      (LegacyNewDecFromBigInt (u.txData.GetGas : Int)) = none)
    (hcontent : env.ValidateMsg ui.EvmParams u.txData u.sender = none)
    (hsig : env.SignatureVerification u.ethMsg ui.Signer ui.EvmParams.AllowUnprotectedTxs =
      .ok ethMsg)
    (hbalance : VerifyAccountBalance
      (env.EvmGetAccount md.evmKeeper ctx1 (HexToAddress ethMsg.From) wi) u.txData = none)
    (hcore : env.AsMessage ethMsg ui.Signer ui.BaseFee = .ok coreMsg)
    (htransfer : env.CanTransfer ctx1 md.evmKeeper coreMsg ui.BaseFee ui.EthConfig ui.EvmParams
      ui.Rules.IsLondon wi = (none, w7))
    (hfee : env.VerifyFee u.txData ui.EvmDenom ui.BaseFee ui.Rules.IsHomestead
      ui.Rules.IsIstanbul ctx1.IsCheckTx = .ok fees)
    (hconsume : env.ConsumeFeesAndEmitEvent ctx1
      { Bank := md.bankKeeper, Distribution := md.distributionKeeper, Evm := md.evmKeeper,
        Staking := md.stakingKeeper } fees ethMsg.GetFrom w7 = (none, w8))
    (hacc : env.GetAccount md.accountKeeper ctx1 ethMsg.GetFrom w8 = some acc)
    (hnonce : u.txData.GetNonce ≠ acc.Sequence) :
    evmPass env md ctx tx simulate w =
      ⟨.error (ctx1, Wrapf .nonceMismatch "invalid nonce"), w8,
        okEvents ((if ctx.IsReCheckTx then [] else [.ValidateTx]) ++
          [.SetupContext, .NewMonoDecoratorUtils]) ++ ti ++
        okEvents (.msg pre.length .UnpackEthMsg ::
          ((if ctx1.IsCheckTx && !simulate then [.msg pre.length .CheckMempoolFee] else []) ++
          [ .msg pre.length .CheckGlobalFee, .msg pre.length .ValidateMsg,
            .msg pre.length .SignatureVerification, .msg pre.length .VerifyAccountBalance,
            .msg pre.length .AsMessage, .msg pre.length .CanTransfer,
            .msg pre.length .VerifyFee, .msg pre.length .ConsumeFeesAndEmitEvent,
            .msg pre.length .GetAccount ])) ++
        [Event.step (.msg pre.length .IncrementNonce)
          (some (Wrapf .nonceMismatch "invalid nonce"))]⟩ := by
  have hbody := msgLoopBody_nonce_mismatch env md ctx1 tx simulate pre.length msg ui wi w7 w8 u
    ethMsg coreMsg fees acc hunpack hmempool hglobal hcontent hsig hbalance hcore htransfer hfee
    hconsume hacc hnonce
  have hloop : msgLoop env md ctx1 tx simulate 0 (pre ++ msg :: post)
      { toUtilsContext := uc, TxGasLimit := 0, GasWanted := 0, MinPriority := MaxInt64,
        TxFee := 0 } w2 =
      ⟨.error (ctx1, Wrapf .nonceMismatch "invalid nonce"), w8,
        ti ++ (okEvents (.msg pre.length .UnpackEthMsg ::
          ((if ctx1.IsCheckTx && !simulate then [.msg pre.length .CheckMempoolFee] else []) ++
          [ .msg pre.length .CheckGlobalFee, .msg pre.length .ValidateMsg,
            .msg pre.length .SignatureVerification, .msg pre.length .VerifyAccountBalance,
            .msg pre.length .AsMessage, .msg pre.length .CanTransfer,
            .msg pre.length .VerifyFee, .msg pre.length .ConsumeFeesAndEmitEvent,
            .msg pre.length .GetAccount ])) ++
        [Event.step (.msg pre.length .IncrementNonce)
          (some (Wrapf .nonceMismatch "invalid nonce"))])⟩ := by
    rw [msgLoop_append]
    simp only [Pass.bind, hpre, msgLoop, bind_eq, Nat.zero_add, hbody]
  unfold evmPass
  cases hr : ctx.IsReCheckTx with
  | true =>
    simp [bind_eq, pure_eq, call, check, callCtx, Pass.bind, Pass.pure, step, hsetup,
      NewMonoDecoratorUtils, hutils, hmsgs, hloop, okEvents]
  | false =>
    obtain ⟨fi, hfi⟩ := hvalid hr
    simp [bind_eq, pure_eq, call, check, callCtx, Pass.bind, Pass.pure, step, hfi, hsetup,
      NewMonoDecoratorUtils, hutils, hmsgs, hloop, okEvents]

/-- C4, amended: for a message whose declared nonce differs from the sequence number of
its verified signer's account, if every earlier step of the pass succeeds (the
pre-loop steps, all steps of the earlier messages, and this message's steps up to
the account load), the pass fails at this message's sequence-increment step with the
nonce-mismatch error: that step is the last event, the account is not written and
the next-stage handler is not called. The fee deduction of this message has already
run by then: the world returned is the one the fee deduction left. -/
theorem AnteHandle_nonce_mismatch {σ : Type} (env : Collaborators σ)
    (md : EVMMonoDecorator) (next : Handler σ) (ctx ctx1 : Context) (tx : Tx) (simulate : Bool)
    (w w1 w2 wi w7 w8 : σ) (pre post : List Msg) (msg : Msg) (uc : UtilsContext)
    (ui : DecoratorUtils) (ti : List Event) (u : Unpacked) (ethMsg : MsgEthereumTx)
    (coreMsg : Nat) (fees : Int) (acc : Account)
    (hmsgs : tx.GetMsgs = pre ++ msg :: post)
    (hvalid : ctx.IsReCheckTx = false → ∃ fi, env.ValidateTx tx = .ok fi)
    (hsetup : env.SetupContext ctx tx md.evmKeeper w = ((ctx1, none), w1))
    (hutils : env.utilsContext ctx1 md.evmKeeper md.feeMarketKeeper w1 = (.ok uc, w2))
    (hpre : msgLoop env md ctx1 tx simulate 0 pre
      { toUtilsContext := uc, TxGasLimit := 0, GasWanted := 0, MinPriority := MaxInt64,
        TxFee := 0 } w2 = ⟨.ok ui, wi, ti⟩)
    (hunpack : env.UnpackEthMsg msg = .ok u)
    (hmempool : (ctx1.IsCheckTx && !simulate) = true →
      env.CheckMempoolFee (LegacyNewDecFromBigInt u.txData.Fee) ui.MempoolMinGasPrice
        (LegacyNewDecFromBigInt (u.txData.GetGas : Int)) ui.Rules.IsLondon = none)
    (hglobal : env.CheckGlobalFee (globalCheckFee env u.txData ui.BaseFee) ui.GlobalMinGasPrice
      (LegacyNewDecFromBigInt (u.txData.GetGas : Int)) = none)
    (hcontent : env.ValidateMsg ui.EvmParams u.txData u.sender = none)
    (hsig : env.SignatureVerification u.ethMsg ui.Signer ui.EvmParams.AllowUnprotectedTxs =
      .ok ethMsg)
    (hbalance : VerifyAccountBalance
      (env.EvmGetAccount md.evmKeeper ctx1 (HexToAddress ethMsg.From) wi) u.txData = none)
    (hcore : env.AsMessage ethMsg ui.Signer ui.BaseFee = .ok coreMsg)
    (htransfer : env.CanTransfer ctx1 md.evmKeeper coreMsg ui.BaseFee ui.EthConfig ui.EvmParams
      ui.Rules.IsLondon wi = (none, w7))
    (hfee : env.VerifyFee u.txData ui.EvmDenom ui.BaseFee ui.Rules.IsHomestead
      ui.Rules.IsIstanbul ctx1.IsCheckTx = .ok fees)
    (hconsume : env.ConsumeFeesAndEmitEvent ctx1
      { Bank := md.bankKeeper, Distribution := md.distributionKeeper, Evm := md.evmKeeper,
        Staking := md.stakingKeeper } fees ethMsg.GetFrom w7 = (none, w8))
    (hacc : env.GetAccount md.accountKeeper ctx1 ethMsg.GetFrom w8 = some acc)
    (hnonce : u.txData.GetNonce ≠ acc.Sequence) :
    (md.AnteHandle env ctx tx simulate next w).err =
        some (Wrapf .nonceMismatch "invalid nonce") ∧
      (md.AnteHandle env ctx tx simulate next w).ctx = ctx1 ∧
      (md.AnteHandle env ctx tx simulate next w).world = w8 ∧
      (md.AnteHandle env ctx tx simulate next w).trace =
        okEvents ((if ctx.IsReCheckTx then [] else [.ValidateTx]) ++
          [.SetupContext, .NewMonoDecoratorUtils]) ++ ti ++
        okEvents (.msg pre.length .UnpackEthMsg ::
          ((if ctx1.IsCheckTx && !simulate then [.msg pre.length .CheckMempoolFee] else []) ++
          [ .msg pre.length .CheckGlobalFee, .msg pre.length .ValidateMsg,
            .msg pre.length .SignatureVerification, .msg pre.length .VerifyAccountBalance,
            .msg pre.length .AsMessage, .msg pre.length .CanTransfer,
            .msg pre.length .VerifyFee, .msg pre.length .ConsumeFeesAndEmitEvent,
            .msg pre.length .GetAccount ])) ++
        [Event.step (.msg pre.length .IncrementNonce)
          (some (Wrapf .nonceMismatch "invalid nonce"))] := by
  unfold EVMMonoDecorator.AnteHandle
  rw [evmPass_nonce_mismatch env md ctx ctx1 tx simulate w w1 w2 wi w7 w8 pre post msg uc ui ti u ethMsg coreMsg fees acc hmsgs hvalid hsetup hutils hpre hunpack hmempool hglobal hcontent hsig hbalance hcore htransfer hfee hconsume hacc hnonce]
  exact ⟨rfl, rfl, rfl, rfl⟩

/-- Declared nonce 5 against sequence 0: the pass fails after the fee deduction. -/
theorem AnteHandle_nonce_mismatch_witness :
    (legacyEthMsg 5).Data.GetNonce ≠ (⟨"0xA", 0⟩ : Account).Sequence ∧
    (demoMono.AnteHandle demoEnv checkCtx (evmTx [legacyMsg 5] ⟨210000, 21000⟩) false
        terminalHandler (worldWith 500000)).err =
      some (Wrapf .nonceMismatch "invalid nonce") ∧
    (demoMono.AnteHandle demoEnv checkCtx (evmTx [legacyMsg 5] ⟨210000, 21000⟩) false
        terminalHandler (worldWith 500000)).world =
      (demoEnv.ConsumeFeesAndEmitEvent checkCtx
        { Bank := demoMono.bankKeeper, Distribution := demoMono.distributionKeeper,
          Evm := demoMono.evmKeeper, Staking := demoMono.stakingKeeper }
        210000 "0xA" (worldWith 500000)).2 :=
  have h := AnteHandle_nonce_mismatch demoEnv demoMono terminalHandler checkCtx checkCtx
    (evmTx [legacyMsg 5] ⟨210000, 21000⟩) false (worldWith 500000) (worldWith 500000)
    (worldWith 500000) (worldWith 500000) (worldWith 500000)
    (demoEnv.ConsumeFeesAndEmitEvent checkCtx
      { Bank := demoMono.bankKeeper, Distribution := demoMono.distributionKeeper,
        Evm := demoMono.evmKeeper, Staking := demoMono.stakingKeeper }
      210000 "0xA" (worldWith 500000)).2
    [] [] (legacyMsg 5) demoUtils
    { toUtilsContext := demoUtils, TxGasLimit := 0, GasWanted := 0, MinPriority := MaxInt64,
      TxFee := 0 } []
    ⟨legacyEthMsg 5, (legacyEthMsg 5).Data, (legacyEthMsg 5).From⟩ (legacyEthMsg 5) 0 210000
    ⟨"0xA", 0⟩
    rfl (fun _ => ⟨_, rfl⟩) rfl rfl rfl rfl (fun _ => by decide) (by decide) rfl rfl (by decide)
    rfl rfl rfl rfl rfl (by decide)
  ⟨by decide, h.1, h.2.2.1⟩

/-- C4, as stated, fails: a single legacy message with declared nonce 5 from a sender whose
sequence number is 0 and whose balance is 500000 makes the pass fail with the
nonce-mismatch error, and by then the fee 210000 has been deducted from the sender
and credited to the fee collector; the deduction step is in the trace and the world
returned holds the changed balances. -/
theorem nonce_mismatch_after_fee_deduction :
    (legacyEthMsg 5).Data.GetNonce = 5 ∧
    (worldWith 500000).accounts = [⟨"0xA", 0⟩] ∧
    (worldWith 500000).balance "0xA" = 500000 ∧
    (demoMono.AnteHandle demoEnv checkCtx (evmTx [legacyMsg 5] ⟨210000, 21000⟩) false
        terminalHandler (worldWith 500000)).err =
      some (Wrapf .nonceMismatch "invalid nonce") ∧
    (demoMono.AnteHandle demoEnv checkCtx (evmTx [legacyMsg 5] ⟨210000, 21000⟩) false
        terminalHandler (worldWith 500000)).world.balance "0xA" = 290000 ∧
    (demoMono.AnteHandle demoEnv checkCtx (evmTx [legacyMsg 5] ⟨210000, 21000⟩) false
        terminalHandler (worldWith 500000)).world.balance "fee_collector" = 210000 ∧
    Event.step (.msg 0 .ConsumeFeesAndEmitEvent) none ∈
      (demoMono.AnteHandle demoEnv checkCtx (evmTx [legacyMsg 5] ⟨210000, 21000⟩) false
        terminalHandler (worldWith 500000)).trace := by
  decide

/-! ## The cumulative gas-wanted across the loop -/

theorem bind_val_ok {σ α β : Type} (m : Pass σ α) (f : α → Pass σ β) (w : σ) (b : β)
    (h : (Pass.bind m f w).val = .ok b) :
    ∃ a, (m w).val = .ok a ∧ (f a (m w).world).val = .ok b := by
  unfold Pass.bind at h
  cases hm : (m w).val with
  | error e => simp only [hm] at h; cases h
  | ok a => simp only [hm] at h; exact ⟨a, rfl, h⟩

theorem msgLoopBody_gasWanted {σ : Type} (env : Collaborators σ) (md : EVMMonoDecorator)
    (ctx : Context) (tx : Tx) (simulate : Bool) (i : Nat) (msg : Msg) (u u1 : DecoratorUtils)
    (w : σ) (h : (msgLoopBody env md ctx tx simulate i msg u w).val = .ok u1) :
    ∃ gas, u1.GasWanted = UpdateCumulativeGasWanted gas md.maxGasWanted u.GasWanted := by
  unfold msgLoopBody at h
  simp only [bind_eq, pure_eq] at h
  obtain ⟨un, -, h⟩ := bind_val_ok _ _ _ _ h
  refine ⟨un.txData.GetGas, ?_⟩
  cases hc : (ctx.IsCheckTx && !simulate) with
  | true =>
    simp only [hc, if_true] at h
    iterate 13 (obtain ⟨_, -, h⟩ := bind_val_ok _ _ _ _ h)
    simp only [Pass.pure, Except.ok.injEq] at h
    rw [← h]
  | false =>
    simp only [hc, Bool.false_eq_true, if_false, pure_bind_eq] at h
    iterate 12 (obtain ⟨_, -, h⟩ := bind_val_ok _ _ _ _ h)
    simp only [Pass.pure, Except.ok.injEq] at h
    rw [← h]

theorem msgLoop_gasWanted_le {σ : Type} (env : Collaborators σ) (md : EVMMonoDecorator)
    (ctx : Context) (tx : Tx) (simulate : Bool) (msgs : List Msg) :
    ∀ (i : Nat) (u u1 : DecoratorUtils) (w : σ), u.GasWanted ≤ md.maxGasWanted →
      (msgLoop env md ctx tx simulate i msgs u w).val = .ok u1 →
      u1.GasWanted ≤ md.maxGasWanted := by
  induction msgs with
  | nil =>
    intro i u u1 w hu h
    simp only [msgLoop, pure_eq, Pass.pure, Except.ok.injEq] at h
    rw [← h]; exact hu
  | cons m rest ih =>
    intro i u u1 w hu h
    simp only [msgLoop, bind_eq] at h
    obtain ⟨a, ha, h⟩ := bind_val_ok _ _ _ _ h
    obtain ⟨gas, hg⟩ := msgLoopBody_gasWanted env md ctx tx simulate i m u a w ha
    refine ih (i + 1) a u1 _ ?_ h
    rw [hg]
    exact Nat.min_le_left _ _

/-- C8: in the loop of one pass, started from the accumulator that
`NewMonoDecoratorUtils` returns, the cumulative gas-wanted after the message at index
`k` (the accumulator after `k + 1` messages) is at most the configured maximum and is
at least its value before that message (the accumulator after `k` messages). -/
theorem gasWanted_capped_and_monotone {σ : Type} (env : Collaborators σ)
    (md : EVMMonoDecorator) (ctx : Context) (tx : Tx) (simulate : Bool) (w0 w : σ)
    (u0 uk uk1 : DecoratorUtils) (k : Nat)
    (hutils : (NewMonoDecoratorUtils env ctx md.evmKeeper md.feeMarketKeeper w0).1 = .ok u0)
    (hk : k < tx.GetMsgs.length)
    (hbefore : (msgLoop env md ctx tx simulate 0 (tx.GetMsgs.take k) u0 w).val = .ok uk)
    (hafter : (msgLoop env md ctx tx simulate 0 (tx.GetMsgs.take (k + 1)) u0 w).val = .ok uk1) :
    uk1.GasWanted ≤ md.maxGasWanted ∧ uk.GasWanted ≤ uk1.GasWanted := by
  have h0 : u0.GasWanted = 0 := by
    unfold NewMonoDecoratorUtils at hutils
    cases hu : (env.utilsContext ctx md.evmKeeper md.feeMarketKeeper w0).1 with
    | error e => simp only [hu] at hutils; cases hutils
    | ok c =>
      simp only [hu, Except.ok.injEq] at hutils
      rw [← hutils]
  have hle : uk.GasWanted ≤ md.maxGasWanted :=
    msgLoop_gasWanted_le env md ctx tx simulate _ 0 u0 uk w (by rw [h0]; exact Nat.zero_le _)
      hbefore
  have htake : tx.GetMsgs.take (k + 1) = tx.GetMsgs.take k ++ [tx.GetMsgs.get ⟨k, hk⟩] := by
    rw [List.take_succ]
    congr 1
    simp [List.getElem?_eq_getElem hk]
  rw [htake, msgLoop_append] at hafter
  obtain ⟨a, ha, hafter⟩ := bind_val_ok _ _ _ _ hafter
  rw [hbefore] at ha
  cases ha
  simp only [msgLoop, bind_eq, pure_eq] at hafter
  obtain ⟨b, hb, hafter⟩ := bind_val_ok _ _ _ _ hafter
  simp only [Pass.pure, Except.ok.injEq] at hafter
  subst hafter
  obtain ⟨gas, hg⟩ := msgLoopBody_gasWanted env md ctx tx simulate _ _ uk b _ hb
  rw [hg]
  unfold UpdateCumulativeGasWanted
  exact ⟨Nat.min_le_left _ _, Nat.le_min.mpr ⟨hle, Nat.le_add_right _ _⟩⟩

/-- Two messages of gas 21000 under the maximum 30000: gas-wanted 21000, then 30000. -/
theorem gasWanted_capped_and_monotone_witness :
    (msgLoop demoEnv demoMono checkCtx twoMsgTx false 0 (twoMsgTx.GetMsgs.take 1)
        (demoAccumulator 0 0) (worldWith 500000)).val = .ok (demoAccumulator 1 21000) ∧
    (msgLoop demoEnv demoMono checkCtx twoMsgTx false 0 (twoMsgTx.GetMsgs.take (1 + 1))
        (demoAccumulator 0 0) (worldWith 500000)).val = .ok (demoAccumulator 2 30000) ∧
    (demoAccumulator 2 30000).GasWanted ≤ demoMono.maxGasWanted ∧
    (demoAccumulator 1 21000).GasWanted ≤ (demoAccumulator 2 30000).GasWanted :=
  have h := gasWanted_capped_and_monotone demoEnv demoMono checkCtx twoMsgTx false
    (worldWith 500000) (worldWith 500000) (demoAccumulator 0 0) (demoAccumulator 1 21000)
    (demoAccumulator 2 30000) 1 rfl (by decide) (by decide) (by decide)
  ⟨by decide, by decide, h.1, h.2⟩

/-! ## Re-check passes -/

theorem asReCheck_IsCheckTx (c : Context) : c.asReCheck.IsCheckTx = c.IsCheckTx := rfl

theorem asReCheck_IsReCheckTx (c : Context) : c.asReCheck.IsReCheckTx = true := rfl

theorem mapCtx_pure {σ α : Type} (a : α) : Pass.mapCtx (Pass.pure a : Pass σ α) = Pass.pure a := rfl

theorem mapCtx_bind {σ α β : Type} (m : Pass σ α) (f : α → Pass σ β) :
    Pass.mapCtx (Pass.bind m f) = Pass.bind (Pass.mapCtx m) (fun a => Pass.mapCtx (f a)) := by
  funext w
  unfold Pass.mapCtx Pass.bind
  cases h : (m w).val with
  | error e => simp [h]
  | ok a => simp [h]

theorem mapCtx_call {σ α : Type} (s : Step) (c : Context) (f : σ → Except Error α × σ) :
    Pass.mapCtx (call s c f) = call s c.asReCheck f := by
  funext w
  unfold Pass.mapCtx call step
  cases h : (f w).1 with
  | error e => simp [h]
  | ok a => simp [h]

theorem mapCtx_check {σ : Type} (s : Step) (c : Context) (f : σ → Option Error × σ) :
    Pass.mapCtx (check s c f) = check s c.asReCheck f := by
  funext w
  unfold Pass.mapCtx check step
  cases h : (f w).1 with
  | none => simp [h]
  | some e => simp [h]

theorem IncrementNonce_asReCheck {σ : Type} (env : Collaborators σ) (henv : env.IgnoresReCheck)
    (c : Context) (ak : Ref) (acc : Account) (n : Nat) :
    IncrementNonce env c.asReCheck ak acc n = IncrementNonce env c ak acc n := by
  funext w
  simp only [IncrementNonce, henv.SetAccount]

theorem msgLoopBody_asReCheck {σ : Type} (env : Collaborators σ) (henv : env.IgnoresReCheck)
    (md : EVMMonoDecorator) (c : Context) (tx : Tx) (simulate : Bool) (i : Nat) (msg : Msg)
    (u : DecoratorUtils) :
    msgLoopBody env md c.asReCheck tx simulate i msg u =
      Pass.mapCtx (msgLoopBody env md c tx simulate i msg u) := by
  unfold msgLoopBody
  cases hc : (c.IsCheckTx && !simulate) <;>
    simp only [bind_eq, pure_eq, asReCheck_IsCheckTx, hc, if_true, Bool.false_eq_true, if_false,
      mapCtx_bind, mapCtx_call, mapCtx_check, mapCtx_pure, henv.EvmGetAccount, henv.CanTransfer,
      henv.ConsumeFeesAndEmitEvent, henv.GetAccount, henv.CheckGasWanted, henv.EmitTxHashEvent,
      IncrementNonce_asReCheck env henv]

theorem msgLoop_asReCheck {σ : Type} (env : Collaborators σ) (henv : env.IgnoresReCheck)
    (md : EVMMonoDecorator) (c : Context) (tx : Tx) (simulate : Bool) (msgs : List Msg) :
    ∀ (i : Nat) (u : DecoratorUtils),
      msgLoop env md c.asReCheck tx simulate i msgs u =
        Pass.mapCtx (msgLoop env md c tx simulate i msgs u) := by
  induction msgs with
  | nil => intro i u; rfl
  | cons m rest ih =>
    intro i u
    simp only [msgLoop, bind_eq, mapCtx_bind, msgLoopBody_asReCheck env henv, ih]

theorem mapCtx_ok {σ α : Type} (m : Pass σ α) (w w1 : σ) (a : α) (t : List Event)
    (h : m w = ⟨.ok a, w1, t⟩) : Pass.mapCtx m w = ⟨.ok a, w1, t⟩ := by
  unfold Pass.mapCtx
  rw [h]

theorem evmPass_asReCheck {σ : Type} (env : Collaborators σ) (henv : env.IgnoresReCheck)
    (md : EVMMonoDecorator) (ctx : Context) (tx : Tx) (simulate : Bool) (w : σ)
    (hnot : ctx.IsReCheckTx = false) (r : Context × DecoratorUtils)
    (hpass : (evmPass env md ctx tx simulate w).val = .ok r) :
    ∃ t, evmPass env md ctx tx simulate w = ⟨.ok r, (evmPass env md ctx tx simulate w).world,
        Event.step .ValidateTx none :: t⟩ ∧
      evmPass env md ctx.asReCheck tx simulate w =
        ⟨.ok (r.1.asReCheck, r.2), (evmPass env md ctx tx simulate w).world, t⟩ := by
  cases hv : env.ValidateTx tx with
  | error e =>
    simp [evmPass, bind_eq, pure_eq, call, check, callCtx, Pass.bind, Pass.pure, step, hnot,
      hv] at hpass
  | ok fi =>
  rcases hs : env.SetupContext ctx tx md.evmKeeper w with ⟨⟨ctx1, oe⟩, w1⟩
  cases oe with
  | some e =>
    simp [evmPass, bind_eq, pure_eq, call, check, callCtx, Pass.bind, Pass.pure, step, hnot,
      hv, hs] at hpass
  | none =>
  rcases hu : env.utilsContext ctx1 md.evmKeeper md.feeMarketKeeper w1 with ⟨ru, w2⟩
  cases ru with
  | error e =>
    simp [evmPass, bind_eq, pure_eq, call, check, callCtx, Pass.bind, Pass.pure, step, hnot,
      hv, hs, NewMonoDecoratorUtils, hu] at hpass
  | ok uc =>
  rcases hl : msgLoop env md ctx1 tx simulate 0 tx.GetMsgs
      { toUtilsContext := uc, TxGasLimit := 0, GasWanted := 0, MinPriority := MaxInt64,
        TxFee := 0 } w2 with ⟨vl, wl, tl⟩
  cases vl with
  | error e =>
    simp [evmPass, bind_eq, pure_eq, call, check, callCtx, Pass.bind, Pass.pure, step, hnot,
      hv, hs, NewMonoDecoratorUtils, hu, hl] at hpass
  | ok u1 =>
  cases hf : CheckTxFee fi u1.TxFee u1.TxGasLimit with
  | some e =>
    simp [evmPass, bind_eq, pure_eq, call, check, callCtx, Pass.bind, Pass.pure, step, hnot,
      hv, hs, NewMonoDecoratorUtils, hu, hl, hf] at hpass
  | none =>
  rcases hb : env.CheckBlockGasLimit ctx1 u1.GasWanted u1.MinPriority with ⟨ctx2, oe2⟩
  cases oe2 with
  | some e =>
    simp [evmPass, bind_eq, pure_eq, call, check, callCtx, Pass.bind, Pass.pure, step, hnot,
      hv, hs, NewMonoDecoratorUtils, hu, hl, hf, hb] at hpass
  | none =>
  have hl2 := mapCtx_ok _ _ _ _ _ hl
  rw [← msgLoop_asReCheck env henv] at hl2
  have hs2 := henv.SetupContext ctx tx md.evmKeeper w
  rw [hs] at hs2
  have hb2 := henv.CheckBlockGasLimit ctx1 u1.GasWanted u1.MinPriority
  rw [hb] at hb2
  simp only [evmPass, bind_eq, pure_eq, call, check, callCtx, Pass.bind, Pass.pure, step, hnot,
    hv, hs, NewMonoDecoratorUtils, hu, hl, hf, hb, Bool.false_eq_true, if_false,
    Except.ok.injEq] at hpass
  subst hpass
  refine ⟨[Event.step .SetupContext none, Event.step .NewMonoDecoratorUtils none] ++ tl ++
    [Event.step .CheckTxFee none, Event.step .CheckBlockGasLimit none], ?_, ?_⟩
  · simp [evmPass, bind_eq, pure_eq, call, check, callCtx, Pass.bind, Pass.pure, step, hnot,
      hv, hs, NewMonoDecoratorUtils, hu, hl, hf, hb]
  · have hnone : CheckTxFee none u1.TxFee u1.TxGasLimit = none := rfl
    simp [evmPass, bind_eq, pure_eq, call, check, callCtx, Pass.bind, Pass.pure, step, hnot,
      hv, hs, NewMonoDecoratorUtils, hu, hl, hf, hb, asReCheck_IsReCheckTx, hs2,
      henv.utilsContext, hl2, hnone, hb2]

/-- C9: if a pass that is not a re-check succeeds on a transaction and a world, the same
pass run as a re-check (the same context with the re-check flag set) on the same
transaction and world also succeeds, with the same accumulator (running minimum
priority, cumulative fee, cumulative gas limit, cumulative gas-wanted), the same
context up to the flag and the same world; its steps are those of the first pass
without the structural validation; and the EVM chain, whose next-stage handler is the
terminal handler, returns no error. The collaborators are those that do not read the
re-check flag. -/
theorem recheck_same_outputs {σ : Type} (env : Collaborators σ) (henv : env.IgnoresReCheck)
    (md : EVMMonoDecorator) (ctx : Context) (tx : Tx) (simulate : Bool) (w : σ)
    (hnot : ctx.IsReCheckTx = false) (r : Context × DecoratorUtils)
    (hpass : (evmPass env md ctx tx simulate w).val = .ok r) :
    (evmPass env md ctx.asReCheck tx simulate w).val = .ok (r.1.asReCheck, r.2) ∧
    (evmPass env md ctx.asReCheck tx simulate w).world =
      (evmPass env md ctx tx simulate w).world ∧
    (evmPass env md ctx tx simulate w).trace =
      Event.step .ValidateTx none :: (evmPass env md ctx.asReCheck tx simulate w).trace ∧
    (md.AnteHandle env ctx.asReCheck tx simulate (runChain env []) w).err = none := by
  obtain ⟨t, h1, h2⟩ := evmPass_asReCheck env henv md ctx tx simulate w hnot r hpass
  refine ⟨by rw [h2], by rw [h2], ?_, ?_⟩
  · rw [h2]
    conv_lhs => rw [h1]
  · unfold EVMMonoDecorator.AnteHandle
    simp only [h2, runChain]

/-- The concrete collaborators do not read the re-check flag. -/
theorem demoEnv_ignoresReCheck : demoEnv.IgnoresReCheck where
  SetupContext := fun _ _ _ _ => rfl
  utilsContext := fun _ => rfl
  EvmGetAccount := fun _ _ => rfl
  CanTransfer := fun _ => rfl
  ConsumeFeesAndEmitEvent := fun _ => rfl
  GetAccount := fun _ _ => rfl
  SetAccount := fun _ _ => rfl
  CheckGasWanted := fun _ => rfl
  EmitTxHashEvent := fun _ => rfl
  CheckBlockGasLimit := fun _ _ _ => rfl

/-- A successful mempool check of one message and its re-check. -/
theorem recheck_same_outputs_witness :
    checkCtx.IsReCheckTx = false ∧
    (evmPass demoEnv demoMono checkCtx (evmTx [legacyMsg 0] ⟨210000, 21000⟩) false
        (worldWith 500000)).val = .ok (checkCtx, demoAccumulator 1 21000) ∧
    (evmPass demoEnv demoMono checkCtx.asReCheck (evmTx [legacyMsg 0] ⟨210000, 21000⟩) false
        (worldWith 500000)).val =
      .ok ((checkCtx, demoAccumulator 1 21000).1.asReCheck, (checkCtx, demoAccumulator 1 21000).2) :=
  ⟨rfl, by decide,
   (recheck_same_outputs demoEnv demoEnv_ignoresReCheck demoMono checkCtx
      (evmTx [legacyMsg 0] ⟨210000, 21000⟩) false (worldWith 500000) rfl
      (checkCtx, demoAccumulator 1 21000) (by decide)).1⟩

/-- A redemption on an unknown host zone returns an error and writes nothing. -/
theorem RedeemStake_error_leaves_state_unchanged_witness :
    demoKeeper.RedeemStake ⟨"stride1x", 40, "OSMO", "osmo1y"⟩ [] =
        .returned ⟨.error (Wrapf .ErrInvalidHostZone "host zone is invalid"), [], []⟩ ∧
      (⟨.error (Wrapf .ErrInvalidHostZone "host zone is invalid"), [], []⟩ :
        RedeemRet (List Write)).world = [] ∧
      (⟨.error (Wrapf .ErrInvalidHostZone "host zone is invalid"), [], []⟩ :
        RedeemRet (List Write)).writes = [] :=
  have h := RedeemStake_error_leaves_state_unchanged demoKeeper ⟨"stride1x", 40, "OSMO", "osmo1y"⟩
    [] ⟨.error (Wrapf .ErrInvalidHostZone "host zone is invalid"), [], []⟩
    (Wrapf .ErrInvalidHostZone "host zone is invalid") rfl rfl
  ⟨rfl, h.1, h.2⟩

/-- On the success path the concrete keeper performs the escrow transfer and both record
writes, in that order. -/
theorem RedeemStake_success_writes :
    ∃ r, demoKeeper.RedeemStake ⟨"stride1x", 40, "GAIA", "cosmos1y"⟩ [] = .returned r ∧
      r.resp = .ok {} ∧ r.writes.length = 3 ∧ r.world = r.writes := by
  refine ⟨_, rfl, ?_, ?_, ?_⟩ <;> decide

end Stride
